import Mathlib

/-!
# smd: waypoints, stop predicate, state injection, derivative and elements

A shallow embedding of the propagation engine of `smd`:

* `src/src/dynamics/waypoints.go`  (namespace `smd.dynamics`): the `Loiter`,
  `ReachDistance` and `ReachVelocity` waypoints;
* `src/src/dynamics/astro.go`      (namespace `smd.dynamics`): `Astrocodile.Stop`,
  `Astrocodile.SetState`, `Astrocodile.Func`;
* `src/src/dynamics/orbit.go`      (namespace `smd.dynamics`): `NewOrbitFromOE`,
  `Orbit.GetOE`, `Orbit.ToXCentric`, `Radii2ae`;
* `src/mission.go`                 (namespace `smd`): `NewMission`, `Mission.Stop`,
  `Mission.GetState`, `Mission.SetState`, `Mission.Func`.

Conventions.

* `float64` is an arbitrary linearly ordered field `F` with a floor function
  (exact arithmetic, no rounding); the transcendental functions of Go's `math`
  package are the fields of a record `GoMath F`, whose ideal instance over the
  reals is `GoMath.real`. A field of `GoMath F` gives the value of the function
  where Go returns a number: the theorems about `math.Acos` prove that its
  argument lies in `[-1, 1]`, and those about a quotient that its divisor is
  not zero.
* The derivative of `Mission.Func`, which ends on a NaN check, is computed
  over `Float64 F`: a number of `F`, `+Inf`, `-Inf` or NaN, with the operations
  of IEEE 754 on these values (exact on numbers, zero without sign and taken
  as `+0`).
* `time.Time` and `time.Duration` are integer nanosecond counts.
* A method with a pointer receiver returns the new value of its receiver next
  to its results; a Go `panic` is `Except.error`.
* A channel is the list of what it buffers (`stopChan`) or the record of what
  has been sent to it and whether it has been closed (`histChan`); the
  operations are those of a run in progress, where a send finds room in the
  buffer and the history channel is open when it is sent to or closed.
* A `[]float64` of fixed length `n` is a function `Fin n → F`.
-/

namespace smd

/-! ## Go library: `time` and `math` -/

/-- Go `time.Time`: nanoseconds since the Unix epoch. -/
abbrev Time := Int

/-- Go `time.Duration`: a nanosecond count. -/
abbrev Duration := Int

/-- Go `time.Second`. -/
def Second : Duration := 1000000000

/-- The transcendental part of Go's `math` package, over the scalar type `F`. -/
structure GoMath (F : Type) where
  /-- The constant `math.Pi`. -/
  Pi : F
  /-- The function `math.Sqrt`. -/
  Sqrt : F → F
  /-- The function `math.Sin`. -/
  Sin : F → F
  /-- The function `math.Cos`. -/
  Cos : F → F
  /-- The function `math.Acos` on `[-1, 1]`, where it returns a number. -/
  Acos : F → F
  /-- The function `math.Atan2`, called as `Atan2 y x`. -/
  Atan2 : F → F → F

/-- The ideal `math` package over the real numbers. -/
noncomputable def GoMath.real : GoMath ℝ where
  Pi := Real.pi
  Sqrt := Real.sqrt
  Sin := Real.sin
  Cos := Real.cos
  Acos := Real.arccos
  Atan2 := fun y x => Complex.arg ⟨x, y⟩

namespace math

variable {F : Type} [LinearOrderedField F] [FloorRing F]

/-- Rounding toward zero, the integer quotient `math.Mod` subtracts. -/
def trunc (q : F) : Int :=
  if 0 ≤ q then ⌊q⌋ else ⌈q⌉

/-- Go `math.Mod x y`: the remainder of `x / y` with the sign of `x` and a
magnitude below that of `y`. -/
def Mod (x y : F) : F :=
  x - y * ((trunc (x / y) : Int) : F)

/-- Go `math.Abs`. -/
def Abs (x : F) : F :=
  |x|

/-- Go `math.Pow x y` for the exponents the sources use, 2 and 3. -/
def Pow (x : F) (n : Nat) : F :=
  x ^ n

end math

/-! ## Shared data: celestial bodies -/

/-- The fields of `CelestialObject` the sources read. -/
structure CelestialObject (F : Type) where
  Name : String
  Radius : F
  μ : F
  tilt : F
  SOI : F
  J2 : F
  deriving DecidableEq

namespace dynamics

/-! ## `src/src/dynamics`: orbit, vector helpers -/

/-- The `Orbit` of `src/src/dynamics/orbit.go`: position, velocity and origin. -/
structure Orbit (F : Type) where
  R : Fin 3 → F
  V : Fin 3 → F
  Origin : CelestialObject F

section
variable {F : Type} [LinearOrderedField F]

/-- The helper `norm`: the Euclidean norm of a 3-vector. -/
def norm (M : GoMath F) (v : Fin 3 → F) : F :=
  M.Sqrt (v 0 * v 0 + v 1 * v 1 + v 2 * v 2)

/-- Modelled from the spec: `Spherical2Cartesian` (its file is not part of the
sources); the spherical vector is `(r, θ, φ)` with `θ` the polar angle and `φ`
the azimuth, as `TestSpherical2Cartisean` builds it. -/
def Spherical2Cartesian (M : GoMath F) (a : Fin 3 → F) : Fin 3 → F :=
  ![a 0 * M.Sin (a 1) * M.Cos (a 2),
    a 0 * M.Sin (a 1) * M.Sin (a 2),
    a 0 * M.Cos (a 1)]

/-- Modelled from the spec: `Cartesian2Spherical` (its file is not part of the
sources); a vector of zero norm is sent to the zero vector, as
`TestSpherical2Cartisean` requires. -/
def Cartesian2Spherical (M : GoMath F) (a : Fin 3 → F) : Fin 3 → F :=
  if norm M a = 0 then ![0, 0, 0]
  else ![norm M a, M.Acos (a 2 / norm M a), M.Atan2 (a 1) (a 0)]

end

/-! ## `src/src/dynamics/waypoints.go` -/

/-- The type `WaypointActionEnum` with its constants. -/
inductive WaypointActionEnum where
  | ADDCARGO
  | DROPCARGO
  | REFEARTH
  | REFMARS
  | REFSUN
  deriving DecidableEq, Repr

/-- A piece of cargo, known here by an identifier only. -/
structure Cargo where
  id : Nat
  deriving DecidableEq, Repr

/-- The struct `WaypointAction`. -/
structure WaypointAction where
  Type' : WaypointActionEnum
  Cargo : Option Cargo
  deriving DecidableEq, Repr

/-- The struct `Loiter`. -/
structure Loiter where
  duration : Duration
  startDT : Time
  endDT : Time
  startedLoitering : Bool
  action : Option WaypointAction
  cleared : Bool
  deriving DecidableEq, Repr

/-- The struct `ReachDistance`. -/
structure ReachDistance (F : Type) where
  distance : F
  action : Option WaypointAction
  cleared : Bool

/-- The struct `ReachVelocity`. -/
structure ReachVelocity (F : Type) where
  velocity : F
  action : Option WaypointAction
  epsilon : F
  cleared : Bool

/-- The method `Loiter.Cleared`. -/
def Loiter.Cleared (wp : Loiter) : Bool :=
  wp.cleared

/-- The method `Loiter.Action`. -/
def Loiter.Action (wp : Loiter) : Option WaypointAction :=
  if wp.cleared then wp.action else none

/-- The constructor `NewLoiter`. -/
def NewLoiter (duration : Duration) (action : Option WaypointAction) : Loiter :=
  { duration := duration, startDT := 0, endDT := 0, startedLoitering := false,
    action := action, cleared := false }

/-- The method `ReachDistance.Cleared`. -/
def ReachDistance.Cleared {F : Type} (wp : ReachDistance F) : Bool :=
  wp.cleared

/-- The method `ReachDistance.Action`. -/
def ReachDistance.Action {F : Type} (wp : ReachDistance F) : Option WaypointAction :=
  if wp.cleared then wp.action else none

/-- The constructor `NewReachDistance`. -/
def NewReachDistance {F : Type} (distance : F) (action : Option WaypointAction) :
    ReachDistance F :=
  { distance := distance, action := action, cleared := false }

/-- The constructor `NewOutwardSpiral`. -/
def NewOutwardSpiral {F : Type} (body : CelestialObject F) (action : Option WaypointAction) :
    ReachDistance F :=
  { distance := body.SOI, action := action, cleared := false }

/-- The method `ReachVelocity.Cleared`. -/
def ReachVelocity.Cleared {F : Type} (wp : ReachVelocity F) : Bool :=
  wp.cleared

/-- The method `ReachVelocity.Action`. -/
def ReachVelocity.Action {F : Type} (wp : ReachVelocity F) : Option WaypointAction :=
  if wp.cleared then wp.action else none

section
variable {F : Type} [LinearOrderedField F]

/-- The constructor `NewReachVelocity`. -/
def NewReachVelocity (velocity : F) (action : Option WaypointAction) : ReachVelocity F :=
  { velocity := velocity, action := action, epsilon := 5, cleared := false }

/-- The method `Loiter.AllocateThrust`: the thrust vector, the `reached` flag
and the waypoint after the call. -/
def Loiter.AllocateThrust (wp : Loiter) (_o : Orbit F) (dt : Time) :
    ((Fin 3 → F) × Bool) × Loiter :=
  let dv : Fin 3 → F := ![0, 0, 0]
  if !wp.startedLoitering then
    ((dv, false),
      { wp with startedLoitering := true, startDT := dt, endDT := dt + wp.duration })
  else if dt < wp.endDT then
    ((dv, false), wp)
  else
    ((dv, true), { wp with cleared := true })

/-- The method `ReachDistance.AllocateThrust`. -/
def ReachDistance.AllocateThrust (M : GoMath F) (wp : ReachDistance F) (o : Orbit F)
    (_dt : Time) : ((Fin 3 → F) × Bool) × ReachDistance F :=
  if norm M o.R ≥ wp.distance then
    ((![0, 0, 0], true), { wp with cleared := true })
  else
    let velocityPolar := Cartesian2Spherical M o.V
    ((Spherical2Cartesian M ![1, velocityPolar 1, velocityPolar 2], false), wp)

/-- The method `ReachVelocity.AllocateThrust`. -/
def ReachVelocity.AllocateThrust (M : GoMath F) (wp : ReachVelocity F) (o : Orbit F)
    (_dt : Time) : ((Fin 3 → F) × Bool) × ReachVelocity F :=
  let velocity := norm M o.V
  if math.Abs (velocity - wp.velocity) < wp.epsilon then
    ((![0, 0, 0], true), { wp with cleared := true })
  else
    let velocityPolar := Cartesian2Spherical M o.V
    if velocity < wp.velocity then
      ((Spherical2Cartesian M ![1, velocityPolar 1, velocityPolar 2], false), wp)
    else
      ((Spherical2Cartesian M ![-1, velocityPolar 1, velocityPolar 2], false), wp)

end

/-- The interface `Waypoint`, as the sum of the implementations above. -/
inductive Waypoint (F : Type) where
  | loiter (wp : Loiter)
  | reachDistance (wp : ReachDistance F)
  | reachVelocity (wp : ReachVelocity F)

/-- Interface method `Cleared`. -/
def Waypoint.Cleared {F : Type} : Waypoint F → Bool
  | .loiter wp => wp.Cleared
  | .reachDistance wp => wp.Cleared
  | .reachVelocity wp => wp.Cleared

/-- Interface method `Action`. -/
def Waypoint.Action {F : Type} : Waypoint F → Option WaypointAction
  | .loiter wp => wp.Action
  | .reachDistance wp => wp.Action
  | .reachVelocity wp => wp.Action

/-- The field `action` of the implementation: the action the waypoint was
constructed with. -/
def Waypoint.action {F : Type} : Waypoint F → Option WaypointAction
  | .loiter wp => wp.action
  | .reachDistance wp => wp.action
  | .reachVelocity wp => wp.action

section
variable {F : Type} [LinearOrderedField F]

/-- Interface method `AllocateThrust`. -/
def Waypoint.AllocateThrust (M : GoMath F) (w : Waypoint F) (o : Orbit F) (dt : Time) :
    ((Fin 3 → F) × Bool) × Waypoint F :=
  match w with
  | .loiter wp =>
    let r := wp.AllocateThrust o dt
    (r.1, .loiter r.2)
  | .reachDistance wp =>
    let r := wp.AllocateThrust M o dt
    (r.1, .reachDistance r.2)
  | .reachVelocity wp =>
    let r := wp.AllocateThrust M o dt
    (r.1, .reachVelocity r.2)

/-- The waypoint after a sequence of `AllocateThrust` calls, oldest first. -/
def Waypoint.afterCalls (M : GoMath F) (w : Waypoint F) (calls : List (Orbit F × Time)) :
    Waypoint F :=
  calls.foldl (fun w c => (w.AllocateThrust M c.1 c.2).2) w

/-- The `Loiter` after a sequence of `AllocateThrust` calls, oldest first. -/
def Loiter.afterCalls (wp : Loiter) (calls : List (Orbit F × Time)) : Loiter :=
  calls.foldl (fun w c => (w.AllocateThrust c.1 c.2).2) wp

end

end dynamics

/-! ## Channels and the deferred-action queue -/

/-- A history channel: the snapshots sent so far, oldest first, and whether
the channel has been closed. -/
structure HistChan (S : Type) where
  sent : List S
  closed : Bool

/-- The statement `c <- x`. -/
def HistChan.send {S : Type} (c : HistChan S) (x : S) : HistChan S :=
  { c with sent := c.sent ++ [x] }

/-- The statement `close(c)`. -/
def HistChan.close {S : Type} (c : HistChan S) : HistChan S :=
  { c with closed := true }

/-- A closure queued on `FuncQ`: the frame switch built by
`Spacecraft.ToXCentric(body, dt, orbit)`, or a closure queued elsewhere, known
by an identifier. -/
inductive Callback (F : Type) where
  | ToXCentric (body : CelestialObject F) (dt : Time)
  | queued (id : Nat)

namespace dynamics

/-! ## `src/src/dynamics/astro.go` -/

/-- The step of `astro.go`: `time.Duration(stepSize) * time.Second` with
`stepSize = 1.0`. -/
def stepSize : Duration := 1 * Second

/-- The fields of the package's `Spacecraft` the sources read. -/
structure Spacecraft (F : Type) where
  Name : String
  DryMass : F
  FuelMass : F
  WayPoints : List (Waypoint F)
  FuncQ : List (Option (Callback F))

/-- The struct `AstroState`. -/
structure AstroState (F : Type) where
  dt : Time
  sc : Spacecraft F
  orbit : Orbit F

/-- The struct `Astrocodile`. -/
structure Astrocodile (F : Type) where
  Vehicle : Spacecraft F
  Orbit : Orbit F
  StartDT : Time
  EndDT : Time
  CurrentDT : Time
  StopChan : List Bool
  histChan : Option (HistChan (AstroState F))
  initV : F

/-- The statement `if a.histChan != nil { close(a.histChan) }`. -/
def Astrocodile.closeHist {F : Type} (a : Astrocodile F) : Astrocodile F :=
  { a with histChan := a.histChan.map HistChan.close }

/-- The loop of `Stop` over the waypoints: `true` when it reaches
`return false`, that is when some waypoint is not cleared. -/
def someNotCleared {F : Type} : List (Waypoint F) → Bool
  | [] => false
  | wp :: rest => if !wp.Cleared then true else someNotCleared rest

/-- The method `Astrocodile.Stop`: its result and the propagator after the call. -/
def Astrocodile.Stop {F : Type} (a : Astrocodile F) (_i : Nat) : Bool × Astrocodile F :=
  match a.StopChan with
  | _ :: rest =>
    (true, Astrocodile.closeHist { a with StopChan := rest })
  | [] =>
    let a := { a with CurrentDT := a.CurrentDT + stepSize }
    if a.EndDT < a.StartDT then
      if someNotCleared a.Vehicle.WayPoints then (false, a)
      else (true, a.closeHist)
    else if a.CurrentDT - a.EndDT > 0 then
      (true, a.closeHist)
    else
      (false, a)

/-- The results of successive `Stop` calls with the given arguments, oldest first. -/
def Astrocodile.stopResults {F : Type} (a : Astrocodile F) : List Nat → List Bool
  | [] => []
  | i :: rest => (a.Stop i).1 :: Astrocodile.stopResults (a.Stop i).2 rest

end dynamics

/-! ## `src/mission.go` -/

/-- The type `Propagator`, a `uint8`. -/
abbrev Propagator := Nat

/-- The constant `StepSize`, ten seconds. -/
def StepSize : Duration := 10 * Second

/-- The constant `GaussianVOP`: `iota + 1` on the second line of its block. -/
def GaussianVOP : Propagator := 2

/-- The constant `Cartesian`, on the third line of the block. -/
def Cartesian : Propagator := 3

/-- The `Orbit` of the root package, as `mission.go` reads and writes it: the
six classical elements and the origin. -/
structure Orbit (F : Type) where
  a : F
  e : F
  i : F
  Ω : F
  ω : F
  ν : F
  Origin : CelestialObject F

/-- A record written by the vehicle's logger in `SetState`. -/
inductive LogEntry (F : Type) where
  | collided (name : String) (dt : Time)
  | revived (name : String) (dt : Time)
  | fuel (kg : F)

/-- The fields of the root package's `Spacecraft` that `mission.go` reads and
writes; `logger` holds the records logged so far, oldest first, and the
waypoints are the implementations of `src/src/dynamics/waypoints.go`. -/
structure Spacecraft (F : Type) where
  Name : String
  DryMass : F
  FuelMass : F
  WayPoints : List (dynamics.Waypoint F)
  FuncQ : List (Option (Callback F))
  logger : List (LogEntry F)

/-- The call `sc.logger.Log(...)`. -/
def Spacecraft.Log {F : Type} (sc : Spacecraft F) (r : LogEntry F) : Spacecraft F :=
  { sc with logger := sc.logger ++ [r] }

/-- The struct `MissionState`. -/
structure MissionState (F : Type) where
  DT : Time
  SC : Spacecraft F
  Orbit : Orbit F

/-- The struct `Mission`. -/
structure Mission (F : Type) where
  Vehicle : Spacecraft F
  Orbit : Orbit F
  StartDT : Time
  EndDT : Time
  CurrentDT : Time
  Propagator : Propagator
  includeJ2 : Bool
  stopChan : List Bool
  histChan : Option (HistChan (MissionState F))
  done : Bool
  collided : Bool

/-- What `mission.go` uses and the sources do not define: the `math` package,
the body `Sun`, the constant `eccentricityε`, the methods `Orbit.RNorm` and
`CelestialObject.Equals`, the effect of running a queued closure on the
vehicle and the orbit it captured, the constant `deg2rad`, the constructor
`NewOrbitFromOE` of the root package (called with the elements `a, e, i, Ω, ω,
ν` and the origin; it may panic), the methods `Orbit.SemiParameter` and
`Orbit.HNorm`, and the method `Spacecraft.Accelerate`, which returns the
thrust acceleration and the fuel used and may alter the vehicle. -/
structure Env (F : Type) where
  math : GoMath F
  Sun : CelestialObject F
  eccentricityε : F
  RNorm : Orbit F → F
  Equals : CelestialObject F → CelestialObject F → Bool
  call : Callback F → Spacecraft F × Orbit F → Spacecraft F × Orbit F
  deg2rad : F
  NewOrbitFromOE : F → F → F → F → F → F → CelestialObject F → Except String (Orbit F)
  SemiParameter : Orbit F → F
  HNorm : Orbit F → F
  Accelerate : Spacecraft F → Time → Orbit F → ((Fin 3 → F) × F) × Spacecraft F

/-- The statement `if a.histChan != nil { close(a.histChan) }`. -/
def Mission.closeHist {F : Type} (a : Mission F) : Mission F :=
  { a with histChan := a.histChan.map HistChan.close }

/-- The method `Mission.Stop`: its result and the mission after the call. -/
def Mission.Stop {F : Type} (a : Mission F) (_t : F) : Bool × Mission F :=
  match a.stopChan with
  | _ :: rest =>
    (true, Mission.closeHist { a with stopChan := rest })
  | [] =>
    let a := { a with CurrentDT := a.CurrentDT + StepSize }
    if a.EndDT < a.StartDT then
      if dynamics.someNotCleared a.Vehicle.WayPoints then (false, a)
      else (true, a.closeHist)
    else if a.CurrentDT - a.EndDT > 0 then
      (true, a.closeHist)
    else
      (false, a)

/-- The results of successive `Stop` calls with the given arguments, oldest first. -/
def Mission.stopResults {F : Type} (a : Mission F) : List F → List Bool
  | [] => []
  | t :: rest => (a.Stop t).1 :: Mission.stopResults (a.Stop t).2 rest

section
variable {F : Type} [LinearOrderedField F] [FloorRing F]

/-- The function `floats.EqualWithinAbs` of gonum. -/
def EqualWithinAbs (a b tol : F) : Bool :=
  decide (a = b) || decide (math.Abs (a - b) ≤ tol)

/-- One pass of the loop of `SetState` over the angles: `s[i]` brought back
by one turn when negative, then reduced modulo `2 * math.Pi`. -/
def wrapAngle (M : GoMath F) (s : Fin 7 → F) (i : Fin 7) : Fin 7 → F :=
  let s := if s i < 0 then Function.update s i (s i + 2 * M.Pi) else s
  Function.update s i (math.Mod (s i) (2 * M.Pi))

/-- The loop of `SetState` over `FuncQ`: each closure that is not `nil` is
run, in the order of the queue. -/
def runFuncQ (E : Env F) : List (Option (Callback F)) → Spacecraft F × Orbit F →
    Spacecraft F × Orbit F
  | [], st => st
  | none :: rest, st => runFuncQ E rest st
  | some f :: rest, st => runFuncQ E rest (E.call f st)

/-- The loop of `SetState` over the angles, indices 2 to 5. -/
def wrapAngles (M : GoMath F) (s : Fin 7 → F) : Fin 7 → F :=
  [2, 3, 4, 5].foldl (wrapAngle M) s

/-- First block of `SetState`: with a history channel, the snapshot of the
current time, vehicle and orbit is sent to it. -/
def Mission.sendSnapshot (a : Mission F) : Mission F :=
  match a.histChan with
  | some c =>
    { a with histChan := some (c.send { DT := a.CurrentDT, SC := a.Vehicle, Orbit := a.Orbit }) }
  | none => a

/-- The assignments of the `GaussianVOP` case of `SetState`, from the state
vector with its angles wrapped. -/
def Mission.storeElements (a : Mission F) (s : Fin 7 → F) : Mission F :=
  { a with Orbit := { a.Orbit with
      a := s 0, e := math.Abs (s 1), i := s 2, Ω := s 3, ω := s 4, ν := s 5 } }

/-- The block "Orbit sanity checks and warnings" of `SetState`. -/
def Mission.sanityChecks (E : Env F) (a : Mission F) : Mission F :=
  if !a.collided && decide (E.RNorm a.Orbit < a.Orbit.Origin.Radius) then
    { a with collided := true,
             Vehicle := a.Vehicle.Log (.collided a.Orbit.Origin.Name a.CurrentDT) }
  else if a.collided && decide (E.RNorm a.Orbit > a.Orbit.Origin.Radius * 1.01) then
    -- Now further from the 1% dead zone
    { a with collided := false,
             Vehicle := a.Vehicle.Log (.revived a.Orbit.Origin.Name a.CurrentDT) }
  else if (decide (E.RNorm a.Orbit > a.Orbit.Origin.SOI)
            || EqualWithinAbs a.Orbit.e 1 E.eccentricityε)
          && !E.Equals a.Orbit.Origin E.Sun then
    { a with Vehicle := { a.Vehicle with
        FuncQ := a.Vehicle.FuncQ ++ [some (.ToXCentric E.Sun a.CurrentDT)] } }
  else a

/-- The block "Propulsion sanity check" of `SetState` and the assignment of
the fuel mass. -/
def Mission.fuelCheck (a : Mission F) (s : Fin 7 → F) : Mission F :=
  let a : Mission F :=
    if decide (a.Vehicle.FuelMass > 0) && decide (s 6 ≤ 0) then
      { a with Vehicle := a.Vehicle.Log (.fuel (s 6)) }
    else a
  { a with Vehicle := { a.Vehicle with FuelMass := s 6 } }

/-- Last block of `SetState`: the queued closures are run, then the queue is
replaced by five `nil` entries. -/
def Mission.runQueue (E : Env F) (a : Mission F) : Mission F :=
  let r := runFuncQ E a.Vehicle.FuncQ (a.Vehicle, a.Orbit)
  { a with Vehicle := { r.1 with FuncQ := List.replicate 5 none }, Orbit := r.2 }

/-- The method `Mission.SetState`: the mission after the call, or the panic. -/
def Mission.SetState (E : Env F) (a : Mission F) (_t : F) (s : Fin 7 → F) :
    Except String (Mission F) :=
  let a := a.sendSnapshot
  if a.Propagator = GaussianVOP then
    let s := wrapAngles E.math s
    let a := a.storeElements s
    let a := a.sanityChecks E
    let a := a.fuelCheck s
    .ok (a.runQueue E)
  else
    .error "propagator not implemented"

end

section
variable {F : Type} [LinearOrderedField F] [FloorRing F]

/-- The mission as `SetState` has it after the assignments of the
`GaussianVOP` case: the snapshot sent and the new elements stored. -/
def Mission.updated (E : Env F) (a : Mission F) (s : Fin 7 → F) : Mission F :=
  a.sendSnapshot.storeElements (wrapAngles E.math s)

/-- The mission as `SetState` has it when it reaches the loop over `FuncQ`. -/
def Mission.beforeQueue (E : Env F) (a : Mission F) (s : Fin 7 → F) : Mission F :=
  ((a.updated E s).sanityChecks E).fuelCheck (wrapAngles E.math s)

/-- The method `Mission.GetState`: the state vector, or the panic. -/
def Mission.GetState (a : Mission F) : Except String (Fin 7 → F) :=
  if a.Propagator = GaussianVOP then
    .ok ![a.Orbit.a, a.Orbit.e, a.Orbit.i, a.Orbit.Ω, a.Orbit.ω, a.Orbit.ν,
          a.Vehicle.FuelMass]
  else
    .error "propagator not implemented"

end

/-- A `float64` with its special values: a number, an infinity or NaN. -/
inductive Float64 (F : Type) where
  | num (x : F)
  | posInf
  | negInf
  | NaN

/-- Go `math.IsNaN`. -/
def math.IsNaN {F : Type} : Float64 F → Bool
  | .NaN => true
  | _ => false

/-- A `float64` is finite when it is neither an infinity nor NaN. -/
def Float64.isFinite {F : Type} : Float64 F → Bool
  | .num _ => true
  | _ => false

section
variable {F : Type} [LinearOrderedField F]

/-- The infinity of the given sign. -/
def Float64.inf (negative : Bool) : Float64 F :=
  if negative then .negInf else .posInf

/-- The `float64` negation. -/
def Float64.neg : Float64 F → Float64 F
  | .num x => .num (-x)
  | .posInf => .negInf
  | .negInf => .posInf
  | .NaN => .NaN

/-- The `float64` sum: exact on two numbers; two opposite infinities give NaN. -/
def Float64.add : Float64 F → Float64 F → Float64 F
  | .num x, .num y => .num (x + y)
  | .num _, .posInf => .posInf
  | .num _, .negInf => .negInf
  | .num _, .NaN => .NaN
  | .posInf, .num _ => .posInf
  | .posInf, .posInf => .posInf
  | .posInf, .negInf => .NaN
  | .posInf, .NaN => .NaN
  | .negInf, .num _ => .negInf
  | .negInf, .posInf => .NaN
  | .negInf, .negInf => .negInf
  | .negInf, .NaN => .NaN
  | .NaN, _ => .NaN

/-- The `float64` product: exact on two numbers; zero times an infinity gives
NaN. -/
def Float64.mul : Float64 F → Float64 F → Float64 F
  | .num x, .num y => .num (x * y)
  | .num x, .posInf => if x = 0 then .NaN else Float64.inf (decide (x < 0))
  | .num x, .negInf => if x = 0 then .NaN else Float64.inf (decide (0 < x))
  | .num _, .NaN => .NaN
  | .posInf, .num y => if y = 0 then .NaN else Float64.inf (decide (y < 0))
  | .posInf, .posInf => .posInf
  | .posInf, .negInf => .negInf
  | .posInf, .NaN => .NaN
  | .negInf, .num y => if y = 0 then .NaN else Float64.inf (decide (0 < y))
  | .negInf, .posInf => .negInf
  | .negInf, .negInf => .posInf
  | .negInf, .NaN => .NaN
  | .NaN, _ => .NaN

/-- The `float64` quotient: exact on two numbers with a non-zero divisor; zero
over zero gives NaN, another number over zero an infinity, an infinity over an
infinity NaN. -/
def Float64.div : Float64 F → Float64 F → Float64 F
  | .num x, .num y =>
    if y = 0 then (if x = 0 then .NaN else Float64.inf (decide (x < 0))) else .num (x / y)
  | .num _, .posInf => .num 0
  | .num _, .negInf => .num 0
  | .num _, .NaN => .NaN
  | .posInf, .num y => Float64.inf (decide (y < 0))
  | .posInf, .posInf => .NaN
  | .posInf, .negInf => .NaN
  | .posInf, .NaN => .NaN
  | .negInf, .num y => Float64.inf (decide (0 ≤ y))
  | .negInf, .posInf => .NaN
  | .negInf, .negInf => .NaN
  | .negInf, .NaN => .NaN
  | .NaN, _ => .NaN

instance Float64.instNeg : Neg (Float64 F) := ⟨Float64.neg⟩

instance Float64.instAdd : Add (Float64 F) := ⟨Float64.add⟩

instance Float64.instSub : Sub (Float64 F) := ⟨fun x y => Float64.add x (Float64.neg y)⟩

instance Float64.instMul : Mul (Float64 F) := ⟨Float64.mul⟩

instance Float64.instDiv : Div (Float64 F) := ⟨Float64.div⟩

/-- Go `math.Sqrt` on a `float64`: NaN for a negative number and for `-Inf`. -/
def Float64.Sqrt (M : GoMath F) : Float64 F → Float64 F
  | .num x => if x < 0 then .NaN else .num (M.Sqrt x)
  | .posInf => .posInf
  | .negInf => .NaN
  | .NaN => .NaN

/-- Go `math.Pow x y` on a `float64`, for an exponent that is a natural number:
1 for the exponent 0, and for a positive exponent `+Inf` from `+Inf`, `-Inf` or
`+Inf` from `-Inf` as the exponent is odd or even, NaN from NaN. -/
def Float64.Pow : Float64 F → Nat → Float64 F
  | .num x, n => .num (x ^ n)
  | .posInf, n => if n = 0 then .num 1 else .posInf
  | .negInf, n => if n = 0 then .num 1 else if n % 2 = 1 then .negInf else .posInf
  | .NaN, n => if n = 0 then .num 1 else .NaN

end

/-- The finite values of Go's `float64` (IEEE 754 binary64): an integer of
absolute value below `2 ^ 53` times a power of two (the bounds on the exponent
are left out). -/
def isFloat64 (x : ℝ) : Prop :=
  ∃ m e : ℤ, |m| < 2 ^ 53 ∧ x = m * (2 : ℝ) ^ e

/-- The loop that ends `Mission.Func`, over the seven components of the
derivative it has computed: a panic when a component is NaN, else the return
of the vector. -/
def Mission.checkNaN {F : Type} (fDot : Fin 7 → Float64 F) :
    Except String (Fin 7 → Float64 F) :=
  if (List.finRange 7).any (fun i => math.IsNaN (fDot i)) then
    .error "fDot[i]=NaN"
  else
    .ok fDot

namespace dynamics

/-! ## `src/src/dynamics`: state injection, derivative and orbit construction -/

/-- What `astro.go` and `orbit.go` use and the sources do not define: the
`math` package, the effect of running a queued closure on the vehicle and the
orbit it captured, the method `Spacecraft.Accelerate`, which returns the
thrust acceleration and the fuel used and may alter the vehicle, the function
`Deg2rad`, and the ephemeris `CelestialObject.HelioOrbit`, which returns the
heliocentric position and velocity of a body at a time. -/
structure Env (F : Type) where
  math : GoMath F
  call : Callback F → Spacecraft F × Orbit F → Spacecraft F × Orbit F
  Accelerate : Spacecraft F → Time → Orbit F → ((Fin 3 → F) × F) × Spacecraft F
  Deg2rad : F → F
  HelioOrbit : CelestialObject F → Time → (Fin 3 → F) × (Fin 3 → F)

section
variable {F : Type} [LinearOrderedField F]

/-- The method `Astrocodile.GetState`. -/
def Astrocodile.GetState (a : Astrocodile F) : Fin 7 → F :=
  ![a.Orbit.R 0, a.Orbit.R 1, a.Orbit.R 2, a.Orbit.V 0, a.Orbit.V 1, a.Orbit.V 2,
    a.Vehicle.FuelMass]

/-- First block of `Astrocodile.SetState`: with a history channel, the
snapshot of the current time, vehicle and orbit is sent to it. -/
def Astrocodile.sendSnapshot (a : Astrocodile F) : Astrocodile F :=
  match a.histChan with
  | some c =>
    { a with histChan := some (c.send { dt := a.CurrentDT, sc := a.Vehicle, orbit := a.Orbit }) }
  | none => a

/-- The assignments of `R` and `V` in `Astrocodile.SetState`. -/
def Astrocodile.storeState (a : Astrocodile F) (s : Fin 7 → F) : Astrocodile F :=
  { a with Orbit := { a.Orbit with R := ![s 0, s 1, s 2], V := ![s 3, s 4, s 5] } }

/-- The loop of `Astrocodile.SetState` over `FuncQ`: each closure that is not
`nil` is run, in the order of the queue. -/
def runFuncQ (E : Env F) : List (Option (Callback F)) → Spacecraft F × Orbit F →
    Spacecraft F × Orbit F
  | [], st => st
  | none :: rest, st => runFuncQ E rest st
  | some f :: rest, st => runFuncQ E rest (E.call f st)

/-- The loop of `Astrocodile.SetState` over `FuncQ` and the replacement of the
queue by five `nil` entries. -/
def Astrocodile.runQueue (E : Env F) (a : Astrocodile F) : Astrocodile F :=
  let r := runFuncQ E a.Vehicle.FuncQ (a.Vehicle, a.Orbit)
  { a with Vehicle := { r.1 with FuncQ := List.replicate 5 none }, Orbit := r.2 }

/-- The propagator as `Astrocodile.SetState` has it after the loop over
`FuncQ`. -/
def Astrocodile.afterQueue (E : Env F) (a : Astrocodile F) (s : Fin 7 → F) :
    Astrocodile F :=
  ((a.sendSnapshot).storeState s).runQueue E

/-- The method `Astrocodile.SetState`: the propagator after the call and the
records written to the package's logger, or the panic. -/
def Astrocodile.SetState (E : Env F) (a : Astrocodile F) (_i : Nat) (s : Fin 7 → F) :
    Except String (Astrocodile F × List (LogEntry F)) :=
  let a := a.sendSnapshot
  let a := a.storeState s
  -- Let's execute any function which is in the queue of this time step.
  let a := a.runQueue E
  if norm E.math a.Orbit.R < 0 then
    .error "negative distance to body"
  else
    let logged : List (LogEntry F) :=
      if decide (a.Vehicle.FuelMass > 0) && decide (s 6 ≤ 0) then [.fuel (s 6)] else []
    .ok ({ a with Vehicle := { a.Vehicle with FuelMass := s 6 } }, logged)

/-- The method `Astrocodile.Func`: the derivative and the propagator after
the call to `Accelerate`. -/
def Astrocodile.Func (E : Env F) (a : Astrocodile F) (_t : F) (f : Fin 7 → F) :
    (Fin 7 → F) × Astrocodile F :=
  let radius := norm E.math ![f 0, f 1, f 2]
  -- Let's add the thrust to increase the magnitude of the velocity.
  let r := E.Accelerate a.Vehicle a.CurrentDT a.Orbit
  let Δv := r.1.1
  let usedFuel := r.1.2
  let a : Astrocodile F := { a with Vehicle := r.2 }
  let twoBodyVelocity := -a.Orbit.Origin.μ / math.Pow radius 3
  (![f 3, f 4, f 5,
     f 0 * twoBodyVelocity + Δv 0, f 1 * twoBodyVelocity + Δv 1, f 2 * twoBodyVelocity + Δv 2,
     -usedFuel], a)

/-- The function `MxV33`: a 3×3 matrix times a 3-vector. -/
def MxV33 (m : Fin 3 → Fin 3 → F) (v : Fin 3 → F) : Fin 3 → F :=
  ![m 0 0 * v 0 + m 0 1 * v 1 + m 0 2 * v 2,
    m 1 0 * v 0 + m 1 1 * v 1 + m 1 2 * v 2,
    m 2 0 * v 0 + m 2 1 * v 1 + m 2 2 * v 2]

/-- Modelled from the spec: the rotation matrix `R1` about the first axis (its
file is not part of the sources), with the entries `TestR1R2R3` checks. -/
def R1 (M : GoMath F) (x : F) : Fin 3 → Fin 3 → F :=
  ![![1, 0, 0],
    ![0, M.Cos x, M.Sin x],
    ![0, -M.Sin x, M.Cos x]]

/-- Modelled from the spec: the rotation matrix `R3` about the third axis (its
file is not part of the sources), with the entries `TestR1R2R3` checks. -/
def R3 (M : GoMath F) (x : F) : Fin 3 → Fin 3 → F :=
  ![![M.Cos x, M.Sin x, 0],
    ![-M.Sin x, M.Cos x, 0],
    ![0, 0, 1]]

/-- Modelled from the spec: `PQW2ECI` (its file is not part of the sources),
the 3-1-3 rotation by `-ω`, `-i`, `-Ω` that `TestPQW2ECI` checks. -/
def PQW2ECI (M : GoMath F) (i ω Ω : F) (v : Fin 3 → F) : Fin 3 → F :=
  MxV33 (R3 M (-Ω)) (MxV33 (R1 M (-i)) (MxV33 (R3 M (-ω)) v))

/-- The constructor `NewOrbitFromOE`: the orbit, or the panic. -/
def NewOrbitFromOE (M : GoMath F) (a e i ω Ω ν : F) (c : CelestialObject F) :
    Except String (Orbit F) :=
  -- Check for edge cases which are not supported.
  if ν < 1e-10 then
    .error "ν ~= 0 is not supported"
  else if e < 0 ∨ e > 1 then
    .error "only circular and elliptical orbits supported"
  else
    let μ := c.μ
    let p := a * (1.0 - math.Pow e 2) -- semi-parameter
    -- Compute R and V in the perifocal frame (PQW).
    let R : Fin 3 → F :=
      ![p * M.Cos ν / (1 + e * M.Cos ν), p * M.Sin ν / (1 + e * M.Cos ν), 0]
    let V : Fin 3 → F :=
      ![-M.Sqrt (μ / p) * M.Sin ν, M.Sqrt (μ / p) * (e + M.Cos ν), 0]
    -- Compute ECI rotation.
    .ok { R := PQW2ECI M i ω Ω R, V := PQW2ECI M i ω Ω V, Origin := c }

/-- The function `cross`: the cross product of two 3-vectors. -/
def cross (a b : Fin 3 → F) : Fin 3 → F :=
  ![a 1 * b 2 - a 2 * b 1,
    a 2 * b 0 - a 0 * b 2,
    a 0 * b 1 - a 1 * b 0]

/-- Modelled from the spec: `dot` (its file is not part of the sources), the
inner product of two 3-vectors. -/
def dot (a b : Fin 3 → F) : F :=
  a 0 * b 0 + a 1 * b 1 + a 2 * b 2

/-- The six results of `Orbit.GetOE`. -/
structure Elements (F : Type) where
  a : F
  e : F
  i : F
  ω : F
  Ω : F
  ν : F

/-- The eccentricity vector `eVec` that `Orbit.GetOE` computes. -/
def Orbit.eVec (M : GoMath F) (o : Orbit F) : Fin 3 → F :=
  fun j => ((math.Pow (norm M o.V) 2 - o.Origin.μ / norm M o.R) * o.R j
    - dot o.R o.V * o.V j) / o.Origin.μ

/-- The node vector `N` that `Orbit.GetOE` computes. -/
def Orbit.N (o : Orbit F) : Fin 3 → F :=
  ![-(cross o.R o.V) 1, (cross o.R o.V) 0, 0]

/-- The method `Orbit.GetOE`. -/
def Orbit.GetOE (M : GoMath F) (o : Orbit F) : Elements F :=
  let h := cross o.R o.V
  let N : Fin 3 → F := o.N
  let eVec := o.eVec M
  let e := norm M eVec -- Eccentricity
  -- We suppose the orbit is NOT parabolic.
  let a := -o.Origin.μ / (2 * (0.5 * dot o.V o.V - o.Origin.μ / norm M o.R))
  let i := M.Acos (h 2 / norm M h)
  let Ω := M.Acos (N 0 / norm M N)
  let Ω := if N 1 < 0 then 2 * M.Pi - Ω else Ω
  let ω := M.Acos (dot N eVec / (norm M N * e))
  let ω := if eVec 2 < 0 then 2 * M.Pi - ω else ω
  let ν := M.Acos (dot eVec o.R / (e * norm M o.R))
  let ν := if dot o.R o.V < 0 then 2 * M.Pi - ν else ν
  { a := a, e := e, i := i, ω := ω, Ω := Ω, ν := ν }

/-- The method `Orbit.ToXCentric`: the orbit after the call, or the panic. -/
def Orbit.ToXCentric (E : Env F) (o : Orbit F) (b : CelestialObject F) (dt : Time) :
    Except String (Orbit F) :=
  if o.Origin = b then
    .error "already in orbit around the body"
  else if b.SOI = -1 then
    -- Switch to heliocentric
    let rel := E.HelioOrbit o.Origin dt
    let R := MxV33 (R1 E.math (E.Deg2rad o.Origin.tilt)) o.R
    let V := MxV33 (R1 E.math (E.Deg2rad o.Origin.tilt)) o.V
    .ok { R := fun i => R i + rel.1 i, V := fun i => V i + rel.2 i, Origin := b }
  else
    -- Switch to planet centric
    let rel := E.HelioOrbit b dt
    let R : Fin 3 → F := fun i => o.R i - rel.1 i
    let V : Fin 3 → F := fun i => o.V i - rel.2 i
    .ok { R := MxV33 (R1 E.math (-E.Deg2rad b.tilt)) R,
          V := MxV33 (R1 E.math (-E.Deg2rad b.tilt)) V, Origin := b }

/-- The function `Radii2ae`: the semi-major axis and the eccentricity, or the
panic. -/
def Radii2ae (rA rP : F) : Except String (F × F) :=
  if rA < rP then
    .error "periapsis cannot be greater than apoapsis"
  else
    .ok ((rP + rA) / 2, (rA - rP) / (rA + rP))

end

end dynamics

/-! ## `src/mission.go`: the derivative, the constructor and sequences of calls -/

section
variable {F : Type} [LinearOrderedField F] [FloorRing F]

/-- The seven assignments of the `GaussianVOP` case of `Mission.Func`: the
Gauss variational rates of the orbit `tmpOrbit` under the acceleration `Δv`,
and the fuel rate. The operands are numbers; the operations are those of
`float64`. -/
def Mission.gaussRates (E : Env F) (tmpOrbit : smd.Orbit F) (Δv : Fin 3 → F) (usedFuel : F) :
    Fin 7 → Float64 F :=
  let a : Float64 F := .num tmpOrbit.a
  let e : Float64 F := .num tmpOrbit.e
  let p : Float64 F := .num (E.SemiParameter tmpOrbit)
  let h : Float64 F := .num (E.HNorm tmpOrbit)
  let r : Float64 F := .num (E.RNorm tmpOrbit)
  let sini : Float64 F := .num (E.math.Sin tmpOrbit.i)
  let cosi : Float64 F := .num (E.math.Cos tmpOrbit.i)
  let sinν : Float64 F := .num (E.math.Sin tmpOrbit.ν)
  let cosν : Float64 F := .num (E.math.Cos tmpOrbit.ν)
  let sinζ : Float64 F := .num (E.math.Sin (tmpOrbit.ω + tmpOrbit.ν))
  let cosζ : Float64 F := .num (E.math.Cos (tmpOrbit.ω + tmpOrbit.ν))
  let fR : Float64 F := .num (Δv 0)
  let fS : Float64 F := .num (Δv 1)
  let fW : Float64 F := .num (Δv 2)
  let dΩ := fW * r * sinζ / (h * sini)
  ![((.num 2 * a * a) / h) * (e * sinν * fR + (p / r) * fS),
    (p * sinν * fR + fS * ((p + r) * cosν + r * e)) / h,
    fW * r * cosζ / h,
    dΩ,
    (-p * cosν * fR + (p + r) * sinν * fS) / (h * e) - dΩ * cosi,
    h / (r * r) + ((p * cosν * fR) - (p + r) * sinν * fS) / (e * h),
    -(.num usedFuel)]

/-- The two assignments of the J2 block of `Mission.Func`. -/
def Mission.addJ2 (E : Env F) (tmpOrbit : smd.Orbit F) (fDot : Fin 7 → Float64 F) :
    Fin 7 → Float64 F :=
  let a : Float64 F := .num tmpOrbit.a
  let μ : Float64 F := .num tmpOrbit.Origin.μ
  let J2 : Float64 F := .num tmpOrbit.Origin.J2
  let Radius : Float64 F := .num tmpOrbit.Origin.Radius
  let p : Float64 F := .num (E.SemiParameter tmpOrbit)
  let cosi : Float64 F := .num (E.math.Cos tmpOrbit.i)
  let fDot := Function.update fDot 3 (fDot 3 +
    -(.num 3 * Float64.Sqrt E.math (μ / Float64.Pow a 3) * J2 / .num 2)
      * Float64.Pow (Radius / p) 2 * cosi)
  Function.update fDot 4 (fDot 4 +
    -(.num 3 * Float64.Sqrt E.math (μ / Float64.Pow a 3) * J2 / .num 4)
      * Float64.Pow (Radius / p) 2 * (.num 5 * Float64.Pow cosi 2 - .num 1))

/-- The derivative `Mission.Func` has computed when it reaches its final
check, from the orbit `tmpOrbit` it has built. -/
def Mission.rates (E : Env F) (a : Mission F) (tmpOrbit : smd.Orbit F) : Fin 7 → Float64 F :=
  -- Let's add the thrust to increase the magnitude of the velocity.
  let r := E.Accelerate a.Vehicle a.CurrentDT a.Orbit
  let fDot := Mission.gaussRates E tmpOrbit r.1.1 r.1.2
  if a.includeJ2 && decide (tmpOrbit.Origin.J2 > 0) then Mission.addJ2 E tmpOrbit fDot
  else fDot

/-- The method `Mission.Func`: the derivative and the mission after the call
to `Accelerate`, or the panic. -/
def Mission.Func (E : Env F) (a : Mission F) (_t : F) (f : Fin 7 → F) :
    Except String ((Fin 7 → Float64 F) × Mission F) :=
  if a.Propagator = GaussianVOP then
    match E.NewOrbitFromOE (f 0) (f 1) (f 2 / E.deg2rad) (f 3 / E.deg2rad)
        (f 4 / E.deg2rad) (f 5 / E.deg2rad) a.Orbit.Origin with
    | .error msg => .error msg
    | .ok tmpOrbit =>
      match Mission.checkNaN (a.rates E tmpOrbit) with
      | .error msg => .error msg
      | .ok fDot =>
        .ok (fDot, { a with Vehicle := (E.Accelerate a.Vehicle a.CurrentDT a.Orbit).2 })
  else
    .error "propagator not implemented"

/-- The constructor `NewMission`, without its logging; `useless` is the result
of `conf.IsUseless()`. -/
def NewMission (s : Spacecraft F) (o : Orbit F) (start endDT : Time) (includeJ2 : Bool)
    (useless : Bool) : Mission F :=
  { Vehicle := s, Orbit := o, StartDT := start, EndDT := endDT, CurrentDT := start,
    Propagator := GaussianVOP, includeJ2 := includeJ2, stopChan := [],
    histChan := if useless then none
                else some { sent := [{ DT := start, SC := s, Orbit := o }], closed := false },
    done := false, collided := false }

/-- A call of the integrator on a mission. -/
inductive Call (F : Type) where
  | SetState (t : F) (s : Fin 7 → F)
  | Func (t : F) (f : Fin 7 → F)
  | Stop (t : F)

/-- The mission after a sequence of calls, oldest first, or the first panic. -/
def Mission.run (E : Env F) : Mission F → List (Call F) → Except String (Mission F)
  | a, [] => .ok a
  | a, .SetState t s :: rest =>
    match a.SetState E t s with
    | .ok m => Mission.run E m rest
    | .error msg => .error msg
  | a, .Func t f :: rest =>
    match a.Func E t f with
    | .ok r => Mission.run E r.2 rest
    | .error msg => .error msg
  | a, .Stop t :: rest => Mission.run E (a.Stop t).2 rest

end

/-- The collision and revival reports of a log, oldest first: `true` for a
collision report, `false` for a revival report. -/
def reports {F : Type} : List (LogEntry F) → List Bool
  | [] => []
  | .collided _ _ :: l => true :: reports l
  | .revived _ _ :: l => false :: reports l
  | .fuel _ :: l => reports l

/-- The collided flag after a sequence of reports that alternate from the flag
`c`: each report must differ from the flag before it, which it then replaces;
`none` when two equal reports follow each other or the first one repeats `c`. -/
def flagAfter : Bool → List Bool → Option Bool
  | c, [] => some c
  | c, x :: xs => if x = !c then flagAfter x xs else none

/-! ## Sample data for the concrete instances -/

/-- A body with the figures of the Earth. -/
def sampleBody : CelestialObject ℝ :=
  { Name := "Earth", Radius := 6378, μ := 398600, tilt := 23, SOI := 924645, J2 := 0 }

/-- An orbit at 7000 km on the x axis moving at 1 km/s along the y axis. -/
def sampleOrbit : dynamics.Orbit ℝ :=
  { R := ![7000, 0, 0], V := ![0, 1, 0], Origin := sampleBody }

/-- A vehicle whose only waypoint is the outward spiral of `cmd/continuous`. -/
def sampleVehicle : Spacecraft ℝ :=
  { Name := "IT1", DryMass := 1000, FuelMass := 500,
    WayPoints := [.reachDistance (dynamics.NewOutwardSpiral sampleBody none)],
    FuncQ := [], logger := [] }

/-- An element set around the sample body. -/
def sampleElements : Orbit ℝ :=
  { a := 7000, e := 0.1, i := 0.5, Ω := 1, ω := 1, ν := 1, Origin := sampleBody }

/-- A mission from time 0 to the given end time, without history channel. -/
def sampleMission (endDT : Time) : Mission ℝ :=
  { Vehicle := sampleVehicle, Orbit := sampleElements, StartDT := 0, EndDT := endDT,
    CurrentDT := 0, Propagator := GaussianVOP, includeJ2 := false, stopChan := [],
    histChan := none, done := false, collided := false }

/-- A propagator of `astro.go` from time 0 to the given end time, without
history channel. -/
def sampleAstro (endDT : Time) : dynamics.Astrocodile ℝ :=
  { Vehicle := { Name := "IT1", DryMass := 1000, FuelMass := 500,
                 WayPoints := [.reachDistance (dynamics.NewOutwardSpiral sampleBody none)],
                 FuncQ := [] },
    Orbit := sampleOrbit, StartDT := 0, EndDT := endDT, CurrentDT := 0, StopChan := [],
    histChan := none, initV := 1 }

/-- A body with the figures of the Sun; the Sun has no sphere of influence. -/
def sampleSun : CelestialObject ℝ :=
  { Name := "Sun", Radius := 695700, μ := 132712440017, tilt := 0, SOI := -1, J2 := 0 }

/-- A heliocentric mission in element mode, with an empty deferred-action
queue and no history channel. -/
def helioMission : Mission ℝ :=
  { Vehicle := sampleVehicle,
    Orbit := { a := 150000000, e := 0.1, i := 0.5, Ω := 1, ω := 1, ν := 1, Origin := sampleSun },
    StartDT := 0, EndDT := 86400000000000, CurrentDT := 0, Propagator := GaussianVOP,
    includeJ2 := false, stopChan := [], histChan := none, done := false, collided := false }

/-- An environment over the reals: bodies are compared by name, the radial
distance is that of the conic, and queued closures are left without effect. -/
noncomputable def sampleEnv : Env ℝ :=
  { math := GoMath.real, Sun := sampleSun, eccentricityε := 0.00005,
    RNorm := fun o => o.a * (1 - o.e ^ 2) / (1 + o.e * Real.cos o.ν),
    Equals := fun a b => decide (a.Name = b.Name),
    call := fun _ st => st,
    deg2rad := Real.pi / 180,
    NewOrbitFromOE := fun a e i Ω ω ν c =>
      .ok { a := a, e := e, i := i * (Real.pi / 180), Ω := Ω * (Real.pi / 180),
            ω := ω * (Real.pi / 180), ν := ν * (Real.pi / 180), Origin := c },
    SemiParameter := fun o => o.a * (1 - o.e ^ 2),
    HNorm := fun o => Real.sqrt (o.Origin.μ * (o.a * (1 - o.e ^ 2))),
    Accelerate := fun v _ _ => ((![0, 0, 0], 0), v) }

/-- An environment of `astro.go` over the reals: queued closures are left
without effect, the vehicle does not thrust, and the sample body stays at
(100, 0, 0) with velocity (0, 30, 0) while every other body stays at
(200, 0, 0) with velocity (0, 20, 0). -/
noncomputable def sampleAstroEnv : dynamics.Env ℝ :=
  { math := GoMath.real,
    call := fun _ st => st,
    Accelerate := fun v _ _ => ((![0, 0, 0], 0), v),
    Deg2rad := fun x => x * (Real.pi / 180),
    HelioOrbit := fun c _ =>
      if c.Name = "Earth" then (![100, 0, 0], ![0, 30, 0]) else (![200, 0, 0], ![0, 20, 0]) }

/-- An open history channel to which nothing has been sent. -/
def emptyHist (S : Type) : HistChan S :=
  { sent := [], closed := false }

/-- A mission around the sample body with a history channel and a pending
stop request. -/
def stoppingMission : Mission ℝ :=
  { Vehicle := sampleVehicle, Orbit := sampleElements, StartDT := 0, EndDT := 86400000000000,
    CurrentDT := 50000000000, Propagator := GaussianVOP, includeJ2 := false,
    stopChan := [true], histChan := some (emptyHist (MissionState ℝ)), done := false,
    collided := false }

/-- A mission around the sample body whose collided flag is set. -/
def collidedMission : Mission ℝ :=
  { Vehicle := sampleVehicle, Orbit := sampleElements, StartDT := 0, EndDT := 86400000000000,
    CurrentDT := 50000000000, Propagator := GaussianVOP, includeJ2 := false,
    stopChan := [], histChan := none, done := false, collided := true }

/-- A mission around the sample body whose propagator is `Cartesian`. -/
def cartesianMission : Mission ℝ :=
  { Vehicle := sampleVehicle, Orbit := sampleElements, StartDT := 0, EndDT := 86400000000000,
    CurrentDT := 0, Propagator := Cartesian, includeJ2 := false,
    stopChan := [], histChan := none, done := false, collided := false }

/-- A propagator of `astro.go` with a history channel and a queue holding a
`nil` entry and a closure. -/
def queuedAstro : dynamics.Astrocodile ℝ :=
  { Vehicle := { Name := "IT1", DryMass := 1000, FuelMass := 500,
                 WayPoints := [], FuncQ := [none, some (.queued 1)] },
    Orbit := sampleOrbit, StartDT := 0, EndDT := 86400000000000, CurrentDT := 0,
    StopChan := [], histChan := some (emptyHist (dynamics.AstroState ℝ)), initV := 1 }

/-- A state vector on a circular orbit of radius 1000000 km, beyond the sphere
of influence of the sample body, with 500 kg of fuel. -/
def farState : Fin 7 → ℝ :=
  ![1000000, 0, 1, 1, 1, 1, 500]

/-- A second planet, with the figures of Mars. -/
def sampleMars : CelestialObject ℝ :=
  { Name := "Mars", Radius := 3397, μ := 43050, tilt := 25, SOI := 576000, J2 := 0 }

/-- A heliocentric orbit 1000000000 km from the Sun on the x axis, far outside
the sphere of influence of the sample body. -/
def helioFarOrbit : dynamics.Orbit ℝ :=
  { R := ![1000000000, 0, 0], V := ![0, 30, 0], Origin := sampleSun }

/-- A body with a negative oblateness coefficient. -/
def prolateBody : CelestialObject ℝ :=
  { Name := "Prolate", Radius := 6378, μ := 398600, tilt := 0, SOI := 924645, J2 := -0.001 }

/-- A mission around the body with a negative oblateness coefficient, with
J2 enabled. -/
def j2Mission : Mission ℝ :=
  { Vehicle := sampleVehicle,
    Orbit := { a := 7000, e := 0.1, i := 0.5, Ω := 1, ω := 1, ν := 1, Origin := prolateBody },
    StartDT := 0, EndDT := 86400000000000, CurrentDT := 0, Propagator := GaussianVOP,
    includeJ2 := true, stopChan := [], histChan := none, done := false, collided := false }

/-- A state vector of elements with zero inclination. -/
def flatState : Fin 7 → ℝ :=
  ![7000, 0.1, 0, 1, 1, 1, 500]

/-- A state vector of elements with an inclination of half a radian. -/
def elementState : Fin 7 → ℝ :=
  ![7000, 0.1, 0.5, 1, 1, 1, 500]

/-- The orbit of `elementState` around the body with a negative oblateness
coefficient. -/
def elementOrbit : Orbit ℝ :=
  { a := 7000, e := 0.1, i := 0.5, Ω := 1, ω := 1, ν := 1, Origin := prolateBody }

/-- A state vector of elements with zero eccentricity. -/
def circularState : Fin 7 → ℝ :=
  ![7000, 0, 0.5, 1, 1, 1, 500]

/-- The sample environment with a vehicle that thrusts along the orbit normal
and uses no fuel. -/
noncomputable def thrustEnv : Env ℝ :=
  { sampleEnv with Accelerate := fun v _ _ => ((![0, 0, 1], 0), v) }

/-- An inclined orbit around the sample body. -/
def inclinedOrbit : dynamics.Orbit ℝ :=
  { R := ![7000, 0, 0], V := ![0, 5, 5], Origin := sampleBody }

/-- The results of `n` successive `Stop` calls of a run with an end time `E`
not before its start time, from the current time `c` and with the given step:
each call adds the step and reports whether the end time is passed. -/
def stopSchedule (step E : Int) : Int → Nat → List Bool
  | _, 0 => []
  | c, n + 1 => decide (c + step - E > 0) :: stopSchedule step E (c + step) n

/-! ## Theorems: waypoints -/

namespace dynamics

section
variable {F : Type} [LinearOrderedField F]

/-- C2: `ReachDistance.AllocateThrust` returns true and sets the cleared flag
exactly when the radial distance is at least the target distance; a waypoint
that is not cleared, below the target distance, returns false and stays
not cleared. -/
theorem ReachDistance_AllocateThrust_clears_iff (M : GoMath F) (wp : ReachDistance F)
    (o : Orbit F) (t : Time) :
    (((wp.AllocateThrust M o t).1.2 = true ∧ (wp.AllocateThrust M o t).2.Cleared = true)
        ↔ norm M o.R ≥ wp.distance) ∧
    ((wp.AllocateThrust M o t).1.2 = true ↔ norm M o.R ≥ wp.distance) ∧
    (wp.Cleared = false → norm M o.R < wp.distance →
        (wp.AllocateThrust M o t).1.2 = false ∧
        (wp.AllocateThrust M o t).2.Cleared = false) := by
  unfold ReachDistance.AllocateThrust ReachDistance.Cleared
  by_cases h : norm M o.R ≥ wp.distance
  · simp [h]
  · simp only [h, if_false]
    exact ⟨by simp, by simp, fun h1 _ => ⟨by simp, h1⟩⟩

/-- One `AllocateThrust` call never resets the cleared flag. -/
theorem Waypoint.cleared_step (M : GoMath F) (w : Waypoint F) (o : Orbit F) (t : Time)
    (h : w.Cleared = true) : (w.AllocateThrust M o t).2.Cleared = true := by
  cases w with
  | loiter wp =>
    simp only [Waypoint.Cleared, Loiter.Cleared] at h
    simp only [Waypoint.AllocateThrust, Waypoint.Cleared, Loiter.Cleared,
      Loiter.AllocateThrust]
    split_ifs <;> simp [h]
  | reachDistance wp =>
    simp only [Waypoint.Cleared, ReachDistance.Cleared] at h
    simp only [Waypoint.AllocateThrust, Waypoint.Cleared, ReachDistance.Cleared,
      ReachDistance.AllocateThrust]
    split_ifs <;> simp [h]
  | reachVelocity wp =>
    simp only [Waypoint.Cleared, ReachVelocity.Cleared] at h
    simp only [Waypoint.AllocateThrust, Waypoint.Cleared, ReachVelocity.Cleared,
      ReachVelocity.AllocateThrust]
    split_ifs <;> simp [h]

/-- A cleared waypoint is still cleared after any sequence of calls. -/
theorem Waypoint.cleared_afterCalls (M : GoMath F) (calls : List (Orbit F × Time)) :
    ∀ w : Waypoint F, w.Cleared = true → (w.afterCalls M calls).Cleared = true := by
  induction calls with
  | nil => intro w h; simpa [Waypoint.afterCalls] using h
  | cons c rest ih =>
    intro w h
    have := ih _ (Waypoint.cleared_step M w c.1 c.2 h)
    simpa [Waypoint.afterCalls] using this

/-- Calls made one sequence after another are the calls of the joined sequence. -/
theorem Waypoint.afterCalls_append (M : GoMath F) (w : Waypoint F)
    (calls₁ calls₂ : List (Orbit F × Time)) :
    w.afterCalls M (calls₁ ++ calls₂) = (w.afterCalls M calls₁).afterCalls M calls₂ := by
  simp [Waypoint.afterCalls, List.foldl_append]

/-- C3: for a `Loiter`, `ReachDistance` or `ReachVelocity` waypoint and any
sequence of `AllocateThrust` calls, once `Cleared()` is true after some calls
it is true after every longer sequence of calls. -/
theorem Waypoint_cleared_monotonic (M : GoMath F) (w : Waypoint F)
    (calls later : List (Orbit F × Time))
    (h : (w.afterCalls M calls).Cleared = true) :
    (w.afterCalls M (calls ++ later)).Cleared = true := by
  rw [Waypoint.afterCalls_append]
  exact Waypoint.cleared_afterCalls M later _ h

end

/-- Witness of C3: a loiter of zero duration is cleared by its second call
and remains cleared after a third. -/
theorem Waypoint_cleared_monotonic_witness :
    ((Waypoint.loiter (NewLoiter 0 none)).afterCalls GoMath.real
        [(sampleOrbit, 0), (sampleOrbit, 0)]).Cleared = true ∧
    ((Waypoint.loiter (NewLoiter 0 none)).afterCalls GoMath.real
        ([(sampleOrbit, 0), (sampleOrbit, 0)] ++ [(sampleOrbit, 5)])).Cleared = true :=
  ⟨by decide, Waypoint_cleared_monotonic GoMath.real _ _ _ (by decide)⟩

/-- The method `Action` returns the stored action when cleared and `nil` otherwise. -/
theorem Waypoint.Action_eq {F : Type} (w : Waypoint F) :
    w.Action = if w.Cleared = true then w.action else none := by
  cases w <;> rfl

section
variable {F : Type} [LinearOrderedField F]

/-- One `AllocateThrust` call leaves the stored action as it is. -/
theorem Waypoint.action_step (M : GoMath F) (w : Waypoint F) (o : Orbit F) (t : Time) :
    (w.AllocateThrust M o t).2.action = w.action := by
  cases w with
  | loiter wp =>
    simp only [Waypoint.AllocateThrust, Waypoint.action, Loiter.AllocateThrust]
    split_ifs <;> rfl
  | reachDistance wp =>
    simp only [Waypoint.AllocateThrust, Waypoint.action, ReachDistance.AllocateThrust]
    split_ifs <;> rfl
  | reachVelocity wp =>
    simp only [Waypoint.AllocateThrust, Waypoint.action, ReachVelocity.AllocateThrust]
    split_ifs <;> rfl

/-- Any sequence of calls leaves the stored action as it is. -/
theorem Waypoint.action_afterCalls (M : GoMath F) (calls : List (Orbit F × Time)) :
    ∀ w : Waypoint F, (w.afterCalls M calls).action = w.action := by
  induction calls with
  | nil => intro w; rfl
  | cons c rest ih =>
    intro w
    have h := ih (w.AllocateThrust M c.1 c.2).2
    rw [Waypoint.action_step] at h
    simpa [Waypoint.afterCalls] using h

/-- C4: for a `Loiter`, `ReachDistance` or `ReachVelocity` waypoint, after any
sequence of calls `Action()` is `nil` while the waypoint is not cleared and is
the action the waypoint was constructed with once it is cleared; a freshly
constructed waypoint stores the given action and is not cleared. -/
theorem Waypoint_Action_only_after_clearing (M : GoMath F) (w : Waypoint F)
    (calls : List (Orbit F × Time)) (D : Duration) (d v : F) (body : CelestialObject F)
    (act : Option WaypointAction) :
    ((w.afterCalls M calls).Cleared = false → (w.afterCalls M calls).Action = none) ∧
    ((w.afterCalls M calls).Cleared = true → (w.afterCalls M calls).Action = w.action) ∧
    ((Waypoint.loiter (NewLoiter D act) : Waypoint F).action = act ∧
      (Waypoint.loiter (NewLoiter D act) : Waypoint F).Cleared = false) ∧
    ((Waypoint.reachDistance (NewReachDistance d act)).action = act ∧
      (Waypoint.reachDistance (NewReachDistance d act)).Cleared = false) ∧
    ((Waypoint.reachDistance (NewOutwardSpiral body act)).action = act ∧
      (Waypoint.reachDistance (NewOutwardSpiral body act)).Cleared = false) ∧
    ((Waypoint.reachVelocity (NewReachVelocity v act)).action = act ∧
      (Waypoint.reachVelocity (NewReachVelocity v act)).Cleared = false) := by
  refine ⟨?_, ?_, ⟨rfl, rfl⟩, ⟨rfl, rfl⟩, ⟨rfl, rfl⟩, ⟨rfl, rfl⟩⟩
  · intro h
    rw [Waypoint.Action_eq, h]
    simp
  · intro h
    rw [Waypoint.Action_eq, h, Waypoint.action_afterCalls]
    simp

/-- A loiter that has started keeps its start and end times in one call. -/
theorem Loiter.started_step (wp : Loiter) (o : Orbit F) (t : Time)
    (h : wp.startedLoitering = true) :
    (wp.AllocateThrust o t).2.startedLoitering = true ∧
    (wp.AllocateThrust o t).2.startDT = wp.startDT ∧
    (wp.AllocateThrust o t).2.endDT = wp.endDT := by
  simp only [Loiter.AllocateThrust, h]
  split_ifs <;> simp_all

/-- A loiter that has started keeps its start and end times in all later calls. -/
theorem Loiter.started_afterCalls (calls : List (Orbit F × Time)) :
    ∀ wp : Loiter, wp.startedLoitering = true →
      (wp.afterCalls calls).startedLoitering = true ∧
      (wp.afterCalls calls).startDT = wp.startDT ∧
      (wp.afterCalls calls).endDT = wp.endDT := by
  induction calls with
  | nil => intro wp h; exact ⟨h, rfl, rfl⟩
  | cons c rest ih =>
    intro wp h
    obtain ⟨h1, h2, h3⟩ := Loiter.started_step wp c.1 c.2 h
    obtain ⟨k1, k2, k3⟩ := ih _ h1
    refine ⟨?_, ?_, ?_⟩
    · simpa [Loiter.afterCalls] using k1
    · rw [← h2, ← k2]; simp [Loiter.afterCalls]
    · rw [← h3, ← k3]; simp [Loiter.afterCalls]

/-- C5: the first `AllocateThrust` call of a fresh `Loiter` of duration `D`,
at time `t0`, records start time `t0` and end time `t0 + D` and returns zero
thrust without clearing; after any later calls, a call at time `t` returns zero
thrust, keeps the recorded times, and returns true and sets the cleared flag
exactly when `t` is not before `t0 + D`. -/
theorem Loiter_AllocateThrust_timer (D : Duration) (act : Option WaypointAction)
    (o0 : Orbit F) (t0 : Time) (calls : List (Orbit F × Time)) (o : Orbit F) (t : Time) :
    (((NewLoiter D act).AllocateThrust o0 t0).1 = (![0, 0, 0], false) ∧
      ((NewLoiter D act).AllocateThrust o0 t0).2.startDT = t0 ∧
      ((NewLoiter D act).AllocateThrust o0 t0).2.endDT = t0 + D ∧
      ((NewLoiter D act).AllocateThrust o0 t0).2.Cleared = false) ∧
    (((((NewLoiter D act).AllocateThrust o0 t0).2.afterCalls calls).AllocateThrust o t).1.1
        = ![0, 0, 0]) ∧
    ((((((NewLoiter D act).AllocateThrust o0 t0).2.afterCalls calls).AllocateThrust o t).1.2
        = true ∧
      ((((NewLoiter D act).AllocateThrust o0 t0).2.afterCalls calls).AllocateThrust o t).2.Cleared
        = true) ↔ ¬ t < t0 + D) ∧
    (((((NewLoiter D act).AllocateThrust o0 t0).2.afterCalls calls).AllocateThrust o t).1.2
        = true ↔ ¬ t < t0 + D) ∧
    (((((NewLoiter D act).AllocateThrust o0 t0).2.afterCalls calls).AllocateThrust o t).2.startDT
        = t0 ∧
      ((((NewLoiter D act).AllocateThrust o0 t0).2.afterCalls calls).AllocateThrust o t).2.endDT
        = t0 + D) := by
  have hs : ((NewLoiter D act).AllocateThrust o0 t0).2.startedLoitering = true := rfl
  have h1 : ((NewLoiter D act).AllocateThrust o0 t0).2.startDT = t0 := rfl
  have h2 : ((NewLoiter D act).AllocateThrust o0 t0).2.endDT = t0 + D := rfl
  obtain ⟨k1, k2, k3⟩ := Loiter.started_afterCalls calls _ hs
  rw [h1] at k2
  rw [h2] at k3
  generalize (((NewLoiter D act).AllocateThrust o0 t0).2.afterCalls calls) = wp at k1 k2 k3
  refine ⟨⟨rfl, rfl, rfl, rfl⟩, ?_, ?_, ?_, ?_⟩
  · simp only [Loiter.AllocateThrust]
    split_ifs <;> rfl
  · simp only [Loiter.AllocateThrust, Loiter.Cleared, k1, k3]
    by_cases h : t < t0 + D <;> simp [h]
  · simp only [Loiter.AllocateThrust, k1, k3]
    by_cases h : t < t0 + D <;> simp [h]
  · simp only [Loiter.AllocateThrust, k1, k3]
    by_cases h : t < t0 + D <;> simp [h, k2, k3]

/-- C6: `ReachVelocity.AllocateThrust` returns true, with a zero thrust vector
and the cleared flag set, exactly when the speed is within the tolerance of
the target speed; `NewReachVelocity` sets the tolerance to 5. -/
theorem ReachVelocity_AllocateThrust_clears_iff (M : GoMath F) (wp : ReachVelocity F)
    (o : Orbit F) (t : Time) (v : F) (act : Option WaypointAction) :
    ((wp.AllocateThrust M o t).1.2 = true ↔ |norm M o.V - wp.velocity| < wp.epsilon) ∧
    (((wp.AllocateThrust M o t).1 = (![0, 0, 0], true) ∧
        (wp.AllocateThrust M o t).2.Cleared = true)
      ↔ |norm M o.V - wp.velocity| < wp.epsilon) ∧
    (NewReachVelocity v act).epsilon = 5 ∧
    (NewReachVelocity v act).velocity = v := by
  refine ⟨?_, ?_, rfl, rfl⟩
  · simp only [ReachVelocity.AllocateThrust, math.Abs]
    by_cases h : |norm M o.V - wp.velocity| < wp.epsilon
    · simp [h]
    · simp only [h, if_false]
      split_ifs <;> simp
  · simp only [ReachVelocity.AllocateThrust, math.Abs, ReachVelocity.Cleared]
    by_cases h : |norm M o.V - wp.velocity| < wp.epsilon
    · simp [h]
    · simp only [h, if_false]
      split_ifs <;> simp

end


/-! ## Theorems: thrust direction over the reals -/

/-- The sine of the polar angle of `(x, y, z)`. -/
theorem sin_polar (x y z : ℝ) (hn : 0 < Real.sqrt (x * x + y * y + z * z)) :
    Real.sin (Real.arccos (z / Real.sqrt (x * x + y * y + z * z)))
      = Real.sqrt (x * x + y * y) / Real.sqrt (x * x + y * y + z * z) := by
  have hs : 0 < x * x + y * y + z * z := Real.sqrt_pos.mp hn
  rw [Real.sin_arccos, div_pow, Real.sq_sqrt hs.le]
  have : 1 - z ^ 2 / (x * x + y * y + z * z) = (x * x + y * y) / (x * x + y * y + z * z) := by
    field_simp
    ring
  rw [this, Real.sqrt_div (add_nonneg (mul_self_nonneg x) (mul_self_nonneg y))]

/-- The cosine of the polar angle of `(x, y, z)`. -/
theorem cos_polar (x y z : ℝ) (hn : 0 < Real.sqrt (x * x + y * y + z * z)) :
    Real.cos (Real.arccos (z / Real.sqrt (x * x + y * y + z * z)))
      = z / Real.sqrt (x * x + y * y + z * z) := by
  have hs : 0 < x * x + y * y + z * z := Real.sqrt_pos.mp hn
  have hz : |z| ≤ Real.sqrt (x * x + y * y + z * z) := by
    apply Real.abs_le_sqrt
    nlinarith [mul_self_nonneg x, mul_self_nonneg y]
  have h := abs_le.mp hz
  apply Real.cos_arccos
  · rw [le_div_iff₀ hn]; linarith [h.1]
  · rw [div_le_iff₀ hn]; linarith [h.2]

/-- The cosine of the azimuth of `(x, y)`, scaled by the planar radius. -/
theorem azimuth_cos (x y : ℝ) :
    Real.sqrt (x * x + y * y) * Real.cos (Complex.arg ⟨x, y⟩) = x := by
  by_cases h : (⟨x, y⟩ : ℂ) = 0
  · have hx : x = 0 := by simpa using congrArg Complex.re h
    have hy : y = 0 := by simpa using congrArg Complex.im h
    subst hx; subst hy
    simp
  · rw [Complex.cos_arg h, Complex.abs_apply, Complex.normSq_mk]
    have hp : Real.sqrt (x * x + y * y) ≠ 0 := by
      intro h0
      apply h
      have := (Real.sqrt_eq_zero (add_nonneg (mul_self_nonneg x) (mul_self_nonneg y))).mp h0
      have hx : x = 0 := by nlinarith [mul_self_nonneg x, mul_self_nonneg y]
      have hy : y = 0 := by nlinarith [mul_self_nonneg x, mul_self_nonneg y]
      subst hx; subst hy; rfl
    field_simp

/-- The sine of the azimuth of `(x, y)`, scaled by the planar radius. -/
theorem azimuth_sin (x y : ℝ) :
    Real.sqrt (x * x + y * y) * Real.sin (Complex.arg ⟨x, y⟩) = y := by
  by_cases h : (⟨x, y⟩ : ℂ) = 0
  · have hx : x = 0 := by simpa using congrArg Complex.re h
    have hy : y = 0 := by simpa using congrArg Complex.im h
    subst hx; subst hy
    simp
  · rw [Complex.sin_arg, Complex.abs_apply, Complex.normSq_mk]
    have hp : Real.sqrt (x * x + y * y) ≠ 0 := by
      intro h0
      apply h
      have := (Real.sqrt_eq_zero (add_nonneg (mul_self_nonneg x) (mul_self_nonneg y))).mp h0
      have hx : x = 0 := by nlinarith [mul_self_nonneg x, mul_self_nonneg y]
      have hy : y = 0 := by nlinarith [mul_self_nonneg x, mul_self_nonneg y]
      subst hx; subst hy; rfl
    field_simp

/-- A non-zero vector has a positive norm. -/
theorem norm_pos_of_ne_zero (V : Fin 3 → ℝ) (hV : V ≠ 0) : 0 < norm GoMath.real V := by
  have h : ¬ (V 0 = 0 ∧ V 1 = 0 ∧ V 2 = 0) := by
    rintro ⟨h0, h1, h2⟩
    apply hV
    funext i
    fin_cases i <;> simp [h0, h1, h2]
  apply Real.sqrt_pos.mpr
  by_contra hle
  apply h
  have h0 := mul_self_nonneg (V 0)
  have h1 := mul_self_nonneg (V 1)
  have h2 := mul_self_nonneg (V 2)
  refine ⟨?_, ?_, ?_⟩ <;> apply mul_self_eq_zero.mp <;> linarith

/-- The Cartesian vector of radius `c` and of the angles of `V` is `c` times the
unit vector along `V`. -/
theorem thrust_along_velocity (c : ℝ) (V : Fin 3 → ℝ) (hV : V ≠ 0) :
    Spherical2Cartesian GoMath.real
        ![c, Cartesian2Spherical GoMath.real V 1, Cartesian2Spherical GoMath.real V 2]
      = fun i => c * (V i / norm GoMath.real V) := by
  have hn := norm_pos_of_ne_zero V hV
  have hn' : norm GoMath.real V ≠ 0 := hn.ne'
  have hn2 : 0 < Real.sqrt (V 0 * V 0 + V 1 * V 1 + V 2 * V 2) := hn
  have hs := sin_polar (V 0) (V 1) (V 2) hn2
  have hc := cos_polar (V 0) (V 1) (V 2) hn2
  have ac := azimuth_cos (V 0) (V 1)
  have as := azimuth_sin (V 0) (V 1)
  funext i
  simp only [Spherical2Cartesian, Cartesian2Spherical, if_neg hn']
  fin_cases i
  · simp only [norm, GoMath.real] at hs hc ac as ⊢
    simp only [Fin.zero_eta, Fin.isValue, Matrix.cons_val_zero, Matrix.cons_val_one,
      Matrix.cons_val_two, Matrix.head_cons, Matrix.tail_cons]
    rw [hs, mul_assoc, div_mul_eq_mul_div, ac]
  · simp only [norm, GoMath.real] at hs hc ac as ⊢
    simp only [Fin.mk_one, Fin.isValue, Matrix.cons_val_zero, Matrix.cons_val_one,
      Matrix.cons_val_two, Matrix.head_cons, Matrix.tail_cons]
    rw [hs, mul_assoc, div_mul_eq_mul_div, as]
  · simp only [norm, GoMath.real] at hs hc ac as ⊢
    simp only [Fin.reduceFinMk, Fin.isValue, Matrix.cons_val_zero, Matrix.cons_val_one,
      Matrix.cons_val_two, Matrix.head_cons, Matrix.tail_cons]
    rw [hc]

/-- The unit vector along a non-zero vector has norm one. -/
theorem norm_unit (V : Fin 3 → ℝ) (hV : V ≠ 0) :
    norm GoMath.real (fun i => V i / norm GoMath.real V) = 1 := by
  have hn := norm_pos_of_ne_zero V hV
  have hs : 0 < V 0 * V 0 + V 1 * V 1 + V 2 * V 2 := Real.sqrt_pos.mp hn
  have e : norm GoMath.real V * norm GoMath.real V = V 0 * V 0 + V 1 * V 1 + V 2 * V 2 :=
    Real.mul_self_sqrt hs.le
  have : (V 0 / norm GoMath.real V) * (V 0 / norm GoMath.real V)
      + (V 1 / norm GoMath.real V) * (V 1 / norm GoMath.real V)
      + (V 2 / norm GoMath.real V) * (V 2 / norm GoMath.real V) = 1 := by
    field_simp
    rw [e]
  show Real.sqrt _ = 1
  rw [this, Real.sqrt_one]

/-- C7: for an orbit with non-zero velocity on which a `ReachVelocity` waypoint
does not clear, the commanded thrust is the unit vector along the velocity when
the speed is below the target and its negation when the speed is above it. -/
theorem ReachVelocity_thrust_direction (wp : ReachVelocity ℝ) (o : Orbit ℝ) (t : Time) :
    (o.V ≠ 0 → (wp.AllocateThrust GoMath.real o t).1.2 = false →
      norm GoMath.real o.V < wp.velocity →
      (wp.AllocateThrust GoMath.real o t).1.1 = fun i => o.V i / norm GoMath.real o.V) ∧
    (o.V ≠ 0 → (wp.AllocateThrust GoMath.real o t).1.2 = false →
      wp.velocity < norm GoMath.real o.V →
      (wp.AllocateThrust GoMath.real o t).1.1 = fun i => -(o.V i / norm GoMath.real o.V)) := by
  constructor
  · intro hV hnc hlt
    unfold ReachVelocity.AllocateThrust at hnc ⊢
    by_cases h : math.Abs (norm GoMath.real o.V - wp.velocity) < wp.epsilon
    · simp [h] at hnc
    · simp only [h, if_false, hlt, if_true]
      rw [thrust_along_velocity 1 o.V hV]
      funext i
      simp
  · intro hV hnc hgt
    unfold ReachVelocity.AllocateThrust at hnc ⊢
    by_cases h : math.Abs (norm GoMath.real o.V - wp.velocity) < wp.epsilon
    · simp [h] at hnc
    · simp only [h, if_false, not_lt.mpr hgt.le]
      rw [thrust_along_velocity (-1) o.V hV]
      funext i
      simp

/-- The speed of the sample orbit. -/
theorem sampleOrbit_speed : norm GoMath.real sampleOrbit.V = 1 := by
  simp [norm, GoMath.real, sampleOrbit]

/-- The radial distance of the sample orbit. -/
theorem sampleOrbit_distance : norm GoMath.real sampleOrbit.R = 7000 := by
  simp only [norm, GoMath.real, sampleOrbit, Matrix.cons_val_zero, Matrix.cons_val_one,
    Matrix.cons_val_two, Matrix.head_cons, Matrix.tail_cons, mul_zero, add_zero]
  exact Real.sqrt_mul_self (by norm_num)

/-- The velocity of the sample orbit is not the zero vector. -/
theorem sampleOrbit_moving : sampleOrbit.V ≠ 0 := by
  intro h
  have := congrFun h 1
  simp [sampleOrbit] at this

/-- Witness of C7: at 1 km/s with a target of 10 km/s the waypoint does not
clear and thrusts along the velocity. -/
theorem ReachVelocity_thrust_direction_witness :
    sampleOrbit.V ≠ 0 ∧
    ((NewReachVelocity (10 : ℝ) none).AllocateThrust GoMath.real sampleOrbit 0).1.2 = false ∧
    norm GoMath.real sampleOrbit.V < (NewReachVelocity (10 : ℝ) none).velocity ∧
    ((NewReachVelocity (10 : ℝ) none).AllocateThrust GoMath.real sampleOrbit 0).1.1
      = fun i => sampleOrbit.V i / norm GoMath.real sampleOrbit.V := by
  have hlt : norm GoMath.real sampleOrbit.V < (NewReachVelocity (10 : ℝ) none).velocity := by
    rw [sampleOrbit_speed]; norm_num [NewReachVelocity]
  have hnc : ((NewReachVelocity (10 : ℝ) none).AllocateThrust GoMath.real sampleOrbit 0).1.2
      = false := by
    have : ¬ (|(1 : ℝ) - 10| < 5) := by norm_num [abs_lt]
    simp [ReachVelocity.AllocateThrust, NewReachVelocity, sampleOrbit_speed, math.Abs, this]
  exact ⟨sampleOrbit_moving, hnc, hlt,
    (ReachVelocity_thrust_direction _ sampleOrbit 0).1 sampleOrbit_moving hnc hlt⟩

/-- C8: for an orbit with non-zero velocity whose radial distance is below the
target of a `ReachDistance` waypoint, the commanded thrust is the velocity
divided by its norm and has norm one; when the waypoint clears the commanded
thrust is the zero vector. -/
theorem ReachDistance_thrust_along_velocity (wp : ReachDistance ℝ) (o : Orbit ℝ) (t : Time) :
    (o.V ≠ 0 → norm GoMath.real o.R < wp.distance →
      (wp.AllocateThrust GoMath.real o t).1.1 = (fun i => o.V i / norm GoMath.real o.V) ∧
      norm GoMath.real (wp.AllocateThrust GoMath.real o t).1.1 = 1) ∧
    ((wp.AllocateThrust GoMath.real o t).1.2 = true →
      (wp.AllocateThrust GoMath.real o t).1.1 = ![0, 0, 0]) := by
  constructor
  · intro hV hlt
    have e : (wp.AllocateThrust GoMath.real o t).1.1
        = fun i => o.V i / norm GoMath.real o.V := by
      unfold ReachDistance.AllocateThrust
      simp only [ge_iff_le, not_le.mpr hlt, if_false]
      rw [thrust_along_velocity 1 o.V hV]
      funext i
      simp
    rw [e]
    exact ⟨rfl, norm_unit o.V hV⟩
  · intro h
    unfold ReachDistance.AllocateThrust at h ⊢
    by_cases hc : norm GoMath.real o.R ≥ wp.distance
    · simp [hc]
    · simp [hc] at h

/-- Witness of C8: at 7000 km, inside the sphere of influence, the outward
spiral thrusts along the velocity with unit magnitude. -/
theorem ReachDistance_thrust_along_velocity_witness :
    sampleOrbit.V ≠ 0 ∧
    norm GoMath.real sampleOrbit.R < (NewOutwardSpiral sampleBody none).distance ∧
    ((NewOutwardSpiral sampleBody none).AllocateThrust GoMath.real sampleOrbit 0).1.1
      = (fun i => sampleOrbit.V i / norm GoMath.real sampleOrbit.V) ∧
    norm GoMath.real
      ((NewOutwardSpiral sampleBody none).AllocateThrust GoMath.real sampleOrbit 0).1.1 = 1 := by
  have hlt : norm GoMath.real sampleOrbit.R < (NewOutwardSpiral sampleBody none).distance := by
    rw [sampleOrbit_distance]; norm_num [NewOutwardSpiral, sampleBody]
  exact ⟨sampleOrbit_moving, hlt,
    (ReachDistance_thrust_along_velocity _ sampleOrbit 0).1 sampleOrbit_moving hlt⟩

end dynamics

/-! ## Theorems: the stop predicate -/

/-- The loop of `Stop` reaches `return false` exactly when some waypoint of
the list is not cleared. -/
theorem someNotCleared_eq_false {F : Type} (wps : List (dynamics.Waypoint F)) :
    dynamics.someNotCleared wps = false ↔ ∀ wp ∈ wps, wp.Cleared = true := by
  induction wps with
  | nil => simp [dynamics.someNotCleared]
  | cons wp rest ih =>
    simp only [dynamics.someNotCleared, List.mem_cons, forall_eq_or_imp]
    cases h : wp.Cleared <;> simp [ih]

/-- C9: with no stop request pending and an end time before the start time,
`Stop` (of `Mission` and of `Astrocodile`) returns true exactly when every
waypoint of the vehicle is cleared, whatever the current time. -/
theorem Stop_without_end_iff_all_cleared {F : Type} (a : Mission F) (t : F)
    (b : dynamics.Astrocodile F) (i : Nat)
    (ha : a.stopChan = []) (hae : a.EndDT < a.StartDT)
    (hb : b.StopChan = []) (hbe : b.EndDT < b.StartDT) :
    ((a.Stop t).1 = true ↔ ∀ wp ∈ a.Vehicle.WayPoints, wp.Cleared = true) ∧
    ((b.Stop i).1 = true ↔ ∀ wp ∈ b.Vehicle.WayPoints, wp.Cleared = true) := by
  constructor
  · rw [← someNotCleared_eq_false]
    simp only [Mission.Stop, ha, hae, if_true]
    cases dynamics.someNotCleared a.Vehicle.WayPoints <;> simp
  · rw [← someNotCleared_eq_false]
    simp only [dynamics.Astrocodile.Stop, hb, hbe, if_true]
    cases dynamics.someNotCleared b.Vehicle.WayPoints <;> simp

/-- Witness of C9: a run whose end time is one nanosecond before its start
time, with one waypoint. -/
theorem Stop_without_end_iff_all_cleared_witness :
    (((sampleMission (-1)).Stop 0).1 = true ↔
      ∀ wp ∈ (sampleMission (-1)).Vehicle.WayPoints, wp.Cleared = true) ∧
    (((sampleAstro (-1)).Stop 0).1 = true ↔
      ∀ wp ∈ (sampleAstro (-1)).Vehicle.WayPoints, wp.Cleared = true) :=
  Stop_without_end_iff_all_cleared (sampleMission (-1)) 0 (sampleAstro (-1)) 0
    rfl (by decide) rfl (by decide)

/-- The schedule of a run with a positive step: the call number `n + 1` is the
first to report the end exactly when `n + 1` steps pass the end time and `n`
steps do not. -/
theorem stopSchedule_first_true (step E : Int) (hstep : 0 < step) (n : Nat) :
    ∀ c : Int, stopSchedule step E c (n + 1) = List.replicate n false ++ [true] ↔
      (c + (n + 1) * step > E ∧ (n = 0 ∨ c + n * step ≤ E)) := by
  induction n with
  | zero =>
    intro c
    simp [stopSchedule]
  | succ n ih =>
    intro c
    have hn : (0 : Int) ≤ n := Int.natCast_nonneg n
    have hmul : 0 ≤ (n : Int) * step := mul_nonneg hn hstep.le
    rw [stopSchedule, List.replicate_succ, List.cons_append, List.cons.injEq, ih (c + step)]
    simp only [decide_eq_false_iff_not, not_lt, Nat.cast_add, Nat.cast_one]
    constructor
    · rintro ⟨h1, h2, h3⟩
      refine ⟨by linarith, Or.inr ?_⟩
      rcases h3 with h3 | h3
      · subst h3; simp; linarith
      · linarith
    · rintro ⟨h1, h2⟩
      rcases h2 with h2 | h2
      · exact absurd h2 (Nat.succ_ne_zero n)
      · refine ⟨by nlinarith, by linarith, Or.inr (by linarith)⟩

/-- Without stop request and with an end time not before the start time, the
successive `Mission.Stop` calls follow the schedule of step `StepSize`. -/
theorem Mission_stopResults_schedule {F : Type} (ts : List F) :
    ∀ a : Mission F, a.stopChan = [] → ¬ a.EndDT < a.StartDT →
      a.stopResults ts = stopSchedule StepSize a.EndDT a.CurrentDT ts.length := by
  induction ts with
  | nil => intro a _ _; rfl
  | cons t rest ih =>
    intro a ha hae
    have h1 : (a.Stop t).1 = decide (a.CurrentDT + StepSize - a.EndDT > 0) := by
      simp only [Mission.Stop, ha, hae, if_false]
      split_ifs with h <;> simp [h]
    have h2 : (a.Stop t).2.stopChan = [] ∧ (a.Stop t).2.EndDT = a.EndDT ∧
        (a.Stop t).2.StartDT = a.StartDT ∧
        (a.Stop t).2.CurrentDT = a.CurrentDT + StepSize := by
      simp only [Mission.Stop, ha, hae, if_false]
      split_ifs <;> simp [Mission.closeHist, ha]
    obtain ⟨k1, k2, k3, k4⟩ := h2
    rw [Mission.stopResults, List.length_cons, stopSchedule, h1,
      ih _ k1 (by rw [k2, k3]; exact hae), k2, k4]

/-- Without stop request and with an end time not before the start time, the
successive `Astrocodile.Stop` calls follow the schedule of step `stepSize`. -/
theorem Astrocodile_stopResults_schedule {F : Type} (is : List Nat) :
    ∀ a : dynamics.Astrocodile F, a.StopChan = [] → ¬ a.EndDT < a.StartDT →
      a.stopResults is = stopSchedule dynamics.stepSize a.EndDT a.CurrentDT is.length := by
  induction is with
  | nil => intro a _ _; rfl
  | cons t rest ih =>
    intro a ha hae
    have h1 : (a.Stop t).1 = decide (a.CurrentDT + dynamics.stepSize - a.EndDT > 0) := by
      simp only [dynamics.Astrocodile.Stop, ha, hae, if_false]
      split_ifs with h <;> simp [h]
    have h2 : (a.Stop t).2.StopChan = [] ∧ (a.Stop t).2.EndDT = a.EndDT ∧
        (a.Stop t).2.StartDT = a.StartDT ∧
        (a.Stop t).2.CurrentDT = a.CurrentDT + dynamics.stepSize := by
      simp only [dynamics.Astrocodile.Stop, ha, hae, if_false]
      split_ifs <;> simp [dynamics.Astrocodile.closeHist, ha]
    obtain ⟨k1, k2, k3, k4⟩ := h2
    rw [dynamics.Astrocodile.stopResults, List.length_cons, stopSchedule, h1,
      ih _ k1 (by rw [k2, k3]; exact hae), k2, k4]

/-- With a positive step and a non-negative span `D`, `n + 1` is the least
integer whose multiple of the step exceeds `D` exactly when `n + 1` steps
exceed `D` and `n` steps do not. -/
theorem isLeast_steps (step D : Int) (hstep : 0 < step) (hD : 0 ≤ D) (n : Nat) :
    IsLeast {j : Int | j * step > D} ((n : Int) + 1) ↔
      (((n : Int) + 1) * step > D ∧ (n = 0 ∨ (n : Int) * step ≤ D)) := by
  constructor
  · rintro ⟨h1, h2⟩
    refine ⟨h1, ?_⟩
    by_contra hc
    push_neg at hc
    have : (n : Int) + 1 ≤ n := h2 (show (n : Int) * step > D from hc.2)
    linarith
  · rintro ⟨h1, h2⟩
    refine ⟨h1, ?_⟩
    intro j hj
    have hj' : j * step > D := hj
    by_contra hlt
    push_neg at hlt
    have hjn : j ≤ n := by linarith
    rcases h2 with h2 | h2
    · subst h2
      have : j ≤ 0 := by simpa using hjn
      nlinarith
    · have : j * step ≤ n * step := mul_le_mul_of_nonneg_right hjn hstep.le
      linarith

/-- C10: with no stop request pending and an end time not before the start
time, `Stop` (of `Mission`, with step `StepSize`, and of `Astrocodile`, with
step `stepSize`) advances the current time by one step and returns true exactly
when the advanced time is later than the end time; starting from the start
time, the call number `k` is the first to return true exactly when `k` is the
least integer with `k * step > EndDT - StartDT`. -/
theorem Stop_end_time_schedule {F : Type} (a : Mission F) (t : F) (ts : List F)
    (b : dynamics.Astrocodile F) (i : Nat) (is : List Nat)
    (ha : a.stopChan = []) (hae : ¬ a.EndDT < a.StartDT)
    (hb : b.StopChan = []) (hbe : ¬ b.EndDT < b.StartDT) :
    ((a.Stop t).2.CurrentDT = a.CurrentDT + StepSize ∧
      ((a.Stop t).1 = true ↔ (a.Stop t).2.CurrentDT > a.EndDT) ∧
      (a.CurrentDT = a.StartDT →
        (a.stopResults (ts ++ [t]) = List.replicate ts.length false ++ [true] ↔
          IsLeast {j : Int | j * StepSize > a.EndDT - a.StartDT} ((ts.length : Int) + 1)))) ∧
    ((b.Stop i).2.CurrentDT = b.CurrentDT + dynamics.stepSize ∧
      ((b.Stop i).1 = true ↔ (b.Stop i).2.CurrentDT > b.EndDT) ∧
      (b.CurrentDT = b.StartDT →
        (b.stopResults (is ++ [i]) = List.replicate is.length false ++ [true] ↔
          IsLeast {j : Int | j * dynamics.stepSize > b.EndDT - b.StartDT}
            ((is.length : Int) + 1)))) := by
  refine ⟨⟨?_, ?_, ?_⟩, ⟨?_, ?_, ?_⟩⟩
  · simp only [Mission.Stop, ha, hae, if_false]
    split_ifs <;> simp [Mission.closeHist]
  · simp only [Mission.Stop, ha, hae, if_false]
    split_ifs with h <;> simp [Mission.closeHist] <;> linarith
  · intro hc
    have hE : 0 ≤ a.EndDT - a.StartDT := by linarith [not_lt.mp hae]
    rw [Mission_stopResults_schedule _ a ha hae, List.length_append, List.length_singleton,
      stopSchedule_first_true StepSize a.EndDT (by decide) ts.length a.CurrentDT,
      isLeast_steps StepSize _ (by decide) hE ts.length, hc]
    constructor <;> rintro ⟨h1, h2⟩ <;> refine ⟨by linarith, ?_⟩ <;>
      rcases h2 with h2 | h2 <;> first | exact Or.inl h2 | exact Or.inr (by linarith)
  · simp only [dynamics.Astrocodile.Stop, hb, hbe, if_false]
    split_ifs <;> simp [dynamics.Astrocodile.closeHist]
  · simp only [dynamics.Astrocodile.Stop, hb, hbe, if_false]
    split_ifs with h <;> simp [dynamics.Astrocodile.closeHist] <;> linarith
  · intro hc
    have hE : 0 ≤ b.EndDT - b.StartDT := by linarith [not_lt.mp hbe]
    rw [Astrocodile_stopResults_schedule _ b hb hbe, List.length_append, List.length_singleton,
      stopSchedule_first_true dynamics.stepSize b.EndDT (by decide) is.length b.CurrentDT,
      isLeast_steps dynamics.stepSize _ (by decide) hE is.length, hc]
    constructor <;> rintro ⟨h1, h2⟩ <;> refine ⟨by linarith, ?_⟩ <;>
      rcases h2 with h2 | h2 <;> first | exact Or.inl h2 | exact Or.inr (by linarith)

/-- Witness of C10: with an end time 25 s after the start, the third
`Mission.Stop` call is the first to return true; with an end time 2.5 s after
the start, so is the third `Astrocodile.Stop` call. -/
theorem Stop_end_time_schedule_witness :
    ((sampleMission 25000000000).stopResults [0, 0, 0] = [false, false, true] ∧
      IsLeast {j : Int | j * StepSize > 25000000000 - 0} 3) ∧
    ((sampleAstro 2500000000).stopResults [0, 0, 0] = [false, false, true] ∧
      IsLeast {j : Int | j * dynamics.stepSize > 2500000000 - 0} 3) := by
  have h := Stop_end_time_schedule (sampleMission 25000000000) 0 [0, 0]
    (sampleAstro 2500000000) 0 [0, 0] rfl (by decide) rfl (by decide)
  have hm : (sampleMission 25000000000).stopResults [0, 0, 0] = [false, false, true] := by
    decide
  have hs : (sampleAstro 2500000000).stopResults [0, 0, 0] = [false, false, true] := by
    decide
  exact ⟨⟨hm, (h.1.2.2 rfl).mp hm⟩, ⟨hs, (h.2.2.2 rfl).mp hs⟩⟩

/-! ## Theorems: state injection -/

section
variable {F : Type} [LinearOrderedField F] [FloorRing F]

/-- The remainder `math.Mod` of a negative number of magnitude below the modulus
is that number. -/
theorem math.Mod_of_neg_of_lt (x y : F) (hx : x < 0) (hy : -y < x) : math.Mod x y = x := by
  have hy0 : 0 < y := by linarith
  have hq : x / y < 0 := div_neg_of_neg_of_pos hx hy0
  have hq1 : -1 < x / y := by
    rw [lt_div_iff₀ hy0]; linarith
  have hc : ⌈x / y⌉ = 0 := by
    rw [Int.ceil_eq_iff]
    constructor
    · simpa using hq1
    · simpa using hq.le
  simp [math.Mod, math.trunc, not_le.mpr hq, hc]

/-- A pass of the loop over the angles at index `i` rewrites `s[i]` only. -/
theorem wrapAngle_other (M : GoMath F) (s : Fin 7 → F) (i j : Fin 7) (h : j ≠ i) :
    wrapAngle M s i j = s j := by
  unfold wrapAngle
  split_ifs <;> simp [Function.update, h]

/-- A pass of the loop over the angles at index `i` stores the wrapped `s[i]`. -/
theorem wrapAngle_self (M : GoMath F) (s : Fin 7 → F) (i : Fin 7) :
    wrapAngle M s i i
      = math.Mod (if s i < 0 then s i + 2 * M.Pi else s i) (2 * M.Pi) := by
  unfold wrapAngle
  split_ifs <;> simp [Function.update]

/-- Each angle slot after the loop over the angles. -/
theorem wrapAngles_angle (M : GoMath F) (s : Fin 7 → F) (i : Fin 7)
    (hi : i = 2 ∨ i = 3 ∨ i = 4 ∨ i = 5) :
    wrapAngles M s i
      = math.Mod (if s i < 0 then s i + 2 * M.Pi else s i) (2 * M.Pi) := by
  simp only [wrapAngles, List.foldl]
  rcases hi with h | h | h | h <;> subst h
  · rw [wrapAngle_other _ _ 5 2 (by decide), wrapAngle_other _ _ 4 2 (by decide),
      wrapAngle_other _ _ 3 2 (by decide), wrapAngle_self]
  · rw [wrapAngle_other _ _ 5 3 (by decide), wrapAngle_other _ _ 4 3 (by decide),
      wrapAngle_self, wrapAngle_other _ _ 2 3 (by decide)]
  · rw [wrapAngle_other _ _ 5 4 (by decide), wrapAngle_self,
      wrapAngle_other _ _ 3 4 (by decide), wrapAngle_other _ _ 2 4 (by decide)]
  · rw [wrapAngle_self, wrapAngle_other _ _ 4 5 (by decide),
      wrapAngle_other _ _ 3 5 (by decide), wrapAngle_other _ _ 2 5 (by decide)]

/-- The slots that are not angles are left as they are by the loop. -/
theorem wrapAngles_other (M : GoMath F) (s : Fin 7 → F) (i : Fin 7)
    (hi : i = 0 ∨ i = 1 ∨ i = 6) : wrapAngles M s i = s i := by
  simp only [wrapAngles, List.foldl]
  rcases hi with h | h | h <;> subst h <;>
    rw [wrapAngle_other _ _ 5 _ (by decide), wrapAngle_other _ _ 4 _ (by decide),
      wrapAngle_other _ _ 3 _ (by decide), wrapAngle_other _ _ 2 _ (by decide)]

/-- The remainder `math.Mod` of a non-negative number by a positive modulus `y`
lies in `[0, y)`. -/
theorem math.Mod_range_of_nonneg (x y : F) (hx : 0 ≤ x) (hy : 0 < y) :
    0 ≤ math.Mod x y ∧ math.Mod x y < y := by
  have hq : 0 ≤ x / y := div_nonneg hx hy.le
  have e : x = y * (x / y) := by field_simp
  have h1 : ((⌊x / y⌋ : Int) : F) ≤ x / y := Int.floor_le _
  have h2 : x / y < ((⌊x / y⌋ : Int) : F) + 1 := Int.lt_floor_add_one _
  simp only [math.Mod, math.trunc, hq, if_true]
  constructor
  · have := mul_le_mul_of_nonneg_left h1 hy.le
    linarith
  · have := mul_lt_mul_of_pos_left h2 hy
    linarith

/-- An angle slot not below `-2π` is wrapped into `[0, 2π)`. -/
theorem wrapAngles_range (M : GoMath F) (hpi : 0 < M.Pi) (s : Fin 7 → F) (i : Fin 7)
    (hi : i = 2 ∨ i = 3 ∨ i = 4 ∨ i = 5) (hs : -(2 * M.Pi) ≤ s i) :
    0 ≤ wrapAngles M s i ∧ wrapAngles M s i < 2 * M.Pi := by
  rw [wrapAngles_angle M s i hi]
  apply math.Mod_range_of_nonneg _ _ _ (by linarith)
  split_ifs with h
  · linarith
  · exact not_lt.mp h

end

/-- The sanity checks leave the orbit as it is. -/
theorem Mission.sanityChecks_Orbit {F : Type} [LinearOrderedField F] (E : Env F)
    (a : Mission F) : (a.sanityChecks E).Orbit = a.Orbit := by
  unfold Mission.sanityChecks
  split_ifs <;> rfl

/-- Around the Sun the sanity checks leave the queue as it is. -/
theorem Mission.sanityChecks_FuncQ_of_Sun {F : Type} [LinearOrderedField F] (E : Env F)
    (a : Mission F) (h : E.Equals a.Orbit.Origin E.Sun = true) :
    (a.sanityChecks E).Vehicle.FuncQ = a.Vehicle.FuncQ := by
  unfold Mission.sanityChecks
  split_ifs with h1 h2 h3
  · rfl
  · rfl
  · simp [h] at h3
  · rfl

/-- The fuel check leaves the orbit as it is. -/
theorem Mission.fuelCheck_Orbit {F : Type} [LinearOrderedField F] (a : Mission F)
    (s : Fin 7 → F) : (a.fuelCheck s).Orbit = a.Orbit := by
  unfold Mission.fuelCheck
  split_ifs <;> rfl

/-- The fuel check leaves the queue as it is. -/
theorem Mission.fuelCheck_FuncQ {F : Type} [LinearOrderedField F] (a : Mission F)
    (s : Fin 7 → F) : (a.fuelCheck s).Vehicle.FuncQ = a.Vehicle.FuncQ := by
  unfold Mission.fuelCheck
  split_ifs <;> rfl

/-- With an empty queue, `runQueue` leaves the orbit as it is. -/
theorem Mission.runQueue_Orbit_of_nil {F : Type} (E : Env F) (a : Mission F)
    (h : a.Vehicle.FuncQ = []) : (a.runQueue E).Orbit = a.Orbit := by
  simp [Mission.runQueue, h, runFuncQ]

/-- The elements assigned by the `GaussianVOP` case of `SetState`, for an
input whose angle slots are not below `-2π`: the four angles lie in `[0, 2π)`
and the eccentricity is not negative. -/
theorem storeElements_in_range {F : Type} [LinearOrderedField F] [FloorRing F]
    (M : GoMath F) (hpi : 0 < M.Pi) (a : Mission F) (s : Fin 7 → F)
    (hs : ∀ i : Fin 7, i = 2 ∨ i = 3 ∨ i = 4 ∨ i = 5 → -(2 * M.Pi) ≤ s i) :
    (0 ≤ (a.storeElements (wrapAngles M s)).Orbit.i ∧
      (a.storeElements (wrapAngles M s)).Orbit.i < 2 * M.Pi) ∧
    (0 ≤ (a.storeElements (wrapAngles M s)).Orbit.Ω ∧
      (a.storeElements (wrapAngles M s)).Orbit.Ω < 2 * M.Pi) ∧
    (0 ≤ (a.storeElements (wrapAngles M s)).Orbit.ω ∧
      (a.storeElements (wrapAngles M s)).Orbit.ω < 2 * M.Pi) ∧
    (0 ≤ (a.storeElements (wrapAngles M s)).Orbit.ν ∧
      (a.storeElements (wrapAngles M s)).Orbit.ν < 2 * M.Pi) ∧
    0 ≤ (a.storeElements (wrapAngles M s)).Orbit.e :=
  ⟨wrapAngles_range M hpi s 2 (by simp) (hs 2 (by simp)),
    wrapAngles_range M hpi s 3 (by simp) (hs 3 (by simp)),
    wrapAngles_range M hpi s 4 (by simp) (hs 4 (by simp)),
    wrapAngles_range M hpi s 5 (by simp) (hs 5 (by simp)),
    abs_nonneg _⟩

/-- C1: `SetState` in element mode on a heliocentric mission with the input
`[150000000, 0.1, -7, 1, 1, 1, 500]`, whose inclination slot is below `-2π`,
stores the negative inclination `-7 + 2π`. -/
theorem SetState_stores_negative_inclination :
    ∃ m, Mission.SetState sampleEnv helioMission 0 ![150000000, 0.1, -7, 1, 1, 1, 500] = .ok m ∧
      m.Orbit.i = -7 + 2 * Real.pi ∧ m.Orbit.i < 0 := by
  have hpi : Real.pi < 3.5 := by linarith [Real.pi_lt_d2]
  have h3 : 3 < Real.pi := Real.pi_gt_three
  have hi : wrapAngles sampleEnv.math ![150000000, 0.1, -7, 1, 1, 1, 500] 2
      = -7 + 2 * Real.pi := by
    rw [wrapAngles_angle _ _ 2 (Or.inl rfl)]
    have e : (![150000000, 0.1, -7, 1, 1, 1, 500] : Fin 7 → ℝ) 2 = -7 := rfl
    rw [e, if_pos (by norm_num)]
    exact math.Mod_of_neg_of_lt _ _ (by simp [sampleEnv, GoMath.real]; linarith)
      (by simp [sampleEnv, GoMath.real]; linarith)
  have key : ∃ m, Mission.SetState sampleEnv helioMission 0
      ![150000000, 0.1, -7, 1, 1, 1, 500] = .ok m ∧ m.Orbit.i = -7 + 2 * Real.pi := by
    refine ⟨_, rfl, ?_⟩
    rw [Mission.runQueue_Orbit_of_nil]
    · rw [Mission.fuelCheck_Orbit, Mission.sanityChecks_Orbit]
      exact hi
    · rw [Mission.fuelCheck_FuncQ, Mission.sanityChecks_FuncQ_of_Sun _ _ (by decide)]
      rfl
  obtain ⟨m, hm, hmi⟩ := key
  exact ⟨m, hm, hmi, by rw [hmi]; linarith⟩

/-! ## Theorems: the blocks of `Mission.SetState` -/

/-- The snapshot block rewrites the history channel only. -/
theorem Mission.sendSnapshot_eq {F : Type} (a : Mission F) :
    a.sendSnapshot =
      { a with
        histChan := Option.map
                      (fun c => c.send { DT := a.CurrentDT, SC := a.Vehicle, Orbit := a.Orbit })
                      a.histChan } := by
  unfold Mission.sendSnapshot
  cases h : a.histChan <;> simp [h]
  cases a
  simp_all

/-- A call to `SetState` returns exactly in `GaussianVOP` mode, and then returns
the mission its last block makes. -/
theorem Mission.SetState_ok_iff {F : Type} [LinearOrderedField F] [FloorRing F]
    (E : Env F) (a : Mission F) (t : F) (s : Fin 7 → F) (m : Mission F) :
    Mission.SetState E a t s = .ok m ↔
      a.Propagator = GaussianVOP ∧ m = (a.beforeQueue E s).runQueue E := by
  have hp : a.sendSnapshot.Propagator = a.Propagator := by rw [Mission.sendSnapshot_eq]
  unfold Mission.SetState
  simp only [hp]
  by_cases h : a.Propagator = GaussianVOP
  · simp only [h, if_true, true_and, Except.ok.injEq]
    exact ⟨fun e => e.symm, fun e => e.symm⟩
  · simp [h]

/-! ## Theorems: stop request -/

/-- C11: with a stop request pending, `Mission.Stop` returns true whatever the
start time, the end time and the waypoints are, takes the request out of the
channel and leaves the current time as it is; and whenever `Stop` returns true
with a history channel attached, the call closes that channel. -/
theorem Stop_on_request {F : Type} (a : Mission F) (t : F) (r : Bool) (rest : List Bool)
    (h : a.stopChan = r :: rest) (b : Mission F) (u : F) :
    ((a.Stop t).1 = true ∧ (a.Stop t).2.stopChan = rest ∧
      (a.Stop t).2.CurrentDT = a.CurrentDT) ∧
    ((b.Stop u).1 = true → ∀ c, b.histChan = some c →
      (b.Stop u).2.histChan = some c.close ∧ c.close.closed = true) := by
  constructor
  · simp [Mission.Stop, h, Mission.closeHist]
  · intro hb c hc
    refine ⟨?_, rfl⟩
    unfold Mission.Stop at hb ⊢
    cases hs : b.stopChan with
    | cons x xs => simp [Mission.closeHist, hc]
    | nil =>
      simp only [hs] at hb ⊢
      split_ifs at hb ⊢ <;> simp_all [Mission.closeHist]

/-- Witness of C11: a mission with a pending request and a history channel. -/
theorem Stop_on_request_witness :
    ((stoppingMission.Stop 0).1 = true ∧ (stoppingMission.Stop 0).2.stopChan = [] ∧
      (stoppingMission.Stop 0).2.CurrentDT = stoppingMission.CurrentDT) ∧
    ((stoppingMission.Stop 0).1 = true → ∀ c, stoppingMission.histChan = some c →
      (stoppingMission.Stop 0).2.histChan = some c.close ∧ c.close.closed = true) :=
  Stop_on_request stoppingMission 0 true [] rfl stoppingMission 0
/-! ## Theorems: collision hysteresis and frame switch -/

section
variable {F : Type} [LinearOrderedField F] [FloorRing F]

/-- The update leaves the collided flag, the time, the vehicle and the origin
as they are. -/
theorem Mission.updated_fields (E : Env F) (a : Mission F) (s : Fin 7 → F) :
    (a.updated E s).collided = a.collided ∧ (a.updated E s).CurrentDT = a.CurrentDT ∧
    (a.updated E s).Vehicle = a.Vehicle ∧ (a.updated E s).Orbit.Origin = a.Orbit.Origin := by
  simp [Mission.updated, Mission.sendSnapshot_eq, Mission.storeElements]

/-- The collided flag of the mission `SetState` returns is the one its sanity
checks leave. -/
theorem Mission.beforeQueue_collided (E : Env F) (a : Mission F) (s : Fin 7 → F) :
    ((a.beforeQueue E s).runQueue E).collided = ((a.updated E s).sanityChecks E).collided := by
  simp only [Mission.beforeQueue, Mission.runQueue, Mission.fuelCheck]
  split_ifs <;> rfl

/-- C12: for a `SetState` call that returns, with `r` the radial distance after
the update and `Rad` the radius of the origin: from a cleared flag and
`r < Rad` the collided flag becomes true and one collision report is logged;
from a set flag and `r > 1.01 * Rad` it becomes false and one revived report
is logged; in every other case the flag is unchanged and neither report is
logged. -/
theorem SetState_collision_hysteresis (E : Env F) (a : Mission F) (t : F)
    (s : Fin 7 → F) (m : Mission F) (h : Mission.SetState E a t s = .ok m) :
    (a.collided = false → E.RNorm (a.updated E s).Orbit < a.Orbit.Origin.Radius →
      m.collided = true ∧
      ((a.updated E s).sanityChecks E).Vehicle.logger
        = a.Vehicle.logger ++ [.collided a.Orbit.Origin.Name a.CurrentDT]) ∧
    (a.collided = true → E.RNorm (a.updated E s).Orbit > a.Orbit.Origin.Radius * 1.01 →
      m.collided = false ∧
      ((a.updated E s).sanityChecks E).Vehicle.logger
        = a.Vehicle.logger ++ [.revived a.Orbit.Origin.Name a.CurrentDT]) ∧
    (¬ (a.collided = false ∧ E.RNorm (a.updated E s).Orbit < a.Orbit.Origin.Radius) →
      ¬ (a.collided = true ∧ E.RNorm (a.updated E s).Orbit > a.Orbit.Origin.Radius * 1.01) →
      m.collided = a.collided ∧
      ((a.updated E s).sanityChecks E).Vehicle.logger = a.Vehicle.logger) := by
  obtain ⟨_, rfl⟩ := (Mission.SetState_ok_iff E a t s m).mp h
  obtain ⟨hc, hdt, hv, ho⟩ := Mission.updated_fields E a s
  rw [Mission.beforeQueue_collided]
  unfold Mission.sanityChecks
  rw [hc, hdt, hv, ho]
  refine ⟨?_, ?_, ?_⟩
  · intro h1 h2
    simp [h1, h2, Spacecraft.Log]
  · intro h1 h2
    simp [h1, h2, Spacecraft.Log]
  · intro h1 h2
    cases hcol : a.collided
    · have h1' : ¬ E.RNorm (a.updated E s).Orbit < a.Orbit.Origin.Radius :=
        fun hr => h1 ⟨hcol, hr⟩
      simp only [Bool.not_false, Bool.true_and, decide_eq_true_eq, h1', if_false,
        Bool.false_and, Bool.false_eq_true]
      split_ifs <;> simp [hc, hv, hcol]
    · have h2' : ¬ E.RNorm (a.updated E s).Orbit > a.Orbit.Origin.Radius * 1.01 :=
        fun hr => h2 ⟨hcol, hr⟩
      simp only [Bool.not_true, Bool.false_and, Bool.false_eq_true, if_false,
        Bool.true_and, decide_eq_true_eq, h2']
      split_ifs <;> simp [hc, hv, hcol]

end
section
variable {F : Type} [LinearOrderedField F] [FloorRing F]

/-- The semi-major axis and the eccentricity after the update. -/
theorem Mission.updated_elements (E : Env F) (a : Mission F) (s : Fin 7 → F) :
    (a.updated E s).Orbit.a = s 0 ∧ (a.updated E s).Orbit.e = math.Abs (s 1) := by
  simp [Mission.updated, Mission.sendSnapshot_eq, Mission.storeElements,
    wrapAngles_other E.math s 0 (by simp), wrapAngles_other E.math s 1 (by simp)]

/-- The queue as the loop of `SetState` finds it: the queue on entry, followed
by a frame switch to the Sun when the third branch of the sanity checks is
taken. -/
theorem Mission.beforeQueue_FuncQ (E : Env F) (a : Mission F) (s : Fin 7 → F) :
    (a.beforeQueue E s).Vehicle.FuncQ = a.Vehicle.FuncQ ++
      (if ¬ (a.collided = false ∧ E.RNorm (a.updated E s).Orbit < a.Orbit.Origin.Radius) ∧
          ¬ (a.collided = true ∧
              E.RNorm (a.updated E s).Orbit > a.Orbit.Origin.Radius * 1.01) ∧
          (E.RNorm (a.updated E s).Orbit > a.Orbit.Origin.SOI ∨
            EqualWithinAbs (a.updated E s).Orbit.e 1 E.eccentricityε = true) ∧
          E.Equals a.Orbit.Origin E.Sun = false
       then [some (.ToXCentric E.Sun a.CurrentDT)] else []) := by
  obtain ⟨hc, hdt, hv, ho⟩ := Mission.updated_fields E a s
  rw [Mission.beforeQueue, Mission.fuelCheck_FuncQ]
  unfold Mission.sanityChecks
  rw [hc, hdt, hv, ho]
  cases hcol : a.collided <;>
    by_cases h1 : E.RNorm (a.updated E s).Orbit < a.Orbit.Origin.Radius <;>
    by_cases h2 : E.RNorm (a.updated E s).Orbit > a.Orbit.Origin.Radius * 1.01 <;>
    by_cases h3 : E.RNorm (a.updated E s).Orbit > a.Orbit.Origin.SOI <;>
    cases h4 : EqualWithinAbs (a.updated E s).Orbit.e 1 E.eccentricityε <;>
    cases h5 : E.Equals a.Orbit.Origin E.Sun <;>
    simp [h1, h2, h3, h4, h5, hv, Spacecraft.Log]

/-- C13: for a `SetState` call that returns, a frame switch to the Sun, dated
at the current time, is appended to the deferred-action queue exactly when
neither the collision nor the revival branch is taken, the radial distance
after the update exceeds the sphere of influence of the origin or the
eccentricity is within the tolerance of 1, and the origin is not the Sun; in
every other case the queue is left as it was on entry. -/
theorem SetState_frame_switch_enqueued (E : Env F) (a : Mission F) (t : F)
    (s : Fin 7 → F) (m : Mission F) (h : Mission.SetState E a t s = .ok m) :
    m = (a.beforeQueue E s).runQueue E ∧
    (a.beforeQueue E s).Vehicle.FuncQ = a.Vehicle.FuncQ ++
      (if ¬ (a.collided = false ∧ E.RNorm (a.updated E s).Orbit < a.Orbit.Origin.Radius) ∧
          ¬ (a.collided = true ∧
              E.RNorm (a.updated E s).Orbit > a.Orbit.Origin.Radius * 1.01) ∧
          (E.RNorm (a.updated E s).Orbit > a.Orbit.Origin.SOI ∨
            EqualWithinAbs (a.updated E s).Orbit.e 1 E.eccentricityε = true) ∧
          E.Equals a.Orbit.Origin E.Sun = false
       then [some (.ToXCentric E.Sun a.CurrentDT)] else []) :=
  ⟨((Mission.SetState_ok_iff E a t s m).mp h).2, Mission.beforeQueue_FuncQ E a s⟩

end

/-- The radial distance after the update to `farState`, in the sample
environment. -/
theorem farState_radius (a : Mission ℝ) :
    sampleEnv.RNorm (a.updated sampleEnv farState).Orbit = 1000000 := by
  obtain ⟨ha, he⟩ := Mission.updated_elements sampleEnv a farState
  simp only [sampleEnv, farState] at ha he ⊢
  rw [ha, he]
  simp [math.Abs]

/-- Witness of C12: from a set flag, at 1000000 km from a body of radius
6378 km, the flag is cleared and a revived report is logged. -/
theorem SetState_collision_hysteresis_witness :
    ((collidedMission.beforeQueue sampleEnv farState).runQueue sampleEnv).collided = false ∧
    ((collidedMission.updated sampleEnv farState).sanityChecks sampleEnv).Vehicle.logger
      = collidedMission.Vehicle.logger
        ++ [.revived collidedMission.Orbit.Origin.Name collidedMission.CurrentDT] :=
  (SetState_collision_hysteresis sampleEnv collidedMission 0 farState _ rfl).2.1 rfl
    (by rw [farState_radius]; norm_num [collidedMission, sampleElements, sampleBody])

/-- Counterexample to C13 as stated: the radial distance after the update
exceeds the sphere of influence and the origin is not the Sun, yet the call,
which takes the revival branch, enqueues nothing. -/
theorem SetState_no_frame_switch_on_revival :
    sampleEnv.RNorm (collidedMission.updated sampleEnv farState).Orbit
      > collidedMission.Orbit.Origin.SOI ∧
    sampleEnv.Equals collidedMission.Orbit.Origin sampleEnv.Sun = false ∧
    Mission.SetState sampleEnv collidedMission 0 farState
      = .ok ((collidedMission.beforeQueue sampleEnv farState).runQueue sampleEnv) ∧
    (collidedMission.beforeQueue sampleEnv farState).Vehicle.FuncQ = [] := by
  have hr := farState_radius collidedMission
  refine ⟨?_, by decide, rfl, ?_⟩
  · rw [hr]; norm_num [collidedMission, sampleElements, sampleBody]
  · rw [Mission.beforeQueue_FuncQ, hr]
    norm_num [collidedMission, sampleElements, sampleBody, sampleVehicle]

/-- Witness of C13: without collision or revival, beyond the sphere of
influence of the sample body, the frame switch is enqueued. -/
theorem SetState_frame_switch_enqueued_witness :
    ((sampleMission 0).beforeQueue sampleEnv farState).Vehicle.FuncQ
      = [some (.ToXCentric sampleEnv.Sun 0)] := by
  have h := (SetState_frame_switch_enqueued sampleEnv (sampleMission 0) 0 farState _ rfl).2
  rw [h, farState_radius]
  have hs : sampleEnv.Equals (sampleMission 0).Orbit.Origin sampleEnv.Sun = false := by decide
  rw [hs]
  norm_num [sampleMission, sampleElements, sampleBody, sampleVehicle]
/-! ## Theorems: the deferred-action queue, the snapshot and the fuel mass -/

/-- The snapshot block of `Astrocodile.SetState` rewrites the history channel
only. -/
theorem Astrocodile_sendSnapshot_channel {F : Type} (a : dynamics.Astrocodile F) :
    a.sendSnapshot =
      { a with
        histChan := Option.map
                      (fun c => c.send { dt := a.CurrentDT, sc := a.Vehicle, orbit := a.Orbit })
                      a.histChan } := by
  unfold dynamics.Astrocodile.sendSnapshot
  cases h : a.histChan <;> simp [h]
  cases a
  simp_all

/-- A call to `Astrocodile.SetState` returns exactly when the norm of the new
position is not negative, and then returns the propagator after the queue with
the fuel mass replaced, and the fuel record when the fuel check fires. -/
theorem Astrocodile_SetState_returns_iff {F : Type} [LinearOrderedField F]
    (E : dynamics.Env F) (a : dynamics.Astrocodile F) (i : Nat) (s : Fin 7 → F)
    (m : dynamics.Astrocodile F) (logs : List (LogEntry F)) :
    a.SetState E i s = .ok (m, logs) ↔
      ¬ dynamics.norm E.math (a.afterQueue E s).Orbit.R < 0 ∧
      m = { a.afterQueue E s with
            Vehicle := { (a.afterQueue E s).Vehicle with FuelMass := s 6 } } ∧
      logs = (if decide ((a.afterQueue E s).Vehicle.FuelMass > 0) && decide (s 6 ≤ 0)
              then [.fuel (s 6)] else []) := by
  unfold dynamics.Astrocodile.SetState dynamics.Astrocodile.afterQueue
  by_cases h : dynamics.norm E.math ((a.sendSnapshot.storeState s).runQueue E).Orbit.R < 0
  · simp [h]
  · simp only [h, if_false, not_false_eq_true, true_and, Except.ok.injEq, Prod.mk.injEq]
    exact ⟨fun e => ⟨e.1.symm, e.2.symm⟩, fun e => ⟨e.1.symm, e.2.symm⟩⟩

/-- The loop of `Mission.SetState` over the queue applies the closures that
are not `nil`, each once, in the order of the queue. -/
theorem runFuncQ_eq_foldl {F : Type} [LinearOrderedField F] [FloorRing F] (E : Env F)
    (Q : List (Option (Callback F))) :
    ∀ st, runFuncQ E Q st = (Q.filterMap id).foldl (fun st f => E.call f st) st := by
  induction Q with
  | nil => intro st; rfl
  | cons x rest ih =>
    intro st
    cases x with
    | none => simpa [runFuncQ] using ih st
    | some f => simpa [runFuncQ] using ih (E.call f st)

/-- The loop of `Astrocodile.SetState` over the queue applies the closures that
are not `nil`, each once, in the order of the queue. -/
theorem dynamics_runFuncQ_eq_foldl {F : Type} [LinearOrderedField F] (E : dynamics.Env F)
    (Q : List (Option (Callback F))) :
    ∀ st, dynamics.runFuncQ E Q st
      = (Q.filterMap id).foldl (fun st f => E.call f st) st := by
  induction Q with
  | nil => intro st; rfl
  | cons x rest ih =>
    intro st
    cases x with
    | none => simpa [dynamics.runFuncQ] using ih st
    | some f => simpa [dynamics.runFuncQ] using ih (E.call f st)

/-- C14: a `SetState` call that returns (of `Mission` and of `Astrocodile`) has
applied the closures of the queue that are not `nil`, each once and in the
order of the queue, to the vehicle and the orbit; for `Mission` the queue is
the one on entry followed by the frame switch the call may have enqueued; on
return the queue is five `nil` entries, so it holds no closure. -/
theorem SetState_runs_queue_once {F : Type} [LinearOrderedField F] [FloorRing F]
    (E : Env F) (a : Mission F) (t : F) (s : Fin 7 → F) (m : Mission F)
    (E' : dynamics.Env F) (b : dynamics.Astrocodile F) (i : Nat) (s' : Fin 7 → F)
    (m' : dynamics.Astrocodile F) (logs : List (LogEntry F))
    (h : Mission.SetState E a t s = .ok m) (h' : b.SetState E' i s' = .ok (m', logs)) :
    ((∃ enq, (enq = [] ∨ enq = [some (.ToXCentric E.Sun a.CurrentDT)]) ∧
        (a.beforeQueue E s).Vehicle.FuncQ = a.Vehicle.FuncQ ++ enq) ∧
      m.Orbit = (((a.beforeQueue E s).Vehicle.FuncQ.filterMap id).foldl
        (fun st f => E.call f st)
        ((a.beforeQueue E s).Vehicle, (a.beforeQueue E s).Orbit)).2 ∧
      m.Vehicle = { (((a.beforeQueue E s).Vehicle.FuncQ.filterMap id).foldl
        (fun st f => E.call f st)
        ((a.beforeQueue E s).Vehicle, (a.beforeQueue E s).Orbit)).1 with
          FuncQ := List.replicate 5 none } ∧
      m.Vehicle.FuncQ = List.replicate 5 none ∧ ∀ x ∈ m.Vehicle.FuncQ, x = none) ∧
    (m'.Orbit = ((b.Vehicle.FuncQ.filterMap id).foldl (fun st f => E'.call f st)
        (b.Vehicle, (b.storeState s').Orbit)).2 ∧
      m'.Vehicle = { ((b.Vehicle.FuncQ.filterMap id).foldl (fun st f => E'.call f st)
        (b.Vehicle, (b.storeState s').Orbit)).1 with
          FuncQ := List.replicate 5 none, FuelMass := s' 6 } ∧
      m'.Vehicle.FuncQ = List.replicate 5 none ∧ ∀ x ∈ m'.Vehicle.FuncQ, x = none) := by
  obtain ⟨_, rfl⟩ := (Mission.SetState_ok_iff E a t s m).mp h
  obtain ⟨_, rfl, _⟩ := (Astrocodile_SetState_returns_iff E' b i s' m' logs).mp h'
  refine ⟨⟨?_, ?_, ?_, rfl, ?_⟩, ?_, ?_, rfl, ?_⟩
  · rw [Mission.beforeQueue_FuncQ]
    split_ifs
    · exact ⟨_, Or.inr rfl, rfl⟩
    · exact ⟨_, Or.inl rfl, rfl⟩
  · simp only [Mission.runQueue, runFuncQ_eq_foldl]
  · simp only [Mission.runQueue, runFuncQ_eq_foldl]
  · intro x hx
    exact List.eq_of_mem_replicate hx
  · simp [dynamics.Astrocodile.afterQueue, dynamics.Astrocodile.runQueue,
      dynamics_runFuncQ_eq_foldl, Astrocodile_sendSnapshot_channel,
      dynamics.Astrocodile.storeState]
  · simp [dynamics.Astrocodile.afterQueue, dynamics.Astrocodile.runQueue,
      dynamics_runFuncQ_eq_foldl, Astrocodile_sendSnapshot_channel,
      dynamics.Astrocodile.storeState]
  · intro x hx
    exact List.eq_of_mem_replicate hx
/-- The call of `Astrocodile.SetState` on `queuedAstro` with `farState` returns. -/
theorem queuedAstro_SetState_ok :
    queuedAstro.SetState sampleAstroEnv 0 farState
      = .ok ({ queuedAstro.afterQueue sampleAstroEnv farState with
                Vehicle := { (queuedAstro.afterQueue sampleAstroEnv farState).Vehicle with
                  FuelMass := farState 6 } },
             if decide ((queuedAstro.afterQueue sampleAstroEnv farState).Vehicle.FuelMass > 0)
                  && decide (farState 6 ≤ 0)
             then [.fuel (farState 6)] else []) :=
  (Astrocodile_SetState_returns_iff sampleAstroEnv queuedAstro 0 farState _ _).mpr
    ⟨not_lt.mpr (Real.sqrt_nonneg _), rfl, rfl⟩

/-- Witness of C14: a mission beyond the sphere of influence with an empty
queue on entry, and a propagator of `astro.go` with two entries in its queue. -/
theorem SetState_runs_queue_once_witness :
    (∃ m, Mission.SetState sampleEnv (sampleMission 0) 0 farState = .ok m ∧
      m.Vehicle.FuncQ = List.replicate 5 none) ∧
    (∃ m' logs, queuedAstro.SetState sampleAstroEnv 0 farState = .ok (m', logs) ∧
      m'.Vehicle.FuncQ = List.replicate 5 none) :=
  have h := SetState_runs_queue_once sampleEnv (sampleMission 0) 0 farState _
    sampleAstroEnv queuedAstro 0 farState _ _ rfl queuedAstro_SetState_ok
  ⟨⟨_, rfl, h.1.2.2.2.1⟩, ⟨_, _, queuedAstro_SetState_ok, h.2.2.2.1⟩⟩

/-- The blocks of `Mission.SetState` after the snapshot leave the history
channel as it is. -/
theorem Mission.beforeQueue_histChan {F : Type} [LinearOrderedField F] [FloorRing F]
    (E : Env F) (a : Mission F) (s : Fin 7 → F) :
    ((a.beforeQueue E s).runQueue E).histChan = a.sendSnapshot.histChan := by
  simp only [Mission.beforeQueue, Mission.runQueue, Mission.fuelCheck, Mission.updated,
    Mission.sanityChecks, Mission.storeElements]
  split_ifs <;> rfl

/-- C15: the first block of `SetState` (of `Mission` and of `Astrocodile`), with
a history channel attached, sends to it one snapshot made of the current time
and of the vehicle and the orbit as they are on entry, and a call that returns
leaves the channel with that one snapshot more; with no channel attached
nothing is sent. -/
theorem SetState_emits_one_snapshot {F : Type} [LinearOrderedField F] [FloorRing F]
    (E : Env F) (a : Mission F) (t : F) (s : Fin 7 → F) (m : Mission F)
    (E' : dynamics.Env F) (b : dynamics.Astrocodile F) (i : Nat) (s' : Fin 7 → F)
    (m' : dynamics.Astrocodile F) (logs : List (LogEntry F))
    (h : Mission.SetState E a t s = .ok m) (h' : b.SetState E' i s' = .ok (m', logs)) :
    ((∀ c, a.histChan = some c →
        a.sendSnapshot.histChan = some
          { sent := c.sent ++ [{ DT := a.CurrentDT, SC := a.Vehicle, Orbit := a.Orbit }],
            closed := c.closed } ∧
        m.histChan = a.sendSnapshot.histChan) ∧
      (a.histChan = none → m.histChan = none)) ∧
    ((∀ c, b.histChan = some c →
        b.sendSnapshot.histChan = some
          { sent := c.sent ++ [{ dt := b.CurrentDT, sc := b.Vehicle, orbit := b.Orbit }],
            closed := c.closed } ∧
        m'.histChan = b.sendSnapshot.histChan) ∧
      (b.histChan = none → m'.histChan = none)) := by
  obtain ⟨_, rfl⟩ := (Mission.SetState_ok_iff E a t s m).mp h
  obtain ⟨_, rfl, _⟩ := (Astrocodile_SetState_returns_iff E' b i s' m' logs).mp h'
  have hb : (b.afterQueue E' s').histChan = b.sendSnapshot.histChan := rfl
  refine ⟨⟨?_, ?_⟩, ?_, ?_⟩
  · intro c hc
    refine ⟨?_, Mission.beforeQueue_histChan E a s⟩
    simp [Mission.sendSnapshot_eq, hc, HistChan.send]
  · intro hc
    rw [Mission.beforeQueue_histChan]
    simp [Mission.sendSnapshot_eq, hc]
  · intro c hc
    refine ⟨?_, hb⟩
    simp [Astrocodile_sendSnapshot_channel, hc, HistChan.send]
  · intro hc
    show (b.afterQueue E' s').histChan = none
    rw [hb]
    simp [Astrocodile_sendSnapshot_channel, hc]

/-- Witness of C15: a mission and a propagator of `astro.go` with an open
history channel each. -/
theorem SetState_emits_one_snapshot_witness :
    (∃ m, Mission.SetState sampleEnv stoppingMission 0 farState = .ok m ∧
      m.histChan = some
        { sent := [{ DT := stoppingMission.CurrentDT, SC := stoppingMission.Vehicle,
                     Orbit := stoppingMission.Orbit }],
          closed := false }) ∧
    (∃ m' logs, queuedAstro.SetState sampleAstroEnv 0 farState = .ok (m', logs) ∧
      m'.histChan = some
        { sent := [{ dt := queuedAstro.CurrentDT, sc := queuedAstro.Vehicle,
                     orbit := queuedAstro.Orbit }],
          closed := false }) :=
  have h := SetState_emits_one_snapshot sampleEnv stoppingMission 0 farState _
    sampleAstroEnv queuedAstro 0 farState _ _ rfl queuedAstro_SetState_ok
  ⟨⟨_, rfl, by rw [(h.1.1 _ rfl).2, (h.1.1 _ rfl).1]; rfl⟩,
    ⟨_, _, queuedAstro_SetState_ok, by rw [(h.2.1 _ rfl).2, (h.2.1 _ rfl).1]; rfl⟩⟩
/-- Closures that leave the fuel mass alone leave it alone along the whole
queue of `Mission.SetState`. -/
theorem runFuncQ_FuelMass {F : Type} [LinearOrderedField F] [FloorRing F] (E : Env F)
    (hcall : ∀ f st, (E.call f st).1.FuelMass = st.1.FuelMass)
    (Q : List (Option (Callback F))) :
    ∀ st, (runFuncQ E Q st).1.FuelMass = st.1.FuelMass := by
  induction Q with
  | nil => intro st; rfl
  | cons x rest ih =>
    intro st
    cases x with
    | none => simpa [runFuncQ] using ih st
    | some f =>
      have := ih (E.call f st)
      rw [hcall] at this
      simpa [runFuncQ] using this

/-- Closures that leave the fuel mass alone leave it alone along the whole
queue of `Astrocodile.SetState`. -/
theorem dynamics_runFuncQ_FuelMass {F : Type} [LinearOrderedField F] (E : dynamics.Env F)
    (hcall : ∀ f st, (E.call f st).1.FuelMass = st.1.FuelMass)
    (Q : List (Option (Callback F))) :
    ∀ st, (dynamics.runFuncQ E Q st).1.FuelMass = st.1.FuelMass := by
  induction Q with
  | nil => intro st; rfl
  | cons x rest ih =>
    intro st
    cases x with
    | none => simpa [dynamics.runFuncQ] using ih st
    | some f =>
      have := ih (E.call f st)
      rw [hcall] at this
      simpa [dynamics.runFuncQ] using this

/-- The sanity checks leave the fuel mass as it is. -/
theorem Mission.sanityChecks_FuelMass {F : Type} [LinearOrderedField F] (E : Env F)
    (a : Mission F) : (a.sanityChecks E).Vehicle.FuelMass = a.Vehicle.FuelMass := by
  unfold Mission.sanityChecks
  split_ifs <;> rfl

/-- C16: for a `SetState` call that returns (of `Mission` and of `Astrocodile`),
with queued closures that leave the fuel mass alone, the fuel mass of the
vehicle afterwards is `s[6]`, of either sign, and the call logs one fuel
record exactly when the fuel mass on entry was positive and `s[6] ≤ 0`. -/
theorem SetState_fuel_mass {F : Type} [LinearOrderedField F] [FloorRing F]
    (E : Env F) (a : Mission F) (t : F) (s : Fin 7 → F) (m : Mission F)
    (E' : dynamics.Env F) (b : dynamics.Astrocodile F) (i : Nat) (s' : Fin 7 → F)
    (m' : dynamics.Astrocodile F) (logs : List (LogEntry F))
    (h : Mission.SetState E a t s = .ok m) (h' : b.SetState E' i s' = .ok (m', logs))
    (hcall : ∀ f st, (E.call f st).1.FuelMass = st.1.FuelMass)
    (hcall' : ∀ f st, (E'.call f st).1.FuelMass = st.1.FuelMass) :
    (m.Vehicle.FuelMass = s 6 ∧
      (a.beforeQueue E s).Vehicle.logger
        = ((a.updated E s).sanityChecks E).Vehicle.logger
          ++ (if 0 < a.Vehicle.FuelMass ∧ s 6 ≤ 0 then [.fuel (s 6)] else [])) ∧
    (m'.Vehicle.FuelMass = s' 6 ∧
      logs = if 0 < b.Vehicle.FuelMass ∧ s' 6 ≤ 0 then [.fuel (s' 6)] else []) := by
  obtain ⟨_, rfl⟩ := (Mission.SetState_ok_iff E a t s m).mp h
  obtain ⟨_, rfl, rfl⟩ := (Astrocodile_SetState_returns_iff E' b i s' m' logs).mp h'
  have h6 : wrapAngles E.math s 6 = s 6 := wrapAngles_other E.math s 6 (by simp)
  have hf : ((a.updated E s).sanityChecks E).Vehicle.FuelMass = a.Vehicle.FuelMass := by
    rw [Mission.sanityChecks_FuelMass, (Mission.updated_fields E a s).2.2.1]
  have hb : (b.afterQueue E' s').Vehicle.FuelMass = b.Vehicle.FuelMass := by
    simp only [dynamics.Astrocodile.afterQueue, dynamics.Astrocodile.runQueue]
    rw [dynamics_runFuncQ_FuelMass E' hcall']
    simp [Astrocodile_sendSnapshot_channel, dynamics.Astrocodile.storeState]
  refine ⟨⟨?_, ?_⟩, rfl, ?_⟩
  · simp only [Mission.runQueue]
    rw [runFuncQ_FuelMass E hcall]
    simp only [Mission.beforeQueue, Mission.fuelCheck, h6]
  · simp only [Mission.beforeQueue, Mission.fuelCheck, h6, hf]
    split_ifs <;> simp_all [Spacecraft.Log]
  · rw [hb]
    split_ifs <;> simp_all

/-- Witness of C16: a mission and a propagator of `astro.go` with 500 kg of
fuel on entry and in the new state. -/
theorem SetState_fuel_mass_witness :
    (∃ m, Mission.SetState sampleEnv (sampleMission 0) 0 farState = .ok m ∧
      m.Vehicle.FuelMass = farState 6) ∧
    (∃ m' logs, queuedAstro.SetState sampleAstroEnv 0 farState = .ok (m', logs) ∧
      m'.Vehicle.FuelMass = farState 6 ∧
      logs = if 0 < queuedAstro.Vehicle.FuelMass ∧ farState 6 ≤ 0
             then [.fuel (farState 6)] else []) :=
  have h := SetState_fuel_mass sampleEnv (sampleMission 0) 0 farState _
    sampleAstroEnv queuedAstro 0 farState _ _ rfl queuedAstro_SetState_ok
    (fun _ _ => rfl) (fun _ _ => rfl)
  ⟨⟨_, rfl, h.1.1⟩, ⟨_, _, queuedAstro_SetState_ok, h.2.1, h.2.2⟩⟩
/-! ## Theorems: state extraction and the Cartesian derivative -/

/-- Counterexample to C17 as stated: in `Cartesian` mode `Mission.GetState`
panics. -/
theorem GetState_Cartesian_panics :
    cartesianMission.Propagator = Cartesian ∧
    cartesianMission.GetState = .error "propagator not implemented" :=
  ⟨rfl, rfl⟩

/-- C17: `Mission.GetState` returns the seven numbers `a, e, i, Ω, ω, ν` and the
fuel mass in `GaussianVOP` mode and panics for every other propagator,
`Cartesian` included; `Astrocodile.GetState`, the Cartesian propagator, always
returns the position, then the velocity, then the fuel mass. -/
theorem GetState_seven_numbers {F : Type} [LinearOrderedField F] [FloorRing F]
    (a : Mission F) (b : dynamics.Astrocodile F) :
    (a.Propagator = GaussianVOP →
      a.GetState = .ok ![a.Orbit.a, a.Orbit.e, a.Orbit.i, a.Orbit.Ω, a.Orbit.ω, a.Orbit.ν,
                         a.Vehicle.FuelMass]) ∧
    (a.Propagator ≠ GaussianVOP → a.GetState = .error "propagator not implemented") ∧
    ((∀ j : Fin 3, b.GetState (Fin.castLE (by decide) j) = b.Orbit.R j) ∧
      (∀ j : Fin 3, b.GetState (Fin.natAdd 3 (Fin.castLE (by decide) j : Fin 4)) = b.Orbit.V j) ∧
      b.GetState 6 = b.Vehicle.FuelMass) := by
  refine ⟨?_, ?_, ?_, ?_, rfl⟩
  · intro h
    simp [Mission.GetState, h]
  · intro h
    simp [Mission.GetState, h]
  · intro j
    fin_cases j <;> rfl
  · intro j
    fin_cases j <;> rfl

/-- C18: for a state `f` whose radial distance is not zero, `Astrocodile.Func`
returns the velocity components in the first three slots, the two-body
acceleration `-μ * f[i] / |r|^3` plus the thrust acceleration of `Accelerate`
in the next three, and the opposite of the fuel used in the last; with no
fuel used the fuel rate is zero. -/
theorem Astrocodile_Func_two_body {F : Type} [LinearOrderedField F]
    (E : dynamics.Env F) (a : dynamics.Astrocodile F) (t : F) (f : Fin 7 → F)
    (hr : dynamics.norm E.math ![f 0, f 1, f 2] ≠ 0) :
    ((a.Func E t f).1 0 = f 3 ∧ (a.Func E t f).1 1 = f 4 ∧ (a.Func E t f).1 2 = f 5) ∧
    ((a.Func E t f).1 3 = -a.Orbit.Origin.μ * f 0 / dynamics.norm E.math ![f 0, f 1, f 2] ^ 3
        + (E.Accelerate a.Vehicle a.CurrentDT a.Orbit).1.1 0 ∧
      (a.Func E t f).1 4 = -a.Orbit.Origin.μ * f 1 / dynamics.norm E.math ![f 0, f 1, f 2] ^ 3
        + (E.Accelerate a.Vehicle a.CurrentDT a.Orbit).1.1 1 ∧
      (a.Func E t f).1 5 = -a.Orbit.Origin.μ * f 2 / dynamics.norm E.math ![f 0, f 1, f 2] ^ 3
        + (E.Accelerate a.Vehicle a.CurrentDT a.Orbit).1.1 2) ∧
    (a.Func E t f).1 6 = -(E.Accelerate a.Vehicle a.CurrentDT a.Orbit).1.2 ∧
    ((E.Accelerate a.Vehicle a.CurrentDT a.Orbit).1.2 = 0 → (a.Func E t f).1 6 = 0) := by
  have h3 : dynamics.norm E.math ![f 0, f 1, f 2] ^ 3 ≠ 0 := pow_ne_zero 3 hr
  refine ⟨⟨rfl, rfl, rfl⟩, ⟨?_, ?_, ?_⟩, rfl, ?_⟩
  · show f 0 * (_ / math.Pow _ 3) + _ = _
    rw [math.Pow]; field_simp; ring
  · show f 1 * (_ / math.Pow _ 3) + _ = _
    rw [math.Pow]; field_simp; ring
  · show f 2 * (_ / math.Pow _ 3) + _ = _
    rw [math.Pow]; field_simp; ring
  · intro h0
    show -(E.Accelerate a.Vehicle a.CurrentDT a.Orbit).1.2 = 0
    rw [h0, neg_zero]

/-- Witness of C18: the sample propagator with a state at about 1000000 km
from the centre, without thrust. -/
theorem Astrocodile_Func_two_body_witness :
    dynamics.norm sampleAstroEnv.math ![farState 0, farState 1, farState 2] ≠ 0 ∧
    ((sampleAstro 0).Func sampleAstroEnv 0 farState).1 6 = 0 := by
  have hr : dynamics.norm sampleAstroEnv.math ![farState 0, farState 1, farState 2] ≠ 0 := by
    simp only [dynamics.norm, sampleAstroEnv, GoMath.real, farState, Matrix.cons_val_zero,
      Matrix.cons_val_one, Matrix.cons_val_two, Matrix.head_cons, Matrix.tail_cons]
    exact (Real.sqrt_pos.mpr (by norm_num)).ne'
  exact ⟨hr, (Astrocodile_Func_two_body sampleAstroEnv (sampleAstro 0) 0 farState hr).2.2.2 rfl⟩

/-! ## Theorems: the final check of `Mission.Func` and orbit construction -/

/-- A vector whose fourth component is `+Inf`, hence not finite, passes the
final check of `Mission.Func`. -/
theorem checkNaN_passes_infinity :
    (fun i : Fin 7 => if i = 3 then Float64.posInf else Float64.num (0 : ℚ)) 3
        = Float64.posInf ∧
    Float64.isFinite (Float64.posInf : Float64 ℚ) = false ∧
    Mission.checkNaN (fun i : Fin 7 => if i = 3 then Float64.posInf else Float64.num (0 : ℚ))
      = .ok (fun i : Fin 7 => if i = 3 then Float64.posInf else Float64.num (0 : ℚ)) := by
  refine ⟨rfl, rfl, ?_⟩
  rfl

/-- The final check of `Mission.Func` panics exactly when one of the seven
components of the vector is NaN, and returns the vector exactly when none is;
an infinite component does not make it panic. -/
theorem checkNaN_iff {F : Type} (fDot : Fin 7 → Float64 F) :
    (Mission.checkNaN fDot = .error "fDot[i]=NaN" ↔ ∃ i, fDot i = Float64.NaN) ∧
    (Mission.checkNaN fDot = .ok fDot ↔ ∀ i, fDot i ≠ Float64.NaN) ∧
    ((∀ i, (fDot i).isFinite = true) → Mission.checkNaN fDot = .ok fDot) := by
  have hnan : ∀ x : Float64 F, math.IsNaN x = true ↔ x = Float64.NaN := by
    intro x; cases x <;> simp [math.IsNaN]
  have hany : (List.finRange 7).any (fun i => math.IsNaN (fDot i)) = true ↔
      ∃ i, fDot i = Float64.NaN := by
    simp [List.any_eq_true, hnan]
  unfold Mission.checkNaN
  by_cases h : (List.finRange 7).any (fun i => math.IsNaN (fDot i)) = true
  · have he := hany.mp h
    simp only [h, if_true]
    refine ⟨by simp [he], ?_, ?_⟩
    · constructor
      · intro hc; cases hc
      · intro hall
        obtain ⟨i, hi⟩ := he
        exact absurd hi (hall i)
    · intro hfin
      obtain ⟨i, hi⟩ := he
      have := hfin i
      rw [hi] at this
      simp [Float64.isFinite] at this
  · have hne : ¬ ∃ i, fDot i = Float64.NaN := fun he => h (hany.mpr he)
    simp only [h]
    refine ⟨by simp [hne], ?_, ?_⟩
    · simp only [Bool.false_eq_true, if_false, true_iff]
      intro i hi
      exact hne ⟨i, hi⟩
    · intro _; rfl
/-- The guards of `NewOrbitFromOE`: it panics exactly when the true anomaly is
below `1e-10` or the eccentricity is negative or above 1. -/
theorem NewOrbitFromOE_panics_iff {F : Type} [LinearOrderedField F] (M : GoMath F)
    (a e i ω Ω ν : F) (c : CelestialObject F) :
    (∃ msg, dynamics.NewOrbitFromOE M a e i ω Ω ν c = .error msg) ↔
      (ν < 1e-10 ∨ e < 0 ∨ e > 1) := by
  unfold dynamics.NewOrbitFromOE
  by_cases h1 : ν < 1e-10
  · simp [h1]
  · by_cases h2 : e < 0 ∨ e > 1
    · simp [h1, h2]
    · simp [h1, h2]

/-- C20: `NewOrbitFromOE` with eccentricity 1, which lies outside `[0, 1)`, and
true anomaly 1 does not panic: it constructs an orbit. -/
theorem NewOrbitFromOE_accepts_parabolic :
    ∃ o, dynamics.NewOrbitFromOE GoMath.real 7000 1 0.5 1 1 1 sampleBody = .ok o := by
  unfold dynamics.NewOrbitFromOE
  have h1 : ¬ ((1 : ℝ) < 1e-10) := by norm_num
  have h2 : ¬ ((1 : ℝ) < 0 ∨ (1 : ℝ) > 1) := by norm_num
  rw [if_neg h1, if_neg h2]
  exact ⟨_, rfl⟩

/-! ## Theorems: apsides, cross product and quadrants -/

/-- C25: `Radii2ae` panics exactly when `rA < rP`; for `0 < rP ≤ rA` it returns
`a` and `e` with `a * (1 + e) = rA`, `a * (1 - e) = rP`, `0 ≤ e < 1`, and
`e = 0` exactly when `rA = rP`. -/
theorem Radii2ae_apsides {F : Type} [LinearOrderedField F] (rA rP : F) :
    ((∃ msg, dynamics.Radii2ae rA rP = .error msg) ↔ rA < rP) ∧
    (0 < rP → rP ≤ rA →
      ∃ a e, dynamics.Radii2ae rA rP = .ok (a, e) ∧ a * (1 + e) = rA ∧ a * (1 - e) = rP ∧
        0 ≤ e ∧ e < 1 ∧ (e = 0 ↔ rA = rP)) := by
  constructor
  · unfold dynamics.Radii2ae
    by_cases h : rA < rP <;> simp [h]
  · intro hP hAP
    have hs : 0 < rA + rP := by linarith
    refine ⟨(rP + rA) / 2, (rA - rP) / (rA + rP), ?_, ?_, ?_, ?_, ?_, ?_⟩
    · simp [dynamics.Radii2ae, not_lt.mpr hAP]
    · field_simp; ring
    · field_simp; ring
    · exact div_nonneg (by linarith) hs.le
    · rw [div_lt_one hs]; linarith
    · rw [div_eq_zero_iff]
      constructor
      · rintro (h | h)
        · linarith
        · linarith
      · intro h; left; linarith

/-- C26: `cross` maps the basis vectors as `i × j = k` and `j × k = i`, is
orthogonal to both of its arguments, and changes sign when they are swapped. -/
theorem cross_right_handed {F : Type} [LinearOrderedField F] (a b : Fin 3 → F) :
    dynamics.cross (![1, 0, 0] : Fin 3 → F) ![0, 1, 0] = ![0, 0, 1] ∧
    dynamics.cross (![0, 1, 0] : Fin 3 → F) ![0, 0, 1] = ![1, 0, 0] ∧
    dynamics.dot a (dynamics.cross a b) = 0 ∧
    dynamics.dot b (dynamics.cross a b) = 0 ∧
    dynamics.cross a b = fun j => -dynamics.cross b a j := by
  refine ⟨?_, ?_, ?_, ?_, ?_⟩
  · simp [dynamics.cross]
  · simp [dynamics.cross]
  · simp [dynamics.dot, dynamics.cross]; ring
  · simp [dynamics.dot, dynamics.cross]; ring
  · funext j
    fin_cases j <;> simp [dynamics.cross] <;> ring

/-! ## Theorems: the half-planes of the angles `GetOE` returns -/

/-- The inner product of two vectors is at most the product of their norms,
in absolute value. -/
theorem abs_dot_le (a b : Fin 3 → ℝ) :
    |dynamics.dot a b| ≤ dynamics.norm GoMath.real a * dynamics.norm GoMath.real b := by
  show |dynamics.dot a b| ≤ Real.sqrt (a 0 * a 0 + a 1 * a 1 + a 2 * a 2)
    * Real.sqrt (b 0 * b 0 + b 1 * b 1 + b 2 * b 2)
  have ha : 0 ≤ a 0 * a 0 + a 1 * a 1 + a 2 * a 2 :=
    add_nonneg (add_nonneg (mul_self_nonneg _) (mul_self_nonneg _)) (mul_self_nonneg _)
  rw [← Real.sqrt_mul ha]
  apply Real.abs_le_sqrt
  simp only [dynamics.dot]
  nlinarith [sq_nonneg (a 0 * b 1 - a 1 * b 0), sq_nonneg (a 0 * b 2 - a 2 * b 0),
    sq_nonneg (a 1 * b 2 - a 2 * b 1)]

/-- A quotient whose numerator is at most the positive divisor in absolute
value lies in `[-1, 1]`. -/
theorem quotient_in_range (x d : ℝ) (hd : 0 < d) (hx : |x| ≤ d) : -1 ≤ x / d ∧ x / d ≤ 1 := by
  have h := abs_le.mp hx
  constructor
  · rw [le_div_iff₀ hd]; linarith
  · rw [div_le_iff₀ hd]; linarith

/-- The angle the quadrant check of `GetOE` returns from a quotient of
`[-1, 1]`: its cosine is the quotient, and it lies in `[π, 2π]` when the check
fires and in `[0, π]` otherwise. -/
theorem quadrant_angle (c : Prop) [Decidable c] (q : ℝ) (h1 : -1 ≤ q) (h2 : q ≤ 1) :
    Real.cos (if c then 2 * Real.pi - Real.arccos q else Real.arccos q) = q ∧
    (c → Real.pi ≤ (if c then 2 * Real.pi - Real.arccos q else Real.arccos q) ∧
      (if c then 2 * Real.pi - Real.arccos q else Real.arccos q) ≤ 2 * Real.pi) ∧
    (¬ c → 0 ≤ (if c then 2 * Real.pi - Real.arccos q else Real.arccos q) ∧
      (if c then 2 * Real.pi - Real.arccos q else Real.arccos q) ≤ Real.pi) := by
  have hlo := Real.arccos_nonneg q
  have hhi := Real.arccos_le_pi q
  have hcos := Real.cos_arccos h1 h2
  by_cases h : c
  · simp only [if_pos h]
    refine ⟨by rw [Real.cos_two_pi_sub, hcos], fun _ => ⟨by linarith, by linarith⟩,
      fun hn => absurd h hn⟩
  · simp only [if_neg h]
    exact ⟨hcos, fun hc => absurd hc h, fun _ => ⟨hlo, hhi⟩⟩

/-- A state with a non-zero eccentricity vector has a non-zero gravitational
parameter: the eccentricity vector is a quotient by it. -/
theorem eVec_divisor (o : dynamics.Orbit ℝ) (he : o.eVec GoMath.real ≠ 0) : o.Origin.μ ≠ 0 := by
  intro hμ
  apply he
  funext j
  simp [dynamics.Orbit.eVec, hμ]

/-- A state with a non-zero angular momentum has a non-zero position. -/
theorem position_ne_zero (o : dynamics.Orbit ℝ) (hh : dynamics.cross o.R o.V ≠ 0) : o.R ≠ 0 := by
  intro hR
  apply hh
  funext j
  fin_cases j <;> simp [dynamics.cross, hR]

/-- C27: over the reals, for a state with non-zero angular momentum, node
vector and eccentricity vector, every divisor `GetOE` uses for the three
angles is non-zero and every quotient it passes to `math.Acos` lies in
`[-1, 1]`; the cosine of each angle is its quotient, and the angle lies in
`[π, 2π]` when its sign check fires (`N[1] < 0`, `eVec[2] < 0`, `R·V < 0`) and
in `[0, π]` otherwise. -/
theorem GetOE_half_planes (o : dynamics.Orbit ℝ) (hh : dynamics.cross o.R o.V ≠ 0)
    (hN : o.N ≠ 0) (he : o.eVec GoMath.real ≠ 0) :
    (o.Origin.μ ≠ 0 ∧ dynamics.norm GoMath.real o.R ≠ 0 ∧
      dynamics.norm GoMath.real o.N ≠ 0 ∧
      dynamics.norm GoMath.real (o.eVec GoMath.real) ≠ 0) ∧
    ((-1 ≤ o.N 0 / dynamics.norm GoMath.real o.N ∧
        o.N 0 / dynamics.norm GoMath.real o.N ≤ 1) ∧
      Real.cos (o.GetOE GoMath.real).Ω = o.N 0 / dynamics.norm GoMath.real o.N ∧
      (o.N 1 < 0 →
        Real.pi ≤ (o.GetOE GoMath.real).Ω ∧ (o.GetOE GoMath.real).Ω ≤ 2 * Real.pi) ∧
      (¬ o.N 1 < 0 →
        0 ≤ (o.GetOE GoMath.real).Ω ∧ (o.GetOE GoMath.real).Ω ≤ Real.pi)) ∧
    ((-1 ≤ dynamics.dot o.N (o.eVec GoMath.real)
          / (dynamics.norm GoMath.real o.N * dynamics.norm GoMath.real (o.eVec GoMath.real)) ∧
        dynamics.dot o.N (o.eVec GoMath.real)
          / (dynamics.norm GoMath.real o.N * dynamics.norm GoMath.real (o.eVec GoMath.real))
          ≤ 1) ∧
      Real.cos (o.GetOE GoMath.real).ω = dynamics.dot o.N (o.eVec GoMath.real)
          / (dynamics.norm GoMath.real o.N * dynamics.norm GoMath.real (o.eVec GoMath.real)) ∧
      ((o.eVec GoMath.real) 2 < 0 →
        Real.pi ≤ (o.GetOE GoMath.real).ω ∧ (o.GetOE GoMath.real).ω ≤ 2 * Real.pi) ∧
      (¬ (o.eVec GoMath.real) 2 < 0 →
        0 ≤ (o.GetOE GoMath.real).ω ∧ (o.GetOE GoMath.real).ω ≤ Real.pi)) ∧
    ((-1 ≤ dynamics.dot (o.eVec GoMath.real) o.R
          / (dynamics.norm GoMath.real (o.eVec GoMath.real) * dynamics.norm GoMath.real o.R) ∧
        dynamics.dot (o.eVec GoMath.real) o.R
          / (dynamics.norm GoMath.real (o.eVec GoMath.real) * dynamics.norm GoMath.real o.R)
          ≤ 1) ∧
      Real.cos (o.GetOE GoMath.real).ν = dynamics.dot (o.eVec GoMath.real) o.R
          / (dynamics.norm GoMath.real (o.eVec GoMath.real) * dynamics.norm GoMath.real o.R) ∧
      (dynamics.dot o.R o.V < 0 →
        Real.pi ≤ (o.GetOE GoMath.real).ν ∧ (o.GetOE GoMath.real).ν ≤ 2 * Real.pi) ∧
      (¬ dynamics.dot o.R o.V < 0 →
        0 ≤ (o.GetOE GoMath.real).ν ∧ (o.GetOE GoMath.real).ν ≤ Real.pi)) := by
  have nN := dynamics.norm_pos_of_ne_zero o.N hN
  have nE := dynamics.norm_pos_of_ne_zero (o.eVec GoMath.real) he
  have nR := dynamics.norm_pos_of_ne_zero o.R (position_ne_zero o hh)
  have qΩ : -1 ≤ o.N 0 / dynamics.norm GoMath.real o.N ∧
      o.N 0 / dynamics.norm GoMath.real o.N ≤ 1 := by
    apply quotient_in_range _ _ nN
    apply Real.abs_le_sqrt
    nlinarith [mul_self_nonneg (o.N 1), mul_self_nonneg (o.N 2)]
  have qω := quotient_in_range _ _ (mul_pos nN nE) (abs_dot_le o.N (o.eVec GoMath.real))
  have qν := quotient_in_range _ _ (mul_pos nE nR) (abs_dot_le (o.eVec GoMath.real) o.R)
  exact ⟨⟨eVec_divisor o he, nR.ne', nN.ne', nE.ne'⟩,
    ⟨qΩ, quadrant_angle _ _ qΩ.1 qΩ.2⟩, ⟨qω, quadrant_angle _ _ qω.1 qω.2⟩,
    ⟨qν, quadrant_angle _ _ qν.1 qν.2⟩⟩

/-- Witness of C27: an inclined orbit around the sample body. -/
theorem GetOE_half_planes_witness :
    (-1 ≤ inclinedOrbit.N 0 / dynamics.norm GoMath.real inclinedOrbit.N ∧
        inclinedOrbit.N 0 / dynamics.norm GoMath.real inclinedOrbit.N ≤ 1) ∧
      Real.cos (inclinedOrbit.GetOE GoMath.real).Ω
        = inclinedOrbit.N 0 / dynamics.norm GoMath.real inclinedOrbit.N ∧
      (inclinedOrbit.N 1 < 0 →
        Real.pi ≤ (inclinedOrbit.GetOE GoMath.real).Ω ∧
          (inclinedOrbit.GetOE GoMath.real).Ω ≤ 2 * Real.pi) ∧
      (¬ inclinedOrbit.N 1 < 0 →
        0 ≤ (inclinedOrbit.GetOE GoMath.real).Ω ∧
          (inclinedOrbit.GetOE GoMath.real).Ω ≤ Real.pi) :=
  (GetOE_half_planes inclinedOrbit
    (by
      intro h
      have h1 := congrFun h 1
      simp [dynamics.cross, inclinedOrbit] at h1)
    (by
      intro h
      have h0 := congrFun h 0
      simp [dynamics.Orbit.N, dynamics.cross, inclinedOrbit] at h0)
    (by
      intro h
      have h0 := congrFun h 0
      have hn : dynamics.norm GoMath.real inclinedOrbit.R = 7000 := by
        show Real.sqrt (7000 * 7000 + 0 * 0 + 0 * 0) = 7000
        rw [show (7000 : ℝ) * 7000 + 0 * 0 + 0 * 0 = 7000 * 7000 by ring]
        exact Real.sqrt_mul_self (by norm_num)
      have hv : math.Pow (dynamics.norm GoMath.real inclinedOrbit.V) 2 = 50 := by
        show (Real.sqrt (0 * 0 + 5 * 5 + 5 * 5)) ^ 2 = 50
        rw [Real.sq_sqrt (by norm_num)]
        norm_num
      simp only [dynamics.Orbit.eVec, hn, hv] at h0
      simp [inclinedOrbit, sampleBody, dynamics.dot] at h0
      norm_num at h0)).2.1

/-! ## Theorems: frame switch -/

/-- C22: `Orbit.ToXCentric(b, dt)` panics exactly when `b` is the current
origin of the orbit, before anything is assigned; when it returns, the origin
of the orbit is `b`. -/
theorem ToXCentric_panics_iff_same_frame {F : Type} [LinearOrderedField F]
    (E : dynamics.Env F) (o : dynamics.Orbit F) (b : CelestialObject F) (dt : Time) :
    ((∃ msg, o.ToXCentric E b dt = .error msg) ↔ o.Origin = b) ∧
    (o.Origin = b → o.ToXCentric E b dt = .error "already in orbit around the body") ∧
    (∀ o', o.ToXCentric E b dt = .ok o' → o'.Origin = b) := by
  unfold dynamics.Orbit.ToXCentric
  by_cases h : o.Origin = b
  · simp [h]
  · by_cases h2 : b.SOI = -1
    · simp only [h, h2, if_false, if_true]
      refine ⟨by simp, by simp, ?_⟩
      intro o' ho
      cases ho
      rfl
    · simp only [h, h2, if_false]
      refine ⟨by simp, by simp, ?_⟩
      intro o' ho
      cases ho
      rfl

/-- C23: `Orbit.ToXCentric` towards the sample body, from a heliocentric
position 999999900 km away from that body, whose sphere of influence has a
radius of 924645 km, does not panic: it returns an orbit around the body. -/
theorem ToXCentric_outside_SOI_returns :
    sampleBody.SOI < dynamics.norm GoMath.real
      (fun i => helioFarOrbit.R i - (sampleAstroEnv.HelioOrbit sampleBody 0).1 i) ∧
    ∃ o', helioFarOrbit.ToXCentric sampleAstroEnv sampleBody 0 = .ok o' ∧
      o'.Origin = sampleBody := by
  constructor
  · have e : dynamics.norm GoMath.real
        (fun i => helioFarOrbit.R i - (sampleAstroEnv.HelioOrbit sampleBody 0).1 i)
        = Real.sqrt (999999900 * 999999900) := by
      simp only [dynamics.norm, GoMath.real, helioFarOrbit, sampleAstroEnv, sampleBody]
      norm_num
    rw [e, Real.sqrt_mul_self (by norm_num)]
    norm_num [sampleBody]
  · have h1 : ¬ helioFarOrbit.Origin = sampleBody := by
      simp [helioFarOrbit, sampleSun, sampleBody]
    have h2 : ¬ sampleBody.SOI = -1 := by norm_num [sampleBody]
    unfold dynamics.Orbit.ToXCentric
    rw [if_neg h1, if_neg h2]
    exact ⟨_, rfl, rfl⟩
/-- Over the reals, the rotation `R1` by an angle followed by the rotation by
the opposite angle is the identity. -/
theorem R1_neg_R1 (θ : ℝ) (v : Fin 3 → ℝ) :
    dynamics.MxV33 (dynamics.R1 GoMath.real (-θ))
      (dynamics.MxV33 (dynamics.R1 GoMath.real θ) v) = v := by
  have hsc := Real.sin_sq_add_cos_sq θ
  funext j
  fin_cases j
  · simp [dynamics.MxV33, dynamics.R1, GoMath.real, Matrix.vecHead, Matrix.vecTail]
  · simp only [dynamics.MxV33, dynamics.R1, GoMath.real, Real.cos_neg, Real.sin_neg]
    simp [Matrix.vecHead, Matrix.vecTail]
    linear_combination (v 1) * hsc
  · simp only [dynamics.MxV33, dynamics.R1, GoMath.real, Real.cos_neg, Real.sin_neg]
    simp [Matrix.vecHead, Matrix.vecTail]
    linear_combination (v 2) * hsc

/-- Over the reals, the rotation `R1` by the opposite of an angle followed by
the rotation by the angle is the identity. -/
theorem R1_R1_neg (θ : ℝ) (v : Fin 3 → ℝ) :
    dynamics.MxV33 (dynamics.R1 GoMath.real θ)
      (dynamics.MxV33 (dynamics.R1 GoMath.real (-θ)) v) = v := by
  have h := R1_neg_R1 (-θ) v
  rwa [neg_neg] at h

/-- The heliocentric branch of `ToXCentric`. -/
theorem ToXCentric_to_helio {F : Type} [LinearOrderedField F] (E : dynamics.Env F)
    (o : dynamics.Orbit F) (b : CelestialObject F) (dt : Time)
    (h1 : ¬ o.Origin = b) (h2 : b.SOI = -1) :
    o.ToXCentric E b dt = .ok
      { R := fun i => dynamics.MxV33 (dynamics.R1 E.math (E.Deg2rad o.Origin.tilt)) o.R i
                + (E.HelioOrbit o.Origin dt).1 i,
        V := fun i => dynamics.MxV33 (dynamics.R1 E.math (E.Deg2rad o.Origin.tilt)) o.V i
                + (E.HelioOrbit o.Origin dt).2 i,
        Origin := b } := by
  unfold dynamics.Orbit.ToXCentric
  rw [if_neg h1, if_pos h2]

/-- The planet-centric branch of `ToXCentric`. -/
theorem ToXCentric_to_planet {F : Type} [LinearOrderedField F] (E : dynamics.Env F)
    (o : dynamics.Orbit F) (b : CelestialObject F) (dt : Time)
    (h1 : ¬ o.Origin = b) (h2 : ¬ b.SOI = -1) :
    o.ToXCentric E b dt = .ok
      { R := dynamics.MxV33 (dynamics.R1 E.math (-E.Deg2rad b.tilt))
                (fun i => o.R i - (E.HelioOrbit b dt).1 i),
        V := dynamics.MxV33 (dynamics.R1 E.math (-E.Deg2rad b.tilt))
                (fun i => o.V i - (E.HelioOrbit b dt).2 i),
        Origin := b } := by
  unfold dynamics.Orbit.ToXCentric
  rw [if_neg h1, if_neg h2]

/-- C24: over the reals, for two distinct bodies `A` and `B` of which exactly
one is the heliocentric body (sphere of influence `-1`), a state centred on
`A` and a time `dt`, `ToXCentric(B, dt)` followed by `ToXCentric(A, dt)` returns
the original position and velocity and the origin `A`. -/
theorem ToXCentric_there_and_back (E : dynamics.Env ℝ) (hE : E.math = GoMath.real)
    (o : dynamics.Orbit ℝ) (A B : CelestialObject ℝ) (dt : Time)
    (hA : o.Origin = A) (hAB : A ≠ B)
    (hone : (A.SOI = -1 ∧ B.SOI ≠ -1) ∨ (A.SOI ≠ -1 ∧ B.SOI = -1)) :
    ∃ o₁ o₂, o.ToXCentric E B dt = .ok o₁ ∧ o₁.ToXCentric E A dt = .ok o₂ ∧
      o₂.R = o.R ∧ o₂.V = o.V ∧ o₂.Origin = A := by
  have hBA : ¬ B = A := fun h => hAB h.symm
  have hoB : ¬ o.Origin = B := by rw [hA]; exact hAB
  rcases hone with ⟨hAs, hBs⟩ | ⟨hAs, hBs⟩
  · refine ⟨_, _, ToXCentric_to_planet E o B dt hoB hBs,
      ToXCentric_to_helio E _ A dt hBA hAs, ?_, ?_, rfl⟩
    · simp only [hE]
      have h := R1_R1_neg (E.Deg2rad B.tilt) (fun i => o.R i - (E.HelioOrbit B dt).1 i)
      funext i
      have hi := congrFun h i
      simp only [hi]
      ring
    · simp only [hE]
      have h := R1_R1_neg (E.Deg2rad B.tilt) (fun i => o.V i - (E.HelioOrbit B dt).2 i)
      funext i
      have hi := congrFun h i
      simp only [hi]
      ring
  · refine ⟨_, _, ToXCentric_to_helio E o B dt hoB hBs,
      ToXCentric_to_planet E _ A dt hBA hAs, ?_, ?_, rfl⟩
    · simp only [hE, hA]
      have e : (fun i => dynamics.MxV33 (dynamics.R1 GoMath.real (E.Deg2rad A.tilt)) o.R i
          + (E.HelioOrbit A dt).1 i - (E.HelioOrbit A dt).1 i)
          = dynamics.MxV33 (dynamics.R1 GoMath.real (E.Deg2rad A.tilt)) o.R := by
        funext i; ring
      rw [e, R1_neg_R1]
    · simp only [hE, hA]
      have e : (fun i => dynamics.MxV33 (dynamics.R1 GoMath.real (E.Deg2rad A.tilt)) o.V i
          + (E.HelioOrbit A dt).2 i - (E.HelioOrbit A dt).2 i)
          = dynamics.MxV33 (dynamics.R1 GoMath.real (E.Deg2rad A.tilt)) o.V := by
        funext i; ring
      rw [e, R1_neg_R1]
/-- Witness of C24: from the sample body to the Sun and back. -/
theorem ToXCentric_there_and_back_witness :
    ∃ o₁ o₂, sampleOrbit.ToXCentric sampleAstroEnv sampleSun 0 = .ok o₁ ∧
      o₁.ToXCentric sampleAstroEnv sampleBody 0 = .ok o₂ ∧
      o₂.R = sampleOrbit.R ∧ o₂.V = sampleOrbit.V ∧ o₂.Origin = sampleBody :=
  ToXCentric_there_and_back sampleAstroEnv rfl sampleOrbit sampleBody sampleSun 0 rfl
    (by simp [sampleBody, sampleSun])
    (Or.inr ⟨by norm_num [sampleBody], by norm_num [sampleSun]⟩)

/-- Counterexample to C24 as stated: from the sample body to a second planet
and back, the position is not the original one. -/
theorem ToXCentric_planet_to_planet_and_back :
    sampleBody ≠ sampleMars ∧
    ∃ o₁ o₂, sampleOrbit.ToXCentric sampleAstroEnv sampleMars 0 = .ok o₁ ∧
      o₁.ToXCentric sampleAstroEnv sampleBody 0 = .ok o₂ ∧
      o₂.R 0 = 6700 ∧ sampleOrbit.R 0 = 7000 ∧ o₂.R ≠ sampleOrbit.R := by
  have hne : sampleBody ≠ sampleMars := by simp [sampleBody, sampleMars]
  have h1 : ¬ sampleOrbit.Origin = sampleMars := hne
  have h2 : ¬ sampleMars.SOI = -1 := by norm_num [sampleMars]
  have h3 : ¬ sampleBody.SOI = -1 := by norm_num [sampleBody]
  have h4 : ¬ sampleMars = sampleBody := fun h => hne h.symm
  refine ⟨hne, _, _, ToXCentric_to_planet sampleAstroEnv sampleOrbit sampleMars 0 h1 h2,
    ToXCentric_to_planet sampleAstroEnv _ sampleBody 0 h4 h3, ?_, rfl, ?_⟩
  · simp [dynamics.MxV33, dynamics.R1, sampleAstroEnv, sampleOrbit, sampleBody, sampleMars,
      Matrix.vecHead, Matrix.vecTail]
    norm_num
  · intro h
    have h0 := congrFun h 0
    simp [dynamics.MxV33, dynamics.R1, sampleAstroEnv, sampleOrbit, sampleBody, sampleMars,
      Matrix.vecHead, Matrix.vecTail] at h0
    norm_num at h0

/-! ## Theorems: `float64` operations on numbers -/

section
variable {F : Type} [LinearOrderedField F]

/-- The sum of two numbers is exact. -/
@[simp] theorem Float64.num_add (x y : F) :
    (Float64.num x + Float64.num y : Float64 F) = Float64.num (x + y) := rfl

/-- The product of two numbers is exact. -/
@[simp] theorem Float64.num_mul (x y : F) :
    (Float64.num x * Float64.num y : Float64 F) = Float64.num (x * y) := rfl

/-- The opposite of a number is exact. -/
@[simp] theorem Float64.neg_num (x : F) :
    (-(Float64.num x) : Float64 F) = Float64.num (-x) := rfl

/-- The difference of two numbers is exact. -/
@[simp] theorem Float64.num_sub (x y : F) :
    (Float64.num x - Float64.num y : Float64 F) = Float64.num (x - y) := by
  show Float64.num (x + -y) = _
  rw [sub_eq_add_neg]

/-- The quotient of two numbers is exact when the divisor is not zero. -/
theorem Float64.num_div (x y : F) (h : y ≠ 0) :
    (Float64.num x / Float64.num y : Float64 F) = Float64.num (x / y) := by
  show (if y = 0 then _ else _) = _
  rw [if_neg h]

/-- Zero over zero is NaN. -/
theorem Float64.zero_div_zero :
    (Float64.num 0 / Float64.num 0 : Float64 F) = Float64.NaN := by
  show (if (0 : F) = 0 then (if (0 : F) = 0 then _ else _) else _) = _
  rw [if_pos rfl, if_pos rfl]

/-- A positive number over zero is `+Inf`. -/
theorem Float64.pos_div_zero (x : F) (h : 0 < x) :
    (Float64.num x / Float64.num 0 : Float64 F) = Float64.posInf := by
  show (if (0 : F) = 0 then (if x = 0 then _ else Float64.inf (decide (x < 0))) else _) = _
  rw [if_pos rfl, if_neg h.ne']
  simp [Float64.inf, not_lt.mpr h.le]

/-- Go `math.Sqrt` of a number that is not negative is its square root. -/
theorem Float64.Sqrt_num (M : GoMath F) (x : F) (h : 0 ≤ x) :
    Float64.Sqrt M (Float64.num x) = Float64.num (M.Sqrt x) := by
  show (if x < 0 then _ else _) = _
  rw [if_neg (not_lt.mpr h)]

/-- The product of `+Inf` and one is `+Inf`. -/
theorem Float64.posInf_mul_one : (Float64.posInf * Float64.num 1 : Float64 F) = Float64.posInf := by
  show (if (1 : F) = 0 then _ else Float64.inf (decide ((1 : F) < 0))) = _
  rw [if_neg one_ne_zero]
  simp [Float64.inf]

/-- Go `math.Pow` of a number is its power. -/
@[simp] theorem Float64.Pow_num (x : F) (n : Nat) :
    Float64.Pow (Float64.num x) n = Float64.num (x ^ n) := rfl

end

/-! ## Theorems: the element derivative -/

/-- The component 5 of a vector of length 7. -/
theorem vec7_five {α : Type} (a b c d e f g : α) : ![a, b, c, d, e, f, g] 5 = f := rfl

/-- The component 6 of a vector of length 7. -/
theorem vec7_six {α : Type} (a b c d e f g : α) : ![a, b, c, d, e, f, g] 6 = g := rfl

/-- A vector of numbers passes the final check of `Mission.Func`. -/
theorem checkNaN_num {F : Type} (x : Fin 7 → F) :
    Mission.checkNaN (fun i => Float64.num (x i)) = .ok (fun i => Float64.num (x i)) := by
  unfold Mission.checkNaN
  have h : (List.finRange 7).any (fun i => math.IsNaN (Float64.num (x i))) = false := by
    simp [List.any_eq_false, math.IsNaN]
  rw [h]
  rfl

/-- In `GaussianVOP` mode, when the orbit of the state is built and no
component of the derivative is NaN, `Mission.Func` returns the derivative and
the mission with the vehicle `Accelerate` leaves. -/
theorem Func_returns {F : Type} [LinearOrderedField F] [FloorRing F] (E : Env F)
    (a : Mission F) (t : F) (f : Fin 7 → F) (tmp : Orbit F)
    (hp : a.Propagator = GaussianVOP)
    (htmp : E.NewOrbitFromOE (f 0) (f 1) (f 2 / E.deg2rad) (f 3 / E.deg2rad)
      (f 4 / E.deg2rad) (f 5 / E.deg2rad) a.Orbit.Origin = .ok tmp)
    (hn : ∀ i, a.rates E tmp i ≠ Float64.NaN) :
    a.Func E t f = .ok
      (a.rates E tmp, { a with Vehicle := (E.Accelerate a.Vehicle a.CurrentDT a.Orbit).2 }) := by
  unfold Mission.Func
  simp only [hp, if_true, htmp, ((checkNaN_iff (a.rates E tmp)).2.1).mpr hn]

/-- In `GaussianVOP` mode, when the orbit of the state is built and a component
of the derivative is NaN, `Mission.Func` panics. -/
theorem Func_panics {F : Type} [LinearOrderedField F] [FloorRing F] (E : Env F)
    (a : Mission F) (t : F) (f : Fin 7 → F) (tmp : Orbit F)
    (hp : a.Propagator = GaussianVOP)
    (htmp : E.NewOrbitFromOE (f 0) (f 1) (f 2 / E.deg2rad) (f 3 / E.deg2rad)
      (f 4 / E.deg2rad) (f 5 / E.deg2rad) a.Orbit.Origin = .ok tmp)
    (hn : ∃ i, a.rates E tmp i = Float64.NaN) :
    a.Func E t f = .error "fDot[i]=NaN" := by
  unfold Mission.Func
  simp only [hp, if_true, htmp, ((checkNaN_iff (a.rates E tmp)).1).mpr hn]

/-- A call to `Mission.Func` that returns has built the orbit of the state and
returns the derivative it has computed, which has no NaN component. -/
theorem Func_built_orbit {F : Type} [LinearOrderedField F] [FloorRing F] (E : Env F)
    (a : Mission F) (t : F) (f : Fin 7 → F) (r : (Fin 7 → Float64 F) × Mission F)
    (h : a.Func E t f = .ok r) :
    a.Propagator = GaussianVOP ∧
    ∃ tmp, E.NewOrbitFromOE (f 0) (f 1) (f 2 / E.deg2rad) (f 3 / E.deg2rad)
      (f 4 / E.deg2rad) (f 5 / E.deg2rad) a.Orbit.Origin = .ok tmp ∧
      r.1 = a.rates E tmp ∧ ∀ i, a.rates E tmp i ≠ Float64.NaN := by
  by_cases hp : a.Propagator = GaussianVOP
  · refine ⟨hp, ?_⟩
    cases htmp : E.NewOrbitFromOE (f 0) (f 1) (f 2 / E.deg2rad) (f 3 / E.deg2rad)
        (f 4 / E.deg2rad) (f 5 / E.deg2rad) a.Orbit.Origin with
    | error msg =>
      unfold Mission.Func at h
      simp [hp, htmp] at h
    | ok tmp =>
      refine ⟨tmp, rfl, ?_⟩
      by_cases hn : ∃ i, a.rates E tmp i = Float64.NaN
      · rw [Func_panics E a t f tmp hp htmp hn] at h
        cases h
      · have hn' : ∀ i, a.rates E tmp i ≠ Float64.NaN := fun i hi => hn ⟨i, hi⟩
        rw [Func_returns E a t f tmp hp htmp hn'] at h
        cases h
        exact ⟨rfl, hn'⟩
  · unfold Mission.Func at h
    simp [hp] at h

/-- C19: in `GaussianVOP` mode, when the orbit of the state is built,
`Mission.Func` panics at its final check exactly when one of the seven
components of the derivative it has computed is NaN, and returns that
derivative exactly when none is; a component that is an infinity does not make
it panic. -/
theorem Func_panics_iff_NaN {F : Type} [LinearOrderedField F] [FloorRing F] (E : Env F)
    (a : Mission F) (t : F) (f : Fin 7 → F) (tmp : Orbit F)
    (hp : a.Propagator = GaussianVOP)
    (htmp : E.NewOrbitFromOE (f 0) (f 1) (f 2 / E.deg2rad) (f 3 / E.deg2rad)
      (f 4 / E.deg2rad) (f 5 / E.deg2rad) a.Orbit.Origin = .ok tmp) :
    ((∃ i, a.rates E tmp i = Float64.NaN) ↔ a.Func E t f = .error "fDot[i]=NaN") ∧
    ((∀ i, a.rates E tmp i ≠ Float64.NaN) ↔
      a.Func E t f = .ok (a.rates E tmp,
        { a with Vehicle := (E.Accelerate a.Vehicle a.CurrentDT a.Orbit).2 })) ∧
    ((∀ i, a.rates E tmp i ≠ Float64.NaN) → (∃ i, (a.rates E tmp i).isFinite = false) →
      ∃ r, a.Func E t f = .ok r ∧ ∃ i, (r.1 i).isFinite = false) := by
  refine ⟨⟨Func_panics E a t f tmp hp htmp, ?_⟩, ⟨Func_returns E a t f tmp hp htmp, ?_⟩, ?_⟩
  · intro h
    by_contra hn
    have hn' : ∀ i, a.rates E tmp i ≠ Float64.NaN := fun i hi => hn ⟨i, hi⟩
    rw [Func_returns E a t f tmp hp htmp hn'] at h
    cases h
  · intro h i hi
    rw [Func_panics E a t f tmp hp htmp ⟨i, hi⟩] at h
    cases h
  · intro hn hinf
    exact ⟨_, Func_returns E a t f tmp hp htmp hn, hinf⟩

/-- The J2 block rewrites the components 3 and 4 only. -/
theorem addJ2_other {F : Type} [LinearOrderedField F] [FloorRing F] (E : Env F)
    (tmp : Orbit F) (fDot : Fin 7 → Float64 F) (i : Fin 7) (h3 : i ≠ 3) (h4 : i ≠ 4) :
    Mission.addJ2 E tmp fDot i = fDot i := by
  simp [Mission.addJ2, Function.update, h3, h4]

/-- C29: in a call to `Mission.Func` that returns, with `tmp` the orbit built
from the state, the J2 block is applied exactly when J2 is enabled for the
mission and the oblateness coefficient of the origin is positive; when applied
it leaves every component other than 3 and 4 as the Gauss rates give it, and
when not applied the derivative is the Gauss rates in all seven components. -/
theorem Func_J2_block {F : Type} [LinearOrderedField F] [FloorRing F] (E : Env F)
    (a : Mission F) (t : F) (f : Fin 7 → F) (r : (Fin 7 → Float64 F) × Mission F)
    (h : a.Func E t f = .ok r) :
    ∃ tmp, E.NewOrbitFromOE (f 0) (f 1) (f 2 / E.deg2rad) (f 3 / E.deg2rad)
        (f 4 / E.deg2rad) (f 5 / E.deg2rad) a.Orbit.Origin = .ok tmp ∧
      ((a.includeJ2 = true ∧ tmp.Origin.J2 > 0) →
        r.1 = Mission.addJ2 E tmp (Mission.gaussRates E tmp
            (E.Accelerate a.Vehicle a.CurrentDT a.Orbit).1.1
            (E.Accelerate a.Vehicle a.CurrentDT a.Orbit).1.2) ∧
        ∀ i, i ≠ 3 → i ≠ 4 → r.1 i = Mission.gaussRates E tmp
            (E.Accelerate a.Vehicle a.CurrentDT a.Orbit).1.1
            (E.Accelerate a.Vehicle a.CurrentDT a.Orbit).1.2 i) ∧
      (¬ (a.includeJ2 = true ∧ tmp.Origin.J2 > 0) →
        r.1 = Mission.gaussRates E tmp
            (E.Accelerate a.Vehicle a.CurrentDT a.Orbit).1.1
            (E.Accelerate a.Vehicle a.CurrentDT a.Orbit).1.2) := by
  obtain ⟨_, tmp, htmp, hr, _⟩ := Func_built_orbit E a t f r h
  rw [hr]
  unfold Mission.rates
  refine ⟨tmp, htmp, ?_, ?_⟩
  · rintro ⟨h1, h2⟩
    have hc : (a.includeJ2 && decide (tmp.Origin.J2 > 0)) = true := by simp [h1, h2]
    rw [if_pos hc]
    exact ⟨rfl, fun i h3 h4 => addJ2_other E tmp _ i h3 h4⟩
  · intro hn
    have : (a.includeJ2 && decide (tmp.Origin.J2 > 0)) = false := by
      cases hj : a.includeJ2
      · simp
      · have : ¬ tmp.Origin.J2 > 0 := fun h2 => hn ⟨hj, h2⟩
        simp [this]
    rw [if_neg (by simp [this])]

/-- The Gauss rates without thrust and without fuel used, when the
eccentricity, `sin i`, the angular momentum and the radial distance are not
zero: zero for every component but the true anomaly, whose rate is `h / r²`. -/
theorem gaussRates_coast {F : Type} [LinearOrderedField F] [FloorRing F] (E : Env F)
    (tmp : Orbit F) (he : tmp.e ≠ 0) (hs : E.math.Sin tmp.i ≠ 0) (hh : E.HNorm tmp ≠ 0)
    (hr : E.RNorm tmp ≠ 0) :
    Mission.gaussRates E tmp ![0, 0, 0] 0
      = ![.num 0, .num 0, .num 0, .num 0, .num 0,
          .num (E.HNorm tmp / (E.RNorm tmp * E.RNorm tmp)), .num 0] := by
  funext i
  fin_cases i <;>
    simp [Mission.gaussRates, Float64.num_div, he, hs, hh, hr]

/-- C30: in `GaussianVOP` mode with J2 disabled, for a state whose orbit is
built with non-zero eccentricity, non-zero `sin i`, non-zero angular momentum
and non-zero radial distance, when `Accelerate` returns zero thrust and zero
fuel used, `Mission.Func` returns zero rates for `a, e, i, Ω, ω` and the fuel,
and the rate `h / r²` for the true anomaly. -/
theorem Func_keplerian {F : Type} [LinearOrderedField F] [FloorRing F] (E : Env F)
    (a : Mission F) (t : F) (f : Fin 7 → F) (tmp : Orbit F)
    (hp : a.Propagator = GaussianVOP) (hJ : a.includeJ2 = false)
    (htmp : E.NewOrbitFromOE (f 0) (f 1) (f 2 / E.deg2rad) (f 3 / E.deg2rad)
      (f 4 / E.deg2rad) (f 5 / E.deg2rad) a.Orbit.Origin = .ok tmp)
    (he : tmp.e ≠ 0) (hs : E.math.Sin tmp.i ≠ 0) (hh : E.HNorm tmp ≠ 0)
    (hr : E.RNorm tmp ≠ 0)
    (hacc : (E.Accelerate a.Vehicle a.CurrentDT a.Orbit).1 = (![0, 0, 0], 0)) :
    ∃ a', a.Func E t f
      = .ok (![.num 0, .num 0, .num 0, .num 0, .num 0,
               .num (E.HNorm tmp / (E.RNorm tmp * E.RNorm tmp)), .num 0], a') := by
  have hrates : a.rates E tmp = ![.num 0, .num 0, .num 0, .num 0, .num 0,
      .num (E.HNorm tmp / (E.RNorm tmp * E.RNorm tmp)), .num 0] := by
    unfold Mission.rates
    simp only [hJ, Bool.false_and, Bool.false_eq_true, if_false, hacc]
    exact gaussRates_coast E tmp he hs hh hr
  refine ⟨{ a with Vehicle := (E.Accelerate a.Vehicle a.CurrentDT a.Orbit).2 }, ?_⟩
  rw [Func_returns E a t f tmp hp htmp, hrates]
  intro i
  rw [hrates]
  fin_cases i <;> exact fun h => Float64.noConfusion h

/-- The orbit the sample environment builds from a state vector: the elements
of the vector, around the given origin. -/
theorem sampleEnv_orbit (f : Fin 7 → ℝ) (c : CelestialObject ℝ) :
    sampleEnv.NewOrbitFromOE (f 0) (f 1) (f 2 / sampleEnv.deg2rad)
      (f 3 / sampleEnv.deg2rad) (f 4 / sampleEnv.deg2rad) (f 5 / sampleEnv.deg2rad) c
    = .ok { a := f 0, e := f 1, i := f 2, Ω := f 3, ω := f 4, ν := f 5, Origin := c } := by
  have hpi : Real.pi ≠ 0 := Real.pi_ne_zero
  have h1 : ∀ x : ℝ, x / (Real.pi / 180) * (Real.pi / 180) = x := by
    intro x; field_simp
  simp only [sampleEnv, h1]

/-- The Gauss rates under a unit thrust along the orbit normal, without fuel
used, at zero inclination (`sin i = 0`, `cos i = 1`), when the eccentricity,
the angular momentum and the radial distance are not zero and `r sin(ω + ν)`
is positive: the node rate is `+Inf`, the periapsis rate `-Inf`, and no
component is NaN. -/
theorem gaussRates_flat_normal_thrust {F : Type} [LinearOrderedField F] [FloorRing F]
    (E : Env F) (tmp : Orbit F) (he : tmp.e ≠ 0) (hs : E.math.Sin tmp.i = 0)
    (hc : E.math.Cos tmp.i = 1) (hh : E.HNorm tmp ≠ 0) (hr : E.RNorm tmp ≠ 0)
    (hx : 0 < E.RNorm tmp * E.math.Sin (tmp.ω + tmp.ν)) :
    Mission.gaussRates E tmp ![0, 0, 1] 0 3 = Float64.posInf ∧
    Mission.gaussRates E tmp ![0, 0, 1] 0 4 = Float64.negInf ∧
    ∀ i, Mission.gaussRates E tmp ![0, 0, 1] 0 i ≠ Float64.NaN := by
  have h3 : Mission.gaussRates E tmp ![0, 0, 1] 0 3 = Float64.posInf := by
    simp [Mission.gaussRates, hs]
    exact Float64.pos_div_zero _ hx
  have h4 : Mission.gaussRates E tmp ![0, 0, 1] 0 4 = Float64.negInf := by
    have h3' := h3
    simp [Mission.gaussRates, hs] at h3'
    simp [Mission.gaussRates, hs, hc, h3', Float64.num_div, he, hh, Float64.posInf_mul_one]
    rfl
  refine ⟨h3, h4, ?_⟩
  intro i
  fin_cases i
  · simp [Mission.gaussRates, Float64.num_div, hh, hr]
  · simp [Mission.gaussRates, Float64.num_div, hh, hr]
  · simp [Mission.gaussRates, Float64.num_div, hh, hr]
  · show Mission.gaussRates E tmp ![0, 0, 1] 0 3 ≠ Float64.NaN
    rw [h3]
    exact fun h => Float64.noConfusion h
  · show Mission.gaussRates E tmp ![0, 0, 1] 0 4 ≠ Float64.NaN
    rw [h4]
    exact fun h => Float64.noConfusion h
  · simp [Mission.gaussRates, Float64.num_div, hh, hr, he, vec7_five]
  · simp [Mission.gaussRates, Float64.num_div, hh, hr, vec7_six]

/-- The component 3 that the J2 block leaves, from a number `x`, when the
divisors `a³` and `p` are not zero and the square root is taken of a number
that is not negative. -/
theorem addJ2_node_rate {F : Type} [LinearOrderedField F] [FloorRing F] (E : Env F)
    (tmp : Orbit F) (fDot : Fin 7 → Float64 F) (x : F) (hx : fDot 3 = .num x)
    (ha : tmp.a ≠ 0) (hμ : 0 ≤ tmp.Origin.μ / tmp.a ^ 3) (hp : E.SemiParameter tmp ≠ 0) :
    Mission.addJ2 E tmp fDot 3
      = .num (x + -(3 * E.math.Sqrt (tmp.Origin.μ / tmp.a ^ 3) * tmp.Origin.J2 / 2)
          * (tmp.Origin.Radius / E.SemiParameter tmp) ^ 2 * E.math.Cos tmp.i) := by
  have h34 : (3 : Fin 7) ≠ 4 := by decide
  simp [Mission.addJ2, Function.update, h34, hx, Float64.num_div, Float64.Sqrt_num, ha, hμ, hp]

/-- The sample environment at the elements `a = 7000`, `e = 0.1`, `ν = 1`
around a body of positive gravitational parameter: the angular momentum and
the radial distance are positive. -/
theorem sampleEnv_regular (c : CelestialObject ℝ) (hμ : 0 < c.μ) (i Ω ω : ℝ) :
    0 < sampleEnv.HNorm { a := 7000, e := 0.1, i := i, Ω := Ω, ω := ω, ν := 1, Origin := c } ∧
    0 < sampleEnv.RNorm { a := 7000, e := 0.1, i := i, Ω := Ω, ω := ω, ν := 1, Origin := c } := by
  constructor
  · show 0 < Real.sqrt (c.μ * (7000 * (1 - 0.1 ^ 2)))
    exact Real.sqrt_pos.mpr (by positivity)
  · show 0 < 7000 * (1 - (0.1 : ℝ) ^ 2) / (1 + 0.1 * Real.cos 1)
    have h1 := Real.neg_one_le_cos 1
    have : 0 < 1 + 0.1 * Real.cos 1 := by linarith
    have : (0 : ℝ) < 7000 * (1 - 0.1 ^ 2) := by norm_num
    positivity

/-- The sine of half a radian is positive. -/
theorem sin_half_pos : 0 < Real.sin 0.5 :=
  Real.sin_pos_of_pos_of_lt_pi (by norm_num) (by linarith [Real.pi_gt_three])

/-- Counterexample to C19 as stated: at zero inclination and under a thrust
along the orbit normal, the node rate `Mission.Func` computes is `+Inf`, which
is not finite, and the call returns. -/
theorem Func_returns_infinite_rate :
    ∃ r, (sampleMission 0).Func thrustEnv 0 flatState = .ok r ∧
      r.1 3 = Float64.posInf ∧ (r.1 3).isFinite = false := by
  have horb : thrustEnv.NewOrbitFromOE (flatState 0) (flatState 1)
      (flatState 2 / thrustEnv.deg2rad) (flatState 3 / thrustEnv.deg2rad)
      (flatState 4 / thrustEnv.deg2rad) (flatState 5 / thrustEnv.deg2rad)
      (sampleMission 0).Orbit.Origin
      = .ok { a := 7000, e := 0.1, i := 0, Ω := 1, ω := 1, ν := 1, Origin := sampleBody } :=
    sampleEnv_orbit flatState sampleBody
  obtain ⟨hh, hr⟩ := sampleEnv_regular sampleBody (by norm_num [sampleBody]) 0 1 1
  have hsin2 : 0 < Real.sin (1 + 1) :=
    Real.sin_pos_of_pos_of_lt_pi (by norm_num) (by linarith [Real.pi_gt_three])
  obtain ⟨h3, _, hn⟩ := gaussRates_flat_normal_thrust thrustEnv
    { a := 7000, e := 0.1, i := 0, Ω := 1, ω := 1, ν := 1, Origin := sampleBody }
    (by norm_num) Real.sin_zero Real.cos_zero hh.ne' hr.ne' (mul_pos hr hsin2)
  have hrates : (sampleMission 0).rates thrustEnv
      { a := 7000, e := 0.1, i := 0, Ω := 1, ω := 1, ν := 1, Origin := sampleBody }
      = Mission.gaussRates thrustEnv
        { a := 7000, e := 0.1, i := 0, Ω := 1, ω := 1, ν := 1, Origin := sampleBody }
        ![0, 0, 1] 0 := rfl
  refine ⟨_, Func_returns thrustEnv (sampleMission 0) 0 flatState _ rfl horb ?_, ?_, ?_⟩
  · rw [hrates]
    exact hn
  · show (sampleMission 0).rates thrustEnv _ 3 = _
    rw [hrates, h3]
  · show ((sampleMission 0).rates thrustEnv _ 3).isFinite = false
    rw [hrates, h3]
    rfl

/-- Witness of C19: at zero eccentricity and without thrust the periapsis rate
is zero over zero, and `Mission.Func` panics at its final check. -/
theorem Func_panics_iff_NaN_witness :
    (sampleMission 0).Func sampleEnv 0 circularState = .error "fDot[i]=NaN" :=
  (Func_panics_iff_NaN sampleEnv (sampleMission 0) 0 circularState
    { a := 7000, e := 0, i := 0.5, Ω := 1, ω := 1, ν := 1, Origin := sampleBody } rfl
    (sampleEnv_orbit circularState sampleBody)).1.mp ⟨4, by
      show Mission.gaussRates sampleEnv _ ![0, 0, 0] 0 4 = Float64.NaN
      have hs : Real.sin 0.5 ≠ 0 := sin_half_pos.ne'
      have hh : Real.sqrt (398600 * (7000 * (1 - 0 ^ 2))) ≠ 0 :=
        (Real.sqrt_pos.mpr (by norm_num)).ne'
      simp [Mission.gaussRates, sampleEnv, sampleBody, GoMath.real, Float64.zero_div_zero]
      rfl⟩

/-- The call of `Mission.Func` on the mission with J2 enabled around the body
with a negative oblateness coefficient, at an inclination of half a radian
and an eccentricity of 0.1, returns the plain Gauss rates, which are zero but
for the true anomaly. -/
theorem j2Mission_Func :
    sampleEnv.NewOrbitFromOE (elementState 0) (elementState 1)
      (elementState 2 / sampleEnv.deg2rad) (elementState 3 / sampleEnv.deg2rad)
      (elementState 4 / sampleEnv.deg2rad) (elementState 5 / sampleEnv.deg2rad)
      j2Mission.Orbit.Origin = .ok elementOrbit ∧
    j2Mission.Func sampleEnv 0 elementState
      = .ok (Mission.gaussRates sampleEnv elementOrbit ![0, 0, 0] 0,
          { j2Mission with
            Vehicle := (sampleEnv.Accelerate j2Mission.Vehicle j2Mission.CurrentDT
                          j2Mission.Orbit).2 }) ∧
    Mission.gaussRates sampleEnv elementOrbit ![0, 0, 0] 0 3 = Float64.num 0 := by
  have horb : sampleEnv.NewOrbitFromOE (elementState 0) (elementState 1)
      (elementState 2 / sampleEnv.deg2rad) (elementState 3 / sampleEnv.deg2rad)
      (elementState 4 / sampleEnv.deg2rad) (elementState 5 / sampleEnv.deg2rad)
      j2Mission.Orbit.Origin = .ok elementOrbit :=
    sampleEnv_orbit elementState j2Mission.Orbit.Origin
  obtain ⟨hh, hr⟩ := sampleEnv_regular prolateBody (by norm_num [prolateBody]) 0.5 1 1
  have hcoast := gaussRates_coast sampleEnv elementOrbit
    (by norm_num [elementOrbit]) sin_half_pos.ne' hh.ne' hr.ne'
  have hJ : ¬ elementOrbit.Origin.J2 > 0 := by norm_num [elementOrbit, prolateBody]
  have hrates : j2Mission.rates sampleEnv elementOrbit
      = Mission.gaussRates sampleEnv elementOrbit ![0, 0, 0] 0 := by
    unfold Mission.rates
    have hc : ¬ ((j2Mission.includeJ2 && decide (elementOrbit.Origin.J2 > 0)) = true) := by
      simp [hJ]
    rw [if_neg hc]
    rfl
  refine ⟨horb, ?_, ?_⟩
  · rw [← hrates]
    refine Func_returns sampleEnv j2Mission 0 elementState elementOrbit rfl horb ?_
    intro i
    rw [hrates, hcoast]
    fin_cases i <;> exact fun h => Float64.noConfusion h
  · rw [hcoast]
    rfl

/-- Counterexample to C29 as stated: J2 is enabled and the oblateness
coefficient of the origin, `-0.001`, is not zero, yet `Mission.Func`, at an
inclination of half a radian and an eccentricity of 0.1, returns the plain
Gauss rates, which the J2 block would have changed in component 3. -/
theorem Func_skips_J2_for_negative_coefficient :
    j2Mission.includeJ2 = true ∧ elementOrbit.Origin.J2 ≠ 0 ∧
    sampleEnv.NewOrbitFromOE (elementState 0) (elementState 1)
      (elementState 2 / sampleEnv.deg2rad) (elementState 3 / sampleEnv.deg2rad)
      (elementState 4 / sampleEnv.deg2rad) (elementState 5 / sampleEnv.deg2rad)
      j2Mission.Orbit.Origin = .ok elementOrbit ∧
    (∃ a', j2Mission.Func sampleEnv 0 elementState
      = .ok (Mission.gaussRates sampleEnv elementOrbit ![0, 0, 0] 0, a')) ∧
    Mission.addJ2 sampleEnv elementOrbit (Mission.gaussRates sampleEnv elementOrbit ![0, 0, 0] 0) 3
      ≠ Mission.gaussRates sampleEnv elementOrbit ![0, 0, 0] 0 3 := by
  obtain ⟨horb, hf, h3⟩ := j2Mission_Func
  refine ⟨rfl, by norm_num [elementOrbit, prolateBody], horb, ⟨_, hf⟩, ?_⟩
  have hd : (0 : ℝ) ≤ elementOrbit.Origin.μ / elementOrbit.a ^ 3 := by
    show (0 : ℝ) ≤ 398600 / 7000 ^ 3
    norm_num
  have hp : sampleEnv.SemiParameter elementOrbit ≠ 0 := by
    show (7000 : ℝ) * (1 - 0.1 ^ 2) ≠ 0
    norm_num
  rw [addJ2_node_rate sampleEnv elementOrbit _ 0 h3 (by norm_num [elementOrbit]) hd hp, h3]
  intro h
  injection h with h
  have hS : 0 < sampleEnv.math.Sqrt (elementOrbit.Origin.μ / elementOrbit.a ^ 3) := by
    show 0 < Real.sqrt ((398600 : ℝ) / 7000 ^ 3)
    exact Real.sqrt_pos.mpr (by norm_num)
  have hR : 0 < elementOrbit.Origin.Radius / sampleEnv.SemiParameter elementOrbit := by
    show (0 : ℝ) < 6378 / (7000 * (1 - 0.1 ^ 2))
    norm_num
  have hC : 0 < sampleEnv.math.Cos elementOrbit.i :=
    Real.cos_pos_of_mem_Ioo
      ⟨by show -(Real.pi / 2) < (0.5 : ℝ); linarith [Real.pi_gt_three],
       by show (0.5 : ℝ) < Real.pi / 2; linarith [Real.pi_gt_three]⟩
  have hJ2 : elementOrbit.Origin.J2 = -0.001 := rfl
  rw [hJ2] at h
  have h1 : 0 < -(3 * sampleEnv.math.Sqrt (elementOrbit.Origin.μ / elementOrbit.a ^ 3)
      * (-0.001) / 2) := by linarith
  have h2 := mul_pos (mul_pos h1 (pow_pos hR 2)) hC
  linarith

/-- Witness of C29: the call on `j2Mission` with `elementState` returns, and
the J2 test fails there. -/
theorem Func_J2_block_witness :
    ∃ r tmp, j2Mission.Func sampleEnv 0 elementState = .ok r ∧
      sampleEnv.NewOrbitFromOE (elementState 0) (elementState 1)
        (elementState 2 / sampleEnv.deg2rad) (elementState 3 / sampleEnv.deg2rad)
        (elementState 4 / sampleEnv.deg2rad) (elementState 5 / sampleEnv.deg2rad)
        j2Mission.Orbit.Origin = .ok tmp ∧
      (¬ (j2Mission.includeJ2 = true ∧ tmp.Origin.J2 > 0) →
        r.1 = Mission.gaussRates sampleEnv tmp
          (sampleEnv.Accelerate j2Mission.Vehicle j2Mission.CurrentDT j2Mission.Orbit).1.1
          (sampleEnv.Accelerate j2Mission.Vehicle j2Mission.CurrentDT j2Mission.Orbit).1.2) := by
  have hf := j2Mission_Func.2.1
  obtain ⟨tmp, h1, _, h3⟩ := Func_J2_block sampleEnv j2Mission 0 elementState _ hf
  exact ⟨_, tmp, hf, h1, h3⟩

/-- Witness of C30: the sample mission, without J2 and without thrust, at an
inclination of half a radian. -/
theorem Func_keplerian_witness :
    ∃ a', (sampleMission 0).Func sampleEnv 0 elementState
      = .ok (![.num 0, .num 0, .num 0, .num 0, .num 0,
              .num (sampleEnv.HNorm { a := 7000, e := 0.1, i := 0.5, Ω := 1, ω := 1, ν := 1,
                                      Origin := sampleBody }
                / (sampleEnv.RNorm { a := 7000, e := 0.1, i := 0.5, Ω := 1, ω := 1, ν := 1,
                                     Origin := sampleBody }
                   * sampleEnv.RNorm { a := 7000, e := 0.1, i := 0.5, Ω := 1, ω := 1, ν := 1,
                                       Origin := sampleBody })), .num 0], a') :=
  Func_keplerian sampleEnv (sampleMission 0) 0 elementState
    { a := 7000, e := 0.1, i := 0.5, Ω := 1, ω := 1, ν := 1, Origin := sampleBody }
    rfl rfl (sampleEnv_orbit elementState sampleBody)
    (by norm_num) sin_half_pos.ne'
    (sampleEnv_regular sampleBody (by norm_num [sampleBody]) 0.5 1 1).1.ne'
    (sampleEnv_regular sampleBody (by norm_num [sampleBody]) 0.5 1 1).2.ne'
    rfl

/-! ## Theorems: collision and revival reports along a run -/

/-- The reports of two logs put end to end are the reports of the first
followed by those of the second. -/
theorem reports_append {F : Type} (l₁ l₂ : List (LogEntry F)) :
    reports (l₁ ++ l₂) = reports l₁ ++ reports l₂ := by
  induction l₁ with
  | nil => rfl
  | cons x rest ih =>
    cases x <;> simp [reports, ih]

/-- Two alternating sequences of reports, the second starting from the flag
the first ends with, make one alternating sequence. -/
theorem flagAfter_append (l₁ l₂ : List Bool) :
    ∀ c c₁ c₂, flagAfter c l₁ = some c₁ → flagAfter c₁ l₂ = some c₂ →
      flagAfter c (l₁ ++ l₂) = some c₂ := by
  induction l₁ with
  | nil =>
    intro c c₁ c₂ h1 h2
    simp only [flagAfter, Option.some.injEq] at h1
    subst h1
    simpa using h2
  | cons x rest ih =>
    intro c c₁ c₂ h1 h2
    simp only [flagAfter, List.cons_append] at h1 ⊢
    by_cases hx : x = !c
    · rw [if_pos hx] at h1 ⊢
      exact ih x c₁ c₂ h1 h2
    · rw [if_neg hx] at h1
      cases h1

/-- A sequence of reports that alternates from the flag `c` never repeats a
report and does not start with a report equal to `c`. -/
theorem flagAfter_chain (l : List Bool) :
    ∀ c c', flagAfter c l = some c' →
      List.Chain' (fun x y => x ≠ y) l ∧ l.head? ≠ some c := by
  induction l with
  | nil => intro c c' _; simp
  | cons x rest ih =>
    intro c c' h
    simp only [flagAfter] at h
    by_cases hx : x = !c
    · rw [if_pos hx] at h
      obtain ⟨hch, hhd⟩ := ih x c' h
      refine ⟨?_, ?_⟩
      · rw [List.chain'_cons']
        refine ⟨?_, hch⟩
        intro y hy
        intro hxy
        apply hhd
        rw [hy, hxy]
      · simp only [List.head?_cons, ne_eq, Option.some.injEq]
        rw [hx]
        cases c <;> simp
    · rw [if_neg hx] at h
      cases h

/-- The sanity checks append an alternating sequence of at most one report to
the log and leave the flag that sequence ends with. -/
theorem sanityChecks_reports {F : Type} [LinearOrderedField F] (E : Env F) (b : Mission F) :
    ∃ new, (b.sanityChecks E).Vehicle.logger = b.Vehicle.logger ++ new ∧
      flagAfter b.collided (reports new) = some (b.sanityChecks E).collided := by
  unfold Mission.sanityChecks
  split_ifs with h1 h2 h3
  · refine ⟨[.collided b.Orbit.Origin.Name b.CurrentDT], rfl, ?_⟩
    have hc : b.collided = false := by
      cases hb : b.collided
      · rfl
      · simp [hb] at h1
    simp [reports, flagAfter, hc]
  · refine ⟨[.revived b.Orbit.Origin.Name b.CurrentDT], rfl, ?_⟩
    have hc : b.collided = true := by
      cases hb : b.collided
      · simp [hb] at h2
      · rfl
    simp [reports, flagAfter, hc]
  · exact ⟨[], by simp, by simp [reports, flagAfter]⟩
  · exact ⟨[], by simp, by simp [reports, flagAfter]⟩

/-- Closures that add no collision or revival report to the log add none
along the whole queue. -/
theorem runFuncQ_reports {F : Type} [LinearOrderedField F] [FloorRing F] (E : Env F)
    (hcall : ∀ f st, ∃ new, (E.call f st).1.logger = st.1.logger ++ new ∧ reports new = [])
    (Q : List (Option (Callback F))) :
    ∀ st, ∃ new, (runFuncQ E Q st).1.logger = st.1.logger ++ new ∧ reports new = [] := by
  induction Q with
  | nil => intro st; exact ⟨[], by simp [runFuncQ], rfl⟩
  | cons x rest ih =>
    intro st
    cases x with
    | none => simpa [runFuncQ] using ih st
    | some f =>
      obtain ⟨n₁, h₁, r₁⟩ := hcall f st
      obtain ⟨n₂, h₂, r₂⟩ := ih (E.call f st)
      refine ⟨n₁ ++ n₂, ?_, ?_⟩
      · simp only [runFuncQ]
        rw [h₂, h₁, List.append_assoc]
      · rw [reports_append, r₁, r₂]
        rfl

/-- One `SetState` call that returns, with closures that add no collision or
revival report, appends to the log an alternating sequence of reports from
the flag on entry to the flag on return. -/
theorem SetState_reports {F : Type} [LinearOrderedField F] [FloorRing F] (E : Env F)
    (hcall : ∀ f st, ∃ new, (E.call f st).1.logger = st.1.logger ++ new ∧ reports new = [])
    (a : Mission F) (t : F) (s : Fin 7 → F) (m : Mission F)
    (h : Mission.SetState E a t s = .ok m) :
    ∃ new, m.Vehicle.logger = a.Vehicle.logger ++ new ∧
      flagAfter a.collided (reports new) = some m.collided := by
  obtain ⟨_, rfl⟩ := (Mission.SetState_ok_iff E a t s m).mp h
  obtain ⟨hc, _, hv, _⟩ := Mission.updated_fields E a s
  obtain ⟨new, hlog, hflag⟩ := sanityChecks_reports E (a.updated E s)
  rw [hv] at hlog
  rw [hc] at hflag
  rw [Mission.beforeQueue_collided]
  obtain ⟨nq, hq, rq⟩ := runFuncQ_reports E hcall (a.beforeQueue E s).Vehicle.FuncQ
    ((a.beforeQueue E s).Vehicle, (a.beforeQueue E s).Orbit)
  have hq2 : ((a.beforeQueue E s).runQueue E).Vehicle.logger
      = (a.beforeQueue E s).Vehicle.logger ++ nq := by
    simp only [Mission.runQueue]
    exact hq
  rw [hq2]
  simp only [Mission.beforeQueue, Mission.fuelCheck]
  split_ifs
  · refine ⟨new ++ [.fuel (wrapAngles E.math s 6)] ++ nq, ?_, ?_⟩
    · simp [Spacecraft.Log, hlog]
    · rw [reports_append, reports_append, rq]
      simpa [reports] using hflag
  · refine ⟨new ++ nq, by simp [hlog], ?_⟩
    rw [reports_append, rq]
    simpa using hflag

/-- A run of `SetState` calls that returns, with closures that add no
collision or revival report, appends to the log an alternating sequence of
reports from the flag at the start to the flag at the end. -/
theorem run_SetState_reports {F : Type} [LinearOrderedField F] [FloorRing F] (E : Env F)
    (hcall : ∀ f st, ∃ new, (E.call f st).1.logger = st.1.logger ++ new ∧ reports new = [])
    (calls : List (F × (Fin 7 → F))) :
    ∀ (a m : Mission F),
      Mission.run E a (calls.map (fun c => Call.SetState c.1 c.2)) = .ok m →
      ∃ new, m.Vehicle.logger = a.Vehicle.logger ++ new ∧
        flagAfter a.collided (reports new) = some m.collided := by
  induction calls with
  | nil =>
    intro a m h
    simp only [List.map_nil, Mission.run, Except.ok.injEq] at h
    subst h
    exact ⟨[], by simp, rfl⟩
  | cons c rest ih =>
    intro a m h
    simp only [List.map_cons, Mission.run] at h
    cases h1 : Mission.SetState E a c.1 c.2 with
    | error msg => rw [h1] at h; cases h
    | ok b =>
      rw [h1] at h
      obtain ⟨n₁, l₁, f₁⟩ := SetState_reports E hcall a c.1 c.2 b h1
      obtain ⟨n₂, l₂, f₂⟩ := ih b m h
      refine ⟨n₁ ++ n₂, ?_, ?_⟩
      · rw [l₂, l₁, List.append_assoc]
      · rw [reports_append]
        exact flagAfter_append _ _ _ _ _ f₁ f₂

/-- C28: across any sequence of `SetState` calls that return on a mission
made by `NewMission`, with queued closures that add no collision or revival
report of their own, the reports added to the log strictly alternate and the
first one, if any, is a collision report: no two equal reports follow each
other. -/
theorem SetState_reports_alternate {F : Type} [LinearOrderedField F] [FloorRing F]
    (E : Env F)
    (hcall : ∀ f st, ∃ new, (E.call f st).1.logger = st.1.logger ++ new ∧ reports new = [])
    (s : Spacecraft F) (o : Orbit F) (start endDT : Time) (includeJ2 useless : Bool)
    (calls : List (F × (Fin 7 → F))) (m : Mission F)
    (h : Mission.run E (NewMission s o start endDT includeJ2 useless)
      (calls.map (fun c => Call.SetState c.1 c.2)) = .ok m) :
    ∃ new, m.Vehicle.logger = s.logger ++ new ∧
      List.Chain' (fun x y => x ≠ y) (reports new) ∧
      (∀ x, (reports new).head? = some x → x = true) ∧
      flagAfter false (reports new) = some m.collided := by
  obtain ⟨new, hl, hf⟩ := run_SetState_reports E hcall calls _ m h
  have hf2 : flagAfter false (reports new) = some m.collided := hf
  obtain ⟨hch, hhd⟩ := flagAfter_chain _ _ _ hf2
  refine ⟨new, hl, hch, ?_, hf2⟩
  intro x hx
  cases x
  · exact absurd hx hhd
  · rfl

/-- The `SetState` blocks leave the propagator as it was. -/
theorem SetState_keeps_Propagator {F : Type} [LinearOrderedField F] [FloorRing F]
    (E : Env F) (a : Mission F) (s : Fin 7 → F) :
    ((a.beforeQueue E s).runQueue E).Propagator = a.Propagator := by
  have hu : (a.updated E s).Propagator = a.Propagator := by
    simp [Mission.updated, Mission.sendSnapshot_eq, Mission.storeElements]
  rw [← hu]
  simp only [Mission.runQueue, Mission.beforeQueue, Mission.fuelCheck, Mission.sanityChecks]
  split_ifs <;> rfl

/-- Two `SetState` calls on a new mission around the sample body both return. -/
theorem sample_two_calls (s₁ s₂ : Fin 7 → ℝ) :
    Mission.run sampleEnv (NewMission sampleVehicle sampleElements 0 0 false true)
      ([((0 : ℝ), s₁), (0, s₂)].map (fun c => Call.SetState c.1 c.2))
      = .ok (((((NewMission sampleVehicle sampleElements 0 0 false true).beforeQueue sampleEnv
          s₁).runQueue sampleEnv).beforeQueue sampleEnv s₂).runQueue sampleEnv) := by
  have h₁ := (Mission.SetState_ok_iff sampleEnv
    (NewMission sampleVehicle sampleElements 0 0 false true) 0 s₁ _).mpr ⟨rfl, rfl⟩
  have h₂ := (Mission.SetState_ok_iff sampleEnv
    (((NewMission sampleVehicle sampleElements 0 0 false true).beforeQueue sampleEnv
      s₁).runQueue sampleEnv) 0 s₂ _).mpr
    ⟨by rw [SetState_keeps_Propagator]; rfl, rfl⟩
  simp only [List.map, Mission.run, h₁, h₂]

/-- Witness of C28: two `SetState` calls on a new mission around the sample
body, the first at 1000 km from its centre and the second at 1000000 km. -/
theorem SetState_reports_alternate_witness :
    (∀ f st, ∃ new, (sampleEnv.call f st).1.logger = st.1.logger ++ new ∧
      reports new = []) ∧
    Mission.run sampleEnv (NewMission sampleVehicle sampleElements 0 0 false true)
      ([((0 : ℝ), (![1000, 0, 1, 1, 1, 1, 500] : Fin 7 → ℝ)), (0, farState)].map
        (fun c => Call.SetState c.1 c.2))
      = .ok (((((NewMission sampleVehicle sampleElements 0 0 false true).beforeQueue sampleEnv
          ![1000, 0, 1, 1, 1, 1, 500]).runQueue sampleEnv).beforeQueue sampleEnv
            farState).runQueue sampleEnv) ∧
    ∃ new, (((((NewMission sampleVehicle sampleElements 0 0 false true).beforeQueue sampleEnv
          ![1000, 0, 1, 1, 1, 1, 500]).runQueue sampleEnv).beforeQueue sampleEnv
            farState).runQueue sampleEnv).Vehicle.logger = sampleVehicle.logger ++ new ∧
      List.Chain' (fun x y => x ≠ y) (reports new) ∧
      (∀ x, (reports new).head? = some x → x = true) ∧
      flagAfter false (reports new)
        = some (((((NewMission sampleVehicle sampleElements 0 0 false true).beforeQueue
            sampleEnv ![1000, 0, 1, 1, 1, 1, 500]).runQueue sampleEnv).beforeQueue sampleEnv
              farState).runQueue sampleEnv).collided :=
  ⟨fun _ st => ⟨[], (List.append_nil st.1.logger).symm, rfl⟩, sample_two_calls _ _,
    SetState_reports_alternate sampleEnv
      (fun _ st => ⟨[], (List.append_nil st.1.logger).symm, rfl⟩)
      sampleVehicle sampleElements 0 0 false true
      [((0 : ℝ), (![1000, 0, 1, 1, 1, 1, 500] : Fin 7 → ℝ)), (0, farState)] _
      (sample_two_calls _ _)⟩

/-! ## Theorems: elements to state vector and back -/

/-- The rotation `R3` keeps the inner product. -/
theorem R3_dot (x : ℝ) (u v : Fin 3 → ℝ) :
    dynamics.dot (dynamics.MxV33 (dynamics.R3 GoMath.real x) u)
      (dynamics.MxV33 (dynamics.R3 GoMath.real x) v) = dynamics.dot u v := by
  have h := Real.cos_sq_add_sin_sq x
  simp [dynamics.dot, dynamics.MxV33, dynamics.R3, GoMath.real, Matrix.vecHead, Matrix.vecTail]
  linear_combination (u 0 * v 0 + u 1 * v 1) * h

/-- The rotation `R1` keeps the inner product. -/
theorem R1_dot (x : ℝ) (u v : Fin 3 → ℝ) :
    dynamics.dot (dynamics.MxV33 (dynamics.R1 GoMath.real x) u)
      (dynamics.MxV33 (dynamics.R1 GoMath.real x) v) = dynamics.dot u v := by
  have h := Real.cos_sq_add_sin_sq x
  simp [dynamics.dot, dynamics.MxV33, dynamics.R1, GoMath.real, Matrix.vecHead, Matrix.vecTail]
  linear_combination (u 1 * v 1 + u 2 * v 2) * h

/-- The rotation `R3` commutes with the cross product. -/
theorem R3_cross (x : ℝ) (u v : Fin 3 → ℝ) :
    dynamics.cross (dynamics.MxV33 (dynamics.R3 GoMath.real x) u)
      (dynamics.MxV33 (dynamics.R3 GoMath.real x) v)
    = dynamics.MxV33 (dynamics.R3 GoMath.real x) (dynamics.cross u v) := by
  have h := Real.cos_sq_add_sin_sq x
  funext j
  fin_cases j <;>
    simp [dynamics.cross, dynamics.MxV33, dynamics.R3, GoMath.real, Matrix.vecHead,
      Matrix.vecTail]
  · ring
  · ring
  · linear_combination (u 0 * v 1 - u 1 * v 0) * h

/-- The rotation `R1` commutes with the cross product. -/
theorem R1_cross (x : ℝ) (u v : Fin 3 → ℝ) :
    dynamics.cross (dynamics.MxV33 (dynamics.R1 GoMath.real x) u)
      (dynamics.MxV33 (dynamics.R1 GoMath.real x) v)
    = dynamics.MxV33 (dynamics.R1 GoMath.real x) (dynamics.cross u v) := by
  have h := Real.cos_sq_add_sin_sq x
  funext j
  fin_cases j <;>
    simp [dynamics.cross, dynamics.MxV33, dynamics.R1, GoMath.real, Matrix.vecHead,
      Matrix.vecTail]
  · linear_combination (u 1 * v 2 - u 2 * v 1) * h
  · ring
  · ring

/-- The rotation `PQW2ECI` keeps the inner product. -/
theorem PQW2ECI_dot (i ω Ω : ℝ) (u v : Fin 3 → ℝ) :
    dynamics.dot (dynamics.PQW2ECI GoMath.real i ω Ω u) (dynamics.PQW2ECI GoMath.real i ω Ω v)
      = dynamics.dot u v := by
  unfold dynamics.PQW2ECI
  rw [R3_dot, R1_dot, R3_dot]

/-- The rotation `PQW2ECI` commutes with the cross product. -/
theorem PQW2ECI_cross (i ω Ω : ℝ) (u v : Fin 3 → ℝ) :
    dynamics.cross (dynamics.PQW2ECI GoMath.real i ω Ω u)
      (dynamics.PQW2ECI GoMath.real i ω Ω v)
    = dynamics.PQW2ECI GoMath.real i ω Ω (dynamics.cross u v) := by
  unfold dynamics.PQW2ECI
  rw [R3_cross, R1_cross, R3_cross]

/-- The rotation `PQW2ECI` is linear. -/
theorem PQW2ECI_linear (i ω Ω α β μ : ℝ) (u v : Fin 3 → ℝ) :
    (fun j => (α * dynamics.PQW2ECI GoMath.real i ω Ω u j
      - β * dynamics.PQW2ECI GoMath.real i ω Ω v j) / μ)
    = dynamics.PQW2ECI GoMath.real i ω Ω (fun j => (α * u j - β * v j) / μ) := by
  funext j
  fin_cases j <;>
    simp [dynamics.PQW2ECI, dynamics.MxV33, dynamics.R1, dynamics.R3, Matrix.vecHead,
      Matrix.vecTail] <;> ring

/-- The images of the first and the third axis under `PQW2ECI`. -/
theorem PQW2ECI_axes (i ω Ω x z : ℝ) :
    dynamics.PQW2ECI GoMath.real i ω Ω ![x, 0, 0]
      = ![x * (Real.cos Ω * Real.cos ω - Real.sin Ω * Real.sin ω * Real.cos i),
          x * (Real.sin Ω * Real.cos ω + Real.cos Ω * Real.sin ω * Real.cos i),
          x * (Real.sin ω * Real.sin i)] ∧
    dynamics.PQW2ECI GoMath.real i ω Ω ![0, 0, z]
      = ![z * (Real.sin Ω * Real.sin i), -(z * (Real.cos Ω * Real.sin i)), z * Real.cos i] := by
  constructor <;> funext j <;> fin_cases j <;>
    simp [dynamics.PQW2ECI, dynamics.MxV33, dynamics.R1, dynamics.R3, GoMath.real,
      Matrix.vecHead, Matrix.vecTail] <;> ring

/-- The perifocal position and velocity: their inner products, their cross
product and the eccentricity vector they give. -/
theorem perifocal_facts (r s e cν sν : ℝ) (hcs : cν ^ 2 + sν ^ 2 = 1) (hr0 : r ≠ 0)
    (hs0 : s ≠ 0) (hD : 1 + e * cν ≠ 0) :
    dynamics.dot ![r * cν, r * sν, 0] ![r * cν, r * sν, 0] = r * r ∧
    dynamics.dot ![-s * sν, s * (e + cν), 0] ![-s * sν, s * (e + cν), 0]
      = s * s * (1 + e ^ 2 + 2 * e * cν) ∧
    dynamics.dot ![r * cν, r * sν, 0] ![-s * sν, s * (e + cν), 0] = r * s * e * sν ∧
    dynamics.cross ![r * cν, r * sν, 0] ![-s * sν, s * (e + cν), 0]
      = ![0, 0, s * (r * (1 + e * cν))] ∧
    (fun j => ((s * s * (1 + e ^ 2 + 2 * e * cν) - s * s * (r * (1 + e * cν)) / r)
        * (![r * cν, r * sν, 0] : Fin 3 → ℝ) j
        - r * s * e * sν * (![-s * sν, s * (e + cν), 0] : Fin 3 → ℝ) j)
          / (s * s * (r * (1 + e * cν))))
      = ![e, 0, 0] := by
  refine ⟨?_, ?_, ?_, ?_, ?_⟩
  · simp [dynamics.dot]
    linear_combination (r * r) * hcs
  · simp [dynamics.dot]
    linear_combination (s * s) * hcs
  · simp [dynamics.dot]
    ring
  · funext j
    fin_cases j <;> simp [dynamics.cross]
    linear_combination (r * s) * hcs
  · funext j
    fin_cases j <;> simp
    · field_simp
      linear_combination (s * s * r * r * e) * hcs
    · left
      field_simp
      ring

/-- The quadrant check gives back an angle of `[0, 2π)` from its cosine when
the check fires exactly for a negative sine. -/
theorem quadrant_check (x : ℝ) (hx0 : 0 ≤ x) (hx1 : x < 2 * Real.pi) (c : Prop) [Decidable c]
    (hc : c ↔ Real.sin x < 0) :
    (if c then 2 * Real.pi - Real.arccos (Real.cos x) else Real.arccos (Real.cos x)) = x := by
  by_cases hx : x ≤ Real.pi
  · have hs : ¬ Real.sin x < 0 := not_lt.mpr (Real.sin_nonneg_of_nonneg_of_le_pi hx0 hx)
    rw [if_neg (fun h => hs (hc.mp h)), Real.arccos_cos hx0 hx]
  · have hx2 : Real.pi < x := not_le.mp hx
    have hs : Real.sin x < 0 := by
      have := Real.sin_neg_of_neg_of_neg_pi_lt (x := x - 2 * Real.pi) (by linarith) (by linarith)
      rwa [Real.sin_sub_two_pi] at this
    have hcos : Real.cos x = Real.cos (2 * Real.pi - x) := (Real.cos_two_pi_sub x).symm
    rw [if_pos (hc.mpr hs), hcos, Real.arccos_cos (by linarith) (by linarith)]
    ring

/-- A product with a positive factor is negative exactly when the other factor
is. -/
theorem pos_mul_neg_iff (k x : ℝ) (hk : 0 < k) : k * x < 0 ↔ x < 0 := by
  constructor
  · intro h
    by_contra hx
    push_neg at hx
    have := mul_nonneg hk.le hx
    linarith
  · intro h
    exact mul_neg_of_pos_of_neg hk h

/-- The inner products and the norms of a state that is the rotation by
`PQW2ECI` of a perifocal position of radius `r` at the true anomaly `ν` and of
the perifocal velocity of speed factor `s`. -/
theorem perifocal_state (o : dynamics.Orbit ℝ) (r s e i ω Ω ν : ℝ)
    (hR : o.R = dynamics.PQW2ECI GoMath.real i ω Ω ![r * Real.cos ν, r * Real.sin ν, 0])
    (hV : o.V = dynamics.PQW2ECI GoMath.real i ω Ω
      ![-s * Real.sin ν, s * (e + Real.cos ν), 0])
    (hr : 0 < r) (hs : 0 < s) (he0 : 0 ≤ e) (he1 : e < 1) :
    dynamics.dot o.R o.V = r * s * e * Real.sin ν ∧
    dynamics.dot o.V o.V = s * s * (1 + e ^ 2 + 2 * e * Real.cos ν) ∧
    dynamics.norm GoMath.real o.R = r ∧
    math.Pow (dynamics.norm GoMath.real o.V) 2 = s * s * (1 + e ^ 2 + 2 * e * Real.cos ν) := by
  have hcν := Real.cos_sq_add_sin_sq ν
  have hcΩ := Real.cos_sq_add_sin_sq Ω
  have hD : 0 < 1 + e * Real.cos ν := by
    have h1 := Real.neg_one_le_cos ν
    nlinarith
  obtain ⟨pRR, pVV, pRV, pX, pE⟩ :=
    perifocal_facts r s e (Real.cos ν) (Real.sin ν) hcν hr.ne' hs.ne' hD.ne'
  have hz : 0 < s * (r * (1 + e * Real.cos ν)) := by positivity
  -- inner products and norms of the state
  have dRR : dynamics.dot o.R o.R = r * r := by rw [hR, PQW2ECI_dot, pRR]
  have dVV : dynamics.dot o.V o.V = s * s * (1 + e ^ 2 + 2 * e * Real.cos ν) := by
    rw [hV, PQW2ECI_dot, pVV]
  have dRV : dynamics.dot o.R o.V = r * s * e * Real.sin ν := by
    rw [hR, hV, PQW2ECI_dot, pRV]
  have nR : dynamics.norm GoMath.real o.R = r := by
    show Real.sqrt (dynamics.dot o.R o.R) = r
    rw [dRR, Real.sqrt_mul_self hr.le]
  have nV : math.Pow (dynamics.norm GoMath.real o.V) 2
      = s * s * (1 + e ^ 2 + 2 * e * Real.cos ν) := by
    show (Real.sqrt (dynamics.dot o.V o.V)) ^ 2 = _
    rw [Real.sq_sqrt, dVV]
    rw [dVV]
    have : 0 ≤ 1 + e ^ 2 + 2 * e * Real.cos ν := by nlinarith [Real.neg_one_le_cos ν]
    positivity
  exact ⟨dRV, dVV, nR, nV⟩

/-- The angular momentum and the node vector of such a state. -/
theorem perifocal_momentum (o : dynamics.Orbit ℝ) (r s e i ω Ω ν : ℝ)
    (hR : o.R = dynamics.PQW2ECI GoMath.real i ω Ω ![r * Real.cos ν, r * Real.sin ν, 0])
    (hV : o.V = dynamics.PQW2ECI GoMath.real i ω Ω
      ![-s * Real.sin ν, s * (e + Real.cos ν), 0])
    (hr : 0 < r) (hs : 0 < s) (he0 : 0 ≤ e) (he1 : e < 1)
    (hsi : 0 < Real.sin i) :
    dynamics.cross o.R o.V
      = ![s * (r * (1 + e * Real.cos ν)) * (Real.sin Ω * Real.sin i),
          -(s * (r * (1 + e * Real.cos ν)) * (Real.cos Ω * Real.sin i)),
          s * (r * (1 + e * Real.cos ν)) * Real.cos i] ∧
    dynamics.norm GoMath.real (dynamics.cross o.R o.V) = s * (r * (1 + e * Real.cos ν)) ∧
    o.N = ![s * (r * (1 + e * Real.cos ν)) * Real.sin i * Real.cos Ω,
      s * (r * (1 + e * Real.cos ν)) * Real.sin i * Real.sin Ω, 0] ∧
    dynamics.norm GoMath.real o.N = s * (r * (1 + e * Real.cos ν)) * Real.sin i := by
  have hcν := Real.cos_sq_add_sin_sq ν
  have hcΩ := Real.cos_sq_add_sin_sq Ω
  have hD : 0 < 1 + e * Real.cos ν := by
    have h1 := Real.neg_one_le_cos ν
    nlinarith
  obtain ⟨pRR, pVV, pRV, pX, pE⟩ :=
    perifocal_facts r s e (Real.cos ν) (Real.sin ν) hcν hr.ne' hs.ne' hD.ne'
  have hz : 0 < s * (r * (1 + e * Real.cos ν)) := by positivity
  -- the angular momentum and the node vector
  have hX : dynamics.cross o.R o.V
      = ![s * (r * (1 + e * Real.cos ν)) * (Real.sin Ω * Real.sin i),
          -(s * (r * (1 + e * Real.cos ν)) * (Real.cos Ω * Real.sin i)),
          s * (r * (1 + e * Real.cos ν)) * Real.cos i] := by
    rw [hR, hV, PQW2ECI_cross, pX, (PQW2ECI_axes i ω Ω 0 _).2]
  have nX : dynamics.norm GoMath.real (dynamics.cross o.R o.V)
      = s * (r * (1 + e * Real.cos ν)) := by
    show Real.sqrt (dynamics.dot (dynamics.cross o.R o.V) (dynamics.cross o.R o.V)) = _
    rw [hR, hV, PQW2ECI_cross, pX, PQW2ECI_dot]
    simp only [dynamics.dot, Matrix.cons_val_zero, Matrix.cons_val_one, Matrix.head_cons,
      Matrix.cons_val_two, Matrix.tail_cons, mul_zero, zero_add]
    exact Real.sqrt_mul_self hz.le
  have hN : o.N = ![s * (r * (1 + e * Real.cos ν)) * Real.sin i * Real.cos Ω,
      s * (r * (1 + e * Real.cos ν)) * Real.sin i * Real.sin Ω, 0] := by
    unfold dynamics.Orbit.N
    rw [hX]
    funext j
    fin_cases j <;> simp <;> ring
  have nN : dynamics.norm GoMath.real o.N = s * (r * (1 + e * Real.cos ν)) * Real.sin i := by
    rw [hN]
    simp only [dynamics.norm, GoMath.real, Matrix.cons_val_zero, Matrix.cons_val_one,
      Matrix.head_cons, Matrix.cons_val_two, Matrix.tail_cons, mul_zero, add_zero]
    have : s * (r * (1 + e * Real.cos ν)) * Real.sin i * Real.cos Ω
          * (s * (r * (1 + e * Real.cos ν)) * Real.sin i * Real.cos Ω)
        + s * (r * (1 + e * Real.cos ν)) * Real.sin i * Real.sin Ω
          * (s * (r * (1 + e * Real.cos ν)) * Real.sin i * Real.sin Ω)
        = (s * (r * (1 + e * Real.cos ν)) * Real.sin i)
          * (s * (r * (1 + e * Real.cos ν)) * Real.sin i) := by
      linear_combination ((s * (r * (1 + e * Real.cos ν)) * Real.sin i) ^ 2) * hcΩ
    rw [this, Real.sqrt_mul_self (by positivity)]
  exact ⟨hX, nX, hN, nN⟩

/-- The eccentricity vector of such a state around a body of gravitational
parameter `s² r (1 + e cos ν)`: it is the image of `(e, 0, 0)`. -/
theorem perifocal_eVec (o : dynamics.Orbit ℝ) (r s e i ω Ω ν : ℝ)
    (hR : o.R = dynamics.PQW2ECI GoMath.real i ω Ω ![r * Real.cos ν, r * Real.sin ν, 0])
    (hV : o.V = dynamics.PQW2ECI GoMath.real i ω Ω
      ![-s * Real.sin ν, s * (e + Real.cos ν), 0])
    (hμ : o.Origin.μ = s * s * (r * (1 + e * Real.cos ν)))
    (hr : 0 < r) (hs : 0 < s) (he0 : 0 ≤ e) (he1 : e < 1) :
    o.eVec GoMath.real = dynamics.PQW2ECI GoMath.real i ω Ω ![e, 0, 0] := by
  have hcν := Real.cos_sq_add_sin_sq ν
  have hcΩ := Real.cos_sq_add_sin_sq Ω
  have hD : 0 < 1 + e * Real.cos ν := by
    have h1 := Real.neg_one_le_cos ν
    nlinarith
  obtain ⟨pRR, pVV, pRV, pX, pE⟩ :=
    perifocal_facts r s e (Real.cos ν) (Real.sin ν) hcν hr.ne' hs.ne' hD.ne'
  have hz : 0 < s * (r * (1 + e * Real.cos ν)) := by positivity
  obtain ⟨dRV, dVV, nR, nV⟩ := perifocal_state o r s e i ω Ω ν hR hV hr hs he0 he1
  unfold dynamics.Orbit.eVec
  rw [nV, nR, dRV, hμ, hR, hV, PQW2ECI_linear, pE]

/-- The eccentricity of such a state and the inner products of its
eccentricity vector with the position and with the node vector. -/
theorem perifocal_products (o : dynamics.Orbit ℝ) (r s e i ω Ω ν : ℝ)
    (hR : o.R = dynamics.PQW2ECI GoMath.real i ω Ω ![r * Real.cos ν, r * Real.sin ν, 0])
    (hV : o.V = dynamics.PQW2ECI GoMath.real i ω Ω
      ![-s * Real.sin ν, s * (e + Real.cos ν), 0])
    (hμ : o.Origin.μ = s * s * (r * (1 + e * Real.cos ν)))
    (hr : 0 < r) (hs : 0 < s) (he0 : 0 < e) (he1 : e < 1)
    (hsi : 0 < Real.sin i) :
    dynamics.norm GoMath.real (o.eVec GoMath.real) = e ∧
    dynamics.dot (o.eVec GoMath.real) o.R = e * (r * Real.cos ν) ∧
    o.eVec GoMath.real 2 = e * (Real.sin ω * Real.sin i) ∧
    dynamics.dot o.N (o.eVec GoMath.real) = s * (r * (1 + e * Real.cos ν)) * Real.sin i * e * Real.cos ω := by
  have hcΩ := Real.cos_sq_add_sin_sq Ω
  obtain ⟨_, _, hN, _⟩ := perifocal_momentum o r s e i ω Ω ν hR hV hr hs he0.le he1 hsi
  have hE := perifocal_eVec o r s e i ω Ω ν hR hV hμ hr hs he0.le he1
  have nE : dynamics.norm GoMath.real (o.eVec GoMath.real) = e := by
    show Real.sqrt (dynamics.dot (o.eVec GoMath.real) (o.eVec GoMath.real)) = e
    rw [hE, PQW2ECI_dot]
    simp only [dynamics.dot, Matrix.cons_val_zero, Matrix.cons_val_one, Matrix.head_cons,
      Matrix.cons_val_two, Matrix.tail_cons, mul_zero, add_zero]
    exact Real.sqrt_mul_self he0.le
  have dER : dynamics.dot (o.eVec GoMath.real) o.R = e * (r * Real.cos ν) := by
    rw [hE, hR, PQW2ECI_dot]
    simp [dynamics.dot]
  have hE2 : o.eVec GoMath.real 2 = e * (Real.sin ω * Real.sin i) := by
    rw [hE, (PQW2ECI_axes i ω Ω e 0).1]
    simp
  have dNE : dynamics.dot o.N (o.eVec GoMath.real)
      = s * (r * (1 + e * Real.cos ν)) * Real.sin i * e * Real.cos ω := by
    rw [hE, (PQW2ECI_axes i ω Ω e 0).1, hN]
    simp [dynamics.dot]
    linear_combination
      (s * (r * (1 + e * Real.cos ν)) * Real.sin i * e * Real.cos ω) * hcΩ
  exact ⟨nE, dER, hE2, dNE⟩

/-- The elements `GetOE` reads from a state that is the rotation by `PQW2ECI`
of a perifocal position of radius `r` at the true anomaly `ν` and of the
perifocal velocity of speed factor `s`, around a body of gravitational
parameter `s² r (1 + e cos ν)`. -/
theorem GetOE_of_perifocal (o : dynamics.Orbit ℝ) (r s e i ω Ω ν : ℝ)
    (hR : o.R = dynamics.PQW2ECI GoMath.real i ω Ω ![r * Real.cos ν, r * Real.sin ν, 0])
    (hV : o.V = dynamics.PQW2ECI GoMath.real i ω Ω
      ![-s * Real.sin ν, s * (e + Real.cos ν), 0])
    (hμ : o.Origin.μ = s * s * (r * (1 + e * Real.cos ν)))
    (hr : 0 < r) (hs : 0 < s) (he0 : 0 < e) (he1 : e < 1)
    (hi0 : 0 < i) (hi1 : i < Real.pi)
    (hω0 : 0 ≤ ω) (hω1 : ω < 2 * Real.pi) (hΩ0 : 0 ≤ Ω) (hΩ1 : Ω < 2 * Real.pi)
    (hν0 : 0 ≤ ν) (hν1 : ν < 2 * Real.pi) :
    o.GetOE GoMath.real
      = { a := r * (1 + e * Real.cos ν) / (1 - e ^ 2), e := e, i := i, ω := ω, Ω := Ω,
          ν := ν } := by
  have hD : 0 < 1 + e * Real.cos ν := by
    have h1 := Real.neg_one_le_cos ν
    nlinarith
  have hsi : 0 < Real.sin i := Real.sin_pos_of_pos_of_lt_pi hi0 hi1
  have hz : 0 < s * (r * (1 + e * Real.cos ν)) := by positivity
  obtain ⟨dRV, dVV, nR, _⟩ := perifocal_state o r s e i ω Ω ν hR hV hr hs he0.le he1
  obtain ⟨hX, nX, hN, nN⟩ := perifocal_momentum o r s e i ω Ω ν hR hV hr hs he0.le he1 hsi
  obtain ⟨nE, dER, hE2, dNE⟩ :=
    perifocal_products o r s e i ω Ω ν hR hV hμ hr hs he0 he1 hsi
  have hN0 : o.N 0 = s * (r * (1 + e * Real.cos ν)) * Real.sin i * Real.cos Ω := by
    rw [hN]; rfl
  have hN1 : o.N 1 = s * (r * (1 + e * Real.cos ν)) * Real.sin i * Real.sin Ω := by
    rw [hN]; rfl
  have hX2 : dynamics.cross o.R o.V 2 = s * (r * (1 + e * Real.cos ν)) * Real.cos i := by
    rw [hX]; rfl
  have hzi : 0 < s * (r * (1 + e * Real.cos ν)) * Real.sin i := by positivity
  unfold dynamics.Orbit.GetOE
  simp only [nE, nR, nX, nN, hμ, dVV, dNE, dER, dRV, hE2, hN0, hN1, hX2,
    dynamics.Elements.mk.injEq]
  simp only [GoMath.real]
  refine ⟨?_, trivial, ?_, ?_, ?_, ?_⟩
  · have he2 : (1 : ℝ) - e ^ 2 ≠ 0 := by nlinarith
    have hden : 2 * (0.5 * (s * s * (1 + e ^ 2 + 2 * e * Real.cos ν))
        - s * s * (r * (1 + e * Real.cos ν)) / r) = -(s * s * (1 - e ^ 2)) := by
      field_simp
      ring
    rw [hden]
    field_simp
    ring
  · rw [mul_div_cancel_left₀ _ hz.ne']
    exact Real.arccos_cos hi0.le hi1.le
  · have : s * (r * (1 + e * Real.cos ν)) * Real.sin i * e * Real.cos ω
        / (s * (r * (1 + e * Real.cos ν)) * Real.sin i * e) = Real.cos ω :=
      mul_div_cancel_left₀ _ (by positivity)
    rw [this]
    exact quadrant_check ω hω0 hω1 _ ((pos_mul_neg_iff e _ he0).trans (by
      rw [mul_comm]; exact pos_mul_neg_iff _ _ hsi))
  · rw [mul_div_cancel_left₀ _ hzi.ne']
    exact quadrant_check Ω hΩ0 hΩ1 _ (pos_mul_neg_iff _ _ hzi)
  · have : e * (r * Real.cos ν) / (e * r) = Real.cos ν := by
      field_simp
      ring
    rw [this]
    exact quadrant_check ν hν0 hν1 _ (pos_mul_neg_iff _ _ (by positivity))

/-- The divisors and the quotients of `GetOE` on such a state: no divisor is
zero, and the four quotients passed to `math.Acos` are the cosines of `i`,
`Ω`, `ω` and `ν`, hence in `[-1, 1]`. -/
theorem perifocal_quotients (o : dynamics.Orbit ℝ) (r s e i ω Ω ν : ℝ)
    (hR : o.R = dynamics.PQW2ECI GoMath.real i ω Ω ![r * Real.cos ν, r * Real.sin ν, 0])
    (hV : o.V = dynamics.PQW2ECI GoMath.real i ω Ω
      ![-s * Real.sin ν, s * (e + Real.cos ν), 0])
    (hμ : o.Origin.μ = s * s * (r * (1 + e * Real.cos ν)))
    (hr : 0 < r) (hs : 0 < s) (he0 : 0 < e) (he1 : e < 1)
    (hi0 : 0 < i) (hi1 : i < Real.pi) :
    (o.Origin.μ ≠ 0 ∧ dynamics.norm GoMath.real o.R ≠ 0 ∧
      dynamics.norm GoMath.real (dynamics.cross o.R o.V) ≠ 0 ∧
      dynamics.norm GoMath.real o.N ≠ 0 ∧
      dynamics.norm GoMath.real (o.eVec GoMath.real) ≠ 0 ∧
      2 * (0.5 * dynamics.dot o.V o.V - o.Origin.μ / dynamics.norm GoMath.real o.R) ≠ 0) ∧
    (dynamics.cross o.R o.V 2 / dynamics.norm GoMath.real (dynamics.cross o.R o.V)
        = Real.cos i ∧
      o.N 0 / dynamics.norm GoMath.real o.N = Real.cos Ω ∧
      dynamics.dot o.N (o.eVec GoMath.real)
        / (dynamics.norm GoMath.real o.N * dynamics.norm GoMath.real (o.eVec GoMath.real))
        = Real.cos ω ∧
      dynamics.dot (o.eVec GoMath.real) o.R
        / (dynamics.norm GoMath.real (o.eVec GoMath.real) * dynamics.norm GoMath.real o.R)
        = Real.cos ν) := by
  have hD : 0 < 1 + e * Real.cos ν := by
    have h1 := Real.neg_one_le_cos ν
    nlinarith
  have hsi : 0 < Real.sin i := Real.sin_pos_of_pos_of_lt_pi hi0 hi1
  have hz : 0 < s * (r * (1 + e * Real.cos ν)) := by positivity
  obtain ⟨dRV, dVV, nR, _⟩ := perifocal_state o r s e i ω Ω ν hR hV hr hs he0.le he1
  obtain ⟨hX, nX, hN, nN⟩ := perifocal_momentum o r s e i ω Ω ν hR hV hr hs he0.le he1 hsi
  obtain ⟨nE, dER, _, dNE⟩ :=
    perifocal_products o r s e i ω Ω ν hR hV hμ hr hs he0 he1 hsi
  have hN0 : o.N 0 = s * (r * (1 + e * Real.cos ν)) * Real.sin i * Real.cos Ω := by
    rw [hN]; rfl
  have hX2 : dynamics.cross o.R o.V 2 = s * (r * (1 + e * Real.cos ν)) * Real.cos i := by
    rw [hX]; rfl
  have hzi : 0 < s * (r * (1 + e * Real.cos ν)) * Real.sin i := by positivity
  have hzi : 0 < s * (r * (1 + e * Real.cos ν)) * Real.sin i := by positivity
  have he2 : (1 : ℝ) - e ^ 2 ≠ 0 := by nlinarith
  have hden : 2 * (0.5 * (s * s * (1 + e ^ 2 + 2 * e * Real.cos ν))
      - s * s * (r * (1 + e * Real.cos ν)) / r) = -(s * s * (1 - e ^ 2)) := by
    field_simp
    ring
  refine ⟨⟨?_, ?_, ?_, ?_, ?_, ?_⟩, ?_, ?_, ?_, ?_⟩
  · rw [hμ]
    positivity
  · rw [nR]
    exact hr.ne'
  · rw [nX]
    exact hz.ne'
  · rw [nN]
    exact hzi.ne'
  · rw [nE]
    exact he0.ne'
  · rw [dVV, hμ, nR, hden]
    have : 0 < s * s * (1 - e ^ 2) := by
      have : 0 < 1 - e ^ 2 := by nlinarith
      positivity
    linarith
  · rw [hX2, nX]
    exact mul_div_cancel_left₀ _ hz.ne'
  · rw [hN0, nN]
    exact mul_div_cancel_left₀ _ hzi.ne'
  · rw [dNE, nN, nE]
    exact mul_div_cancel_left₀ _ (by positivity)
  · rw [dER, nE, nR]
    field_simp
    ring

/-- The orbit `NewOrbitFromOE` builds from elements it accepts, around a body
of positive gravitational parameter: the rotation by `PQW2ECI` of the
perifocal position of radius `r = p / (1 + e cos ν)` and of the perifocal
velocity of speed factor `s = √(μ / p)`, with `μ = s² r (1 + e cos ν)`. -/
theorem NewOrbitFromOE_perifocal (c : CelestialObject ℝ) (a e i ω Ω ν : ℝ)
    (hμ : 0 < c.μ) (ha : 0 < a) (he0 : 0 ≤ e) (he1 : e < 1) (hν0 : 1e-10 ≤ ν) :
    ∃ o r s, dynamics.NewOrbitFromOE GoMath.real a e i ω Ω ν c = .ok o ∧
      o.R = dynamics.PQW2ECI GoMath.real i ω Ω ![r * Real.cos ν, r * Real.sin ν, 0] ∧
      o.V = dynamics.PQW2ECI GoMath.real i ω Ω
        ![-s * Real.sin ν, s * (e + Real.cos ν), 0] ∧
      o.Origin.μ = s * s * (r * (1 + e * Real.cos ν)) ∧
      0 < r ∧ 0 < s ∧ r * (1 + e * Real.cos ν) = a * (1 - e ^ 2) := by
  have hD : 0 < 1 + e * Real.cos ν := by
    have h1 := Real.neg_one_le_cos ν
    nlinarith
  have hp : 0 < a * (1 - e ^ 2) := by
    have : 0 < 1 - e ^ 2 := by nlinarith
    positivity
  have hp1 : a * (1.0 - math.Pow e 2) = a * (1 - e ^ 2) := by
    simp only [math.Pow]
    norm_num
  have ho : dynamics.NewOrbitFromOE GoMath.real a e i ω Ω ν c
      = .ok { R := dynamics.PQW2ECI GoMath.real i ω Ω
                ![a * (1.0 - math.Pow e 2) * GoMath.real.Cos ν / (1 + e * GoMath.real.Cos ν),
                  a * (1.0 - math.Pow e 2) * GoMath.real.Sin ν / (1 + e * GoMath.real.Cos ν),
                  0],
              V := dynamics.PQW2ECI GoMath.real i ω Ω
                ![-GoMath.real.Sqrt (c.μ / (a * (1.0 - math.Pow e 2))) * GoMath.real.Sin ν,
                  GoMath.real.Sqrt (c.μ / (a * (1.0 - math.Pow e 2)))
                    * (e + GoMath.real.Cos ν), 0],
              Origin := c } := by
    unfold dynamics.NewOrbitFromOE
    rw [if_neg (not_lt.mpr hν0), if_neg (by push_neg; exact ⟨he0, he1.le⟩)]
  refine ⟨_, a * (1 - e ^ 2) / (1 + e * Real.cos ν), Real.sqrt (c.μ / (a * (1 - e ^ 2))),
    ho, ?_, ?_, ?_, by positivity, Real.sqrt_pos.mpr (by positivity), ?_⟩
  · simp only [hp1, GoMath.real, mul_div_right_comm]
  · simp only [hp1, GoMath.real]
  · simp only []
    rw [Real.mul_self_sqrt (by positivity)]
    field_simp
  · field_simp

/-- C21: over the reals, for a body with positive gravitational parameter and
elements with `a > 0`, `0 < e < 1`, `0 < i < π`, `ω` and `Ω` in `[0, 2π)` and
`ν` in `[1e-10, 2π)`, `NewOrbitFromOE(a, e, i, ω, Ω, ν, c)` returns an orbit
and `GetOE` reads back from it the six values `a, e, i, ω, Ω, ν`; along the
way no divisor is zero, the square root of `NewOrbitFromOE` is taken of a
number that is not negative, and the four quotients passed to `math.Acos` are
the cosines of `i`, `Ω`, `ω` and `ν`, hence in `[-1, 1]`. -/
theorem NewOrbitFromOE_GetOE_roundtrip (c : CelestialObject ℝ) (a e i ω Ω ν : ℝ)
    (hμ : 0 < c.μ) (ha : 0 < a) (he0 : 0 < e) (he1 : e < 1)
    (hi0 : 0 < i) (hi1 : i < Real.pi)
    (hω0 : 0 ≤ ω) (hω1 : ω < 2 * Real.pi) (hΩ0 : 0 ≤ Ω) (hΩ1 : Ω < 2 * Real.pi)
    (hν0 : 1e-10 ≤ ν) (hν1 : ν < 2 * Real.pi) :
    ∃ o, dynamics.NewOrbitFromOE GoMath.real a e i ω Ω ν c = .ok o ∧
      o.GetOE GoMath.real = { a := a, e := e, i := i, ω := ω, Ω := Ω, ν := ν } ∧
      (1 + e * Real.cos ν ≠ 0 ∧ a * (1 - e ^ 2) ≠ 0 ∧ 0 ≤ c.μ / (a * (1 - e ^ 2))) ∧
      (o.Origin.μ ≠ 0 ∧ dynamics.norm GoMath.real o.R ≠ 0 ∧
        dynamics.norm GoMath.real (dynamics.cross o.R o.V) ≠ 0 ∧
        dynamics.norm GoMath.real o.N ≠ 0 ∧
        dynamics.norm GoMath.real (o.eVec GoMath.real) ≠ 0 ∧
        2 * (0.5 * dynamics.dot o.V o.V - o.Origin.μ / dynamics.norm GoMath.real o.R) ≠ 0) ∧
      (dynamics.cross o.R o.V 2 / dynamics.norm GoMath.real (dynamics.cross o.R o.V)
          = Real.cos i ∧
        o.N 0 / dynamics.norm GoMath.real o.N = Real.cos Ω ∧
        dynamics.dot o.N (o.eVec GoMath.real)
          / (dynamics.norm GoMath.real o.N * dynamics.norm GoMath.real (o.eVec GoMath.real))
          = Real.cos ω ∧
        dynamics.dot (o.eVec GoMath.real) o.R
          / (dynamics.norm GoMath.real (o.eVec GoMath.real) * dynamics.norm GoMath.real o.R)
          = Real.cos ν) := by
  obtain ⟨o, r, s, ho, hR, hV, hμ', hr, hs, hrp⟩ :=
    NewOrbitFromOE_perifocal c a e i ω Ω ν hμ ha he0.le he1 hν0
  have hν : (0 : ℝ) ≤ ν := le_trans (by norm_num) hν0
  have hD : 0 < 1 + e * Real.cos ν := by
    have h1 := Real.neg_one_le_cos ν
    nlinarith
  have hp : 0 < a * (1 - e ^ 2) := by
    have : 0 < 1 - e ^ 2 := by nlinarith
    positivity
  obtain ⟨hdiv, hquo⟩ := perifocal_quotients o r s e i ω Ω ν hR hV hμ' hr hs he0 he1 hi0 hi1
  refine ⟨o, ho, ?_, ⟨hD.ne', hp.ne', by positivity⟩, hdiv, hquo⟩
  rw [GetOE_of_perifocal o r s e i ω Ω ν hR hV hμ' hr hs he0 he1 hi0 hi1 hω0 hω1 hΩ0 hΩ1
    hν hν1, hrp]
  have : (1 : ℝ) - e ^ 2 ≠ 0 := by nlinarith
  rw [mul_div_cancel_right₀ _ this]

/-- Witness of C21: the elements `a = 7000`, `e = 0.1`, `i = 0.5`, `ω = Ω = ν = 1`
around the sample body. -/
theorem NewOrbitFromOE_GetOE_roundtrip_witness :
    ∃ o, dynamics.NewOrbitFromOE GoMath.real 7000 0.1 0.5 1 1 1 sampleBody = .ok o ∧
      o.GetOE GoMath.real = { a := 7000, e := 0.1, i := 0.5, ω := 1, Ω := 1, ν := 1 } :=
  let ⟨o, h1, h2, _⟩ := NewOrbitFromOE_GetOE_roundtrip sampleBody 7000 0.1 0.5 1 1 1
    (by norm_num [sampleBody]) (by norm_num) (by norm_num) (by norm_num) (by norm_num)
    (by linarith [Real.pi_gt_three]) (by norm_num) (by linarith [Real.pi_gt_three])
    (by norm_num) (by linarith [Real.pi_gt_three]) (by norm_num)
    (by linarith [Real.pi_gt_three])
  ⟨o, h1, h2⟩

/-- The rotation `R3` by `-ω` of a perifocal position or velocity of a
circular orbit at the true anomaly `ν` is the one at the angle `ω + ν`. -/
theorem R3_neg_circular (x ω ν : ℝ) :
    dynamics.MxV33 (dynamics.R3 GoMath.real (-ω)) ![x * Real.cos ν, x * Real.sin ν, 0]
      = ![x * Real.cos (ω + ν), x * Real.sin (ω + ν), 0] ∧
    dynamics.MxV33 (dynamics.R3 GoMath.real (-ω)) ![-x * Real.sin ν, x * Real.cos ν, 0]
      = ![-x * Real.sin (ω + ν), x * Real.cos (ω + ν), 0] := by
  constructor <;> funext j <;> fin_cases j <;>
    simp [dynamics.MxV33, dynamics.R3, GoMath.real, Matrix.vecHead, Matrix.vecTail,
      Real.cos_add, Real.sin_add] <;> ring

/-- The orbit `NewOrbitFromOE` builds for the eccentricity 0 depends on `ω` and
`ν` through their sum only. -/
theorem NewOrbitFromOE_circular (c : CelestialObject ℝ) (a i ω Ω ν : ℝ) (hν0 : 1e-10 ≤ ν) :
    dynamics.NewOrbitFromOE GoMath.real a 0 i ω Ω ν c
      = .ok { R := dynamics.MxV33 (dynamics.R3 GoMath.real (-Ω))
                (dynamics.MxV33 (dynamics.R1 GoMath.real (-i))
                  ![a * Real.cos (ω + ν), a * Real.sin (ω + ν), 0]),
              V := dynamics.MxV33 (dynamics.R3 GoMath.real (-Ω))
                (dynamics.MxV33 (dynamics.R1 GoMath.real (-i))
                  ![-Real.sqrt (c.μ / a) * Real.sin (ω + ν),
                    Real.sqrt (c.μ / a) * Real.cos (ω + ν), 0]),
              Origin := c } := by
  unfold dynamics.NewOrbitFromOE
  rw [if_neg (not_lt.mpr hν0), if_neg (by norm_num)]
  have hp : a * ((1.0 : ℝ) - math.Pow 0 2) = a := by
    simp only [math.Pow]
    norm_num
  simp only [hp, dynamics.PQW2ECI, zero_mul, add_zero, div_one, zero_add]
  rw [← (R3_neg_circular a ω ν).1, ← (R3_neg_circular (Real.sqrt (c.μ / a)) ω ν).2]
  rfl

/-- The argument of periapsis `GetOE` returns when the eccentricity vector is
the image of the zero vector: the quotient has the denominator 0, and with
the quotient taken as 0 the result is `π / 2`. -/
theorem GetOE_circular (o : dynamics.Orbit ℝ) (i ω Ω : ℝ)
    (hE : o.eVec GoMath.real = dynamics.PQW2ECI GoMath.real i ω Ω ![0, 0, 0]) :
    dynamics.norm GoMath.real (o.eVec GoMath.real) = 0 ∧
    (o.GetOE GoMath.real).ω = Real.pi / 2 := by
  have h0 : o.eVec GoMath.real = ![0, 0, 0] := by
    rw [hE, (PQW2ECI_axes i ω Ω 0 0).1]
    simp
  have hn : dynamics.norm GoMath.real (o.eVec GoMath.real) = 0 := by
    rw [h0]
    simp [dynamics.norm, GoMath.real]
  refine ⟨hn, ?_⟩
  unfold dynamics.Orbit.GetOE
  simp only [hn, mul_zero, div_zero]
  rw [h0]
  simp [GoMath.real]

/-- Around the sample body, the elements `a = 7000`, `e = 0`, `i = 0.5`, `Ω = 1`
with `ω = 1`, `ν = 1` and with `ω = 0.5`, `ν = 1.5` give the same orbit, so that
no reading of the orbit returns both sets; the eccentricity `GetOE` computes
is 0, the divisor of the quotient for `ω`, and the `ω` it returns is not 1. -/
theorem circular_same_state :
    ∃ o, dynamics.NewOrbitFromOE GoMath.real 7000 0 0.5 1 1 1 sampleBody = .ok o ∧
      dynamics.NewOrbitFromOE GoMath.real 7000 0 0.5 0.5 1 1.5 sampleBody = .ok o ∧
      (o.GetOE GoMath.real).e = 0 ∧
      (o.GetOE GoMath.real).ω ≠ 1 := by
  have h1 := NewOrbitFromOE_circular sampleBody 7000 0.5 1 1 1 (by norm_num)
  have h2 := NewOrbitFromOE_circular sampleBody 7000 0.5 0.5 1 1.5 (by norm_num)
  have e1 : (1 : ℝ) + 1 = 2 := by norm_num
  have e2 : (0.5 : ℝ) + 1.5 = 2 := by norm_num
  rw [e1] at h1
  rw [e2] at h2
  refine ⟨_, h1, h2, ?_⟩
  obtain ⟨o, r, s, ho, hR, hV, hμ, hr, hs, _⟩ :=
    NewOrbitFromOE_perifocal sampleBody 7000 0 0.5 1 1 1 (by norm_num [sampleBody])
      (by norm_num) le_rfl (by norm_num) (by norm_num)
  rw [h1] at ho
  cases ho
  have hE := perifocal_eVec _ r s 0 0.5 1 1 1 hR hV hμ hr hs le_rfl (by norm_num)
  obtain ⟨hn, hω⟩ := GetOE_circular _ 0.5 1 1 hE
  refine ⟨hn, ?_⟩
  rw [hω]
  have := Real.pi_gt_three
  intro h
  linarith

/-- A `float64` above one half is an integer multiple of `2 ^ (-53)`. -/
theorem isFloat64_grid (q : ℝ) (hq : isFloat64 q) (h : 1 / 2 ≤ q) :
    ∃ n : ℤ, q * 2 ^ 53 = n := by
  obtain ⟨m, e, hm, rfl⟩ := hq
  have he : -53 ≤ e := by
    by_contra hlt
    push_neg at hlt
    have h54 : e ≤ -54 := by omega
    have h2 : (2 : ℝ) ^ e ≤ (2 : ℝ) ^ (-54 : ℤ) := zpow_le_zpow_right₀ (by norm_num) h54
    have hm' : |(m : ℝ)| < 2 ^ 53 := by exact_mod_cast hm
    have hpos : (0 : ℝ) < (2 : ℝ) ^ e := by positivity
    have habs : (m : ℝ) * (2 : ℝ) ^ e ≤ |(m : ℝ)| * (2 : ℝ) ^ e :=
      mul_le_mul_of_nonneg_right (le_abs_self _) hpos.le
    have h3 : |(m : ℝ)| * (2 : ℝ) ^ e ≤ |(m : ℝ)| * (2 : ℝ) ^ (-54 : ℤ) :=
      mul_le_mul_of_nonneg_left h2 (abs_nonneg _)
    have h4 : |(m : ℝ)| * (2 : ℝ) ^ (-54 : ℤ) < 2 ^ 53 * (2 : ℝ) ^ (-54 : ℤ) :=
      mul_lt_mul_of_pos_right hm' (by positivity)
    have h5 : (2 : ℝ) ^ 53 * (2 : ℝ) ^ (-54 : ℤ) = 1 / 2 := by norm_num
    rw [h5] at h4
    exact absurd (lt_of_le_of_lt (le_trans habs h3) h4) (not_lt.mpr h)
  obtain ⟨k, hk⟩ := Int.eq_ofNat_of_zero_le (show (0 : ℤ) ≤ e + 53 by omega)
  refine ⟨m * 2 ^ k, ?_⟩
  have h2 : (2 : ℝ) ^ e * 2 ^ 53 = 2 ^ k := by
    have : (2 : ℝ) ^ e * 2 ^ 53 = (2 : ℝ) ^ (e + 53) := by
      rw [zpow_add₀ (by norm_num : (2 : ℝ) ≠ 0)]
      norm_num
    rw [this, hk, zpow_natCast]
  push_cast
  rw [mul_assoc, h2]

/-- No `float64` has its arccosine within the relative distance `1e-3` of
`13 / 2 ^ 27`: the cosines of that neighbourhood lie strictly between
`1 - 43 / 2 ^ 53` and `1 - 42 / 2 ^ 53`, two neighbours of the grid. -/
theorem arccos_float64_far (q : ℝ) (hq : isFloat64 q) :
    |Real.arccos q - 13 / 2 ^ 27| > 1e-3 * (13 / 2 ^ 27) := by
  by_contra hle
  push_neg at hle
  obtain ⟨hlo, hhi⟩ := abs_le.mp hle
  have hθ0 : (13 / 2 ^ 27 : ℝ) * (1 - 1e-3) ≤ Real.arccos q := by linarith
  have hθ1 : Real.arccos q ≤ (13 / 2 ^ 27 : ℝ) * (1 + 1e-3) := by linarith
  have hpos : 0 < Real.arccos q := lt_of_lt_of_le (by norm_num) hθ0
  have hsmall : Real.arccos q ≤ 1 / 2 ^ 19 := le_trans hθ1 (by norm_num)
  have hq1 : q < 1 := by
    by_contra h
    push_neg at h
    rw [Real.arccos_eq_zero.mpr h] at hpos
    exact lt_irrefl _ hpos
  have hq0 : -1 ≤ q := by
    by_contra h
    push_neg at h
    rw [Real.arccos_of_le_neg_one h.le] at hsmall
    have := Real.pi_gt_three
    have : (1 : ℝ) / 2 ^ 19 < 3 := by norm_num
    linarith
  have hcos : Real.cos (Real.arccos q) = q := Real.cos_arccos hq0 hq1.le
  have habs : |Real.arccos q| ≤ 1 := by
    rw [abs_of_pos hpos]
    exact le_trans hsmall (by norm_num)
  have hb := abs_le.mp (Real.cos_bound habs)
  rw [hcos, abs_of_pos hpos] at hb
  obtain ⟨hb1, hb2⟩ := hb
  -- the square of the angle
  have hsq0 : ((13 / 2 ^ 27 : ℝ) * (1 - 1e-3)) ^ 2 ≤ Real.arccos q ^ 2 :=
    pow_le_pow_left₀ (by norm_num) hθ0 2
  have hsq1 : Real.arccos q ^ 2 ≤ ((13 / 2 ^ 27 : ℝ) * (1 + 1e-3)) ^ 2 :=
    pow_le_pow_left₀ hpos.le hθ1 2
  have h4 : Real.arccos q ^ 4 ≤ (1 / 2 ^ 19 : ℝ) ^ 4 := pow_le_pow_left₀ hpos.le hsmall 4
  have hhalf : 1 / 2 ≤ q := by
    have : ((13 / 2 ^ 27 : ℝ) * (1 + 1e-3)) ^ 2 ≤ 1 / 2 := by norm_num
    nlinarith
  obtain ⟨n, hn⟩ := isFloat64_grid q hq hhalf
  have hup : (2 : ℝ) ^ 53 - 43 < q * 2 ^ 53 := by
    have e1 : ((13 / 2 ^ 27 : ℝ) * (1 + 1e-3)) ^ 2 / 2 * 2 ^ 53 < 43 := by norm_num
    nlinarith
  have hdown : q * 2 ^ 53 < (2 : ℝ) ^ 53 - 42 := by
    have e1 : (42 : ℝ) < (((13 / 2 ^ 27 : ℝ) * (1 - 1e-3)) ^ 2 / 2
        - (1 / 2 ^ 19 : ℝ) ^ 4 * (5 / 96)) * 2 ^ 53 := by norm_num
    nlinarith
  rw [hn] at hup hdown
  have h1 : (2 : ℤ) ^ 53 - 43 < n := by exact_mod_cast hup
  have h2 : n < (2 : ℤ) ^ 53 - 42 := by exact_mod_cast hdown
  omega

/-- In double precision the true anomaly `13 / 2 ^ 27`, itself a `float64`
that `NewOrbitFromOE` accepts, is not read back within the relative distance
`1e-3`: whatever the state, when the quotient `GetOE` passes to `math.Acos`
for the true anomaly is a `float64`, the angle it returns is further away. -/
theorem GetOE_ν_float64_far (o : dynamics.Orbit ℝ)
    (hq : isFloat64 (dynamics.dot (o.eVec GoMath.real) o.R
      / (dynamics.norm GoMath.real (o.eVec GoMath.real) * dynamics.norm GoMath.real o.R))) :
    |(o.GetOE GoMath.real).ν - 13 / 2 ^ 27| > 1e-3 * (13 / 2 ^ 27) := by
  have hfar := arccos_float64_far _ hq
  show |(if dynamics.dot o.R o.V < 0 then
      2 * Real.pi - Real.arccos (dynamics.dot (o.eVec GoMath.real) o.R
        / (dynamics.norm GoMath.real (o.eVec GoMath.real) * dynamics.norm GoMath.real o.R))
    else Real.arccos (dynamics.dot (o.eVec GoMath.real) o.R
        / (dynamics.norm GoMath.real (o.eVec GoMath.real) * dynamics.norm GoMath.real o.R)))
    - 13 / 2 ^ 27| > 1e-3 * (13 / 2 ^ 27)
  by_cases hc : dynamics.dot o.R o.V < 0
  · rw [if_pos hc]
    have h1 := Real.arccos_le_pi (dynamics.dot (o.eVec GoMath.real) o.R
        / (dynamics.norm GoMath.real (o.eVec GoMath.real) * dynamics.norm GoMath.real o.R))
    have h2 := Real.pi_gt_three
    have h3 : (1e-3 : ℝ) * (13 / 2 ^ 27) + 13 / 2 ^ 27 < 3 := by norm_num
    have h4 := le_abs_self (2 * Real.pi - Real.arccos (dynamics.dot (o.eVec GoMath.real) o.R
        / (dynamics.norm GoMath.real (o.eVec GoMath.real) * dynamics.norm GoMath.real o.R))
        - 13 / 2 ^ 27)
    linarith
  · rw [if_neg hc]
    exact hfar

/-- The rotation `PQW2ECI` at zero inclination is the rotation of the plane by
`Ω + ω`. -/
theorem PQW2ECI_equatorial (ω Ω x y : ℝ) :
    dynamics.PQW2ECI GoMath.real 0 ω Ω ![x, y, 0]
      = ![x * Real.cos (Ω + ω) - y * Real.sin (Ω + ω),
          x * Real.sin (Ω + ω) + y * Real.cos (Ω + ω), 0] := by
  funext j
  fin_cases j <;>
    simp [dynamics.PQW2ECI, dynamics.MxV33, dynamics.R1, dynamics.R3, GoMath.real,
      Matrix.vecHead, Matrix.vecTail, Real.cos_add, Real.sin_add] <;> ring

/-- The orbit `NewOrbitFromOE` builds for the inclination 0 depends on `Ω` and
`ω` through their sum only, and its node vector is zero. -/
theorem NewOrbitFromOE_equatorial (c : CelestialObject ℝ) (a e ω Ω ν : ℝ)
    (he0 : 0 ≤ e) (he1 : e ≤ 1) (hν0 : 1e-10 ≤ ν) :
    ∃ x y u v, dynamics.NewOrbitFromOE GoMath.real a e 0 ω Ω ν c
      = .ok { R := ![x * Real.cos (Ω + ω) - y * Real.sin (Ω + ω),
                     x * Real.sin (Ω + ω) + y * Real.cos (Ω + ω), 0],
              V := ![u * Real.cos (Ω + ω) - v * Real.sin (Ω + ω),
                     u * Real.sin (Ω + ω) + v * Real.cos (Ω + ω), 0],
              Origin := c } ∧
      x = a * (1.0 - math.Pow e 2) * Real.cos ν / (1 + e * Real.cos ν) ∧
      y = a * (1.0 - math.Pow e 2) * Real.sin ν / (1 + e * Real.cos ν) ∧
      u = -Real.sqrt (c.μ / (a * (1.0 - math.Pow e 2))) * Real.sin ν ∧
      v = Real.sqrt (c.μ / (a * (1.0 - math.Pow e 2))) * (e + Real.cos ν) := by
  refine ⟨_, _, _, _, ?_, rfl, rfl, rfl, rfl⟩
  unfold dynamics.NewOrbitFromOE
  rw [if_neg (not_lt.mpr hν0), if_neg (by push_neg; exact ⟨he0, he1⟩)]
  simp only [PQW2ECI_equatorial]
  rfl

/-- Around the sample body, the elements `a = 7000`, `e = 0.1`, `i = 0`, `ν = 1`
with `ω = 1`, `Ω = 1` and with `ω = 1.5`, `Ω = 0.5` give the same orbit, so that
no reading of the orbit returns both sets; its node vector, whose norm
`GetOE` divides by for `Ω` and `ω`, is zero. -/
theorem equatorial_same_state :
    ∃ o, dynamics.NewOrbitFromOE GoMath.real 7000 0.1 0 1 1 1 sampleBody = .ok o ∧
      dynamics.NewOrbitFromOE GoMath.real 7000 0.1 0 1.5 0.5 1 sampleBody = .ok o ∧
      o.N = 0 ∧ dynamics.norm GoMath.real o.N = 0 := by
  obtain ⟨x, y, u, v, h1, hx, hy, hu, hv⟩ :=
    NewOrbitFromOE_equatorial sampleBody 7000 0.1 1 1 1 (by norm_num) (by norm_num)
      (by norm_num)
  obtain ⟨x', y', u', v', h2, hx', hy', hu', hv'⟩ :=
    NewOrbitFromOE_equatorial sampleBody 7000 0.1 1.5 0.5 1 (by norm_num) (by norm_num)
      (by norm_num)
  have e2 : (0.5 : ℝ) + 1.5 = 1 + 1 := by norm_num
  rw [e2, hx', ← hx, hy', ← hy, hu', ← hu, hv', ← hv] at h2
  have hN : dynamics.Orbit.N
      { R := ![x * Real.cos (1 + 1) - y * Real.sin (1 + 1),
               x * Real.sin (1 + 1) + y * Real.cos (1 + 1), 0],
        V := ![u * Real.cos (1 + 1) - v * Real.sin (1 + 1),
               u * Real.sin (1 + 1) + v * Real.cos (1 + 1), 0],
        Origin := sampleBody } = 0 := by
    funext j
    fin_cases j <;> simp [dynamics.Orbit.N, dynamics.cross]
  refine ⟨_, h1, h2, hN, ?_⟩
  rw [hN]
  simp [dynamics.norm, GoMath.real]

/-- Counterexample to C21 as stated. For `e = 0`, two element sets that differ
in `ω` and `ν` give the same orbit, and `GetOE` divides by the eccentricity 0;
for `i = 0`, two element sets that differ in `ω` and `Ω` give the same orbit,
whose node vector is zero; and in double precision the true anomaly
`13 / 2 ^ 27`, a `float64` of `[1e-10, 2π)`, is never read back within the
relative distance `1e-3`, since `GetOE` returns the arccosine of a `float64`. -/
theorem NewOrbitFromOE_GetOE_roundtrip_fails :
    (∃ o, dynamics.NewOrbitFromOE GoMath.real 7000 0 0.5 1 1 1 sampleBody = .ok o ∧
      dynamics.NewOrbitFromOE GoMath.real 7000 0 0.5 0.5 1 1.5 sampleBody = .ok o ∧
      (o.GetOE GoMath.real).e = 0 ∧
      (o.GetOE GoMath.real).ω ≠ 1) ∧
    (∃ o, dynamics.NewOrbitFromOE GoMath.real 7000 0.1 0 1 1 1 sampleBody = .ok o ∧
      dynamics.NewOrbitFromOE GoMath.real 7000 0.1 0 1.5 0.5 1 sampleBody = .ok o ∧
      o.N = 0 ∧ dynamics.norm GoMath.real o.N = 0) ∧
    (isFloat64 (13 / 2 ^ 27) ∧ (1e-10 : ℝ) ≤ 13 / 2 ^ 27 ∧ (13 / 2 ^ 27 : ℝ) < 2 * Real.pi ∧
      ∀ o : dynamics.Orbit ℝ,
        isFloat64 (dynamics.dot (o.eVec GoMath.real) o.R
          / (dynamics.norm GoMath.real (o.eVec GoMath.real)
              * dynamics.norm GoMath.real o.R)) →
        |(o.GetOE GoMath.real).ν - 13 / 2 ^ 27| > 1e-3 * (13 / 2 ^ 27)) := by
  refine ⟨circular_same_state, equatorial_same_state, ⟨13, -27, by norm_num, by norm_num⟩,
    by norm_num, ?_, GetOE_ν_float64_far⟩
  have := Real.pi_gt_three
  have : (13 / 2 ^ 27 : ℝ) < 6 := by norm_num
  linarith

end smd
